import Mathlib

/-!
# Liath: the two-dimensional cortex of `portia_std.c`

A shallow embedding of `src/src/portia_std.c` (grid lifecycle, setters, stimulus and the
tick engine `c2d_tick`) together with the typedefs and macros of `src/src/cortex.h`.

Conventions of the embedding.

* Unsigned C integers are `Nat`, reduced modulo `2^w` wherever the C operation can leave the
  range of its type; signed C integers are `Int`, brought back to their type by `wrap8` /
  `wrap16` on every store (two's complement conversion).
* A cortex is a record whose neuron array is a `List neuron_t`; `c2d_tick` is a pure function
  from the previous cortex, the next cortex and the random source to the next cortex.
* `xorshf32` is not part of the available sources. It is a parameter of the model: the function
  `xorshf32 : Nat → Nat` gives the value returned by the `k`-th call (calls are numbered from 0),
  so that a statement quantified over `xorshf32` holds for every sequence of random draws.
* The `#pragma omp parallel for` of `c2d_tick` is embedded as the sequential row-major loop;
  `c2d_tick_rows` is the same loop with the rows taken in a given order.
* Operations that C leaves undefined (a shift by at least the width of the type, a division or
  modulo by zero, a read outside an array) are total in the model: shifted-out bits are lost,
  `x / 0 = 0`, `x % 0 = x`, and a read outside the array yields the all-zero neuron. The
  divisors that a tick evaluates are listed by `c2d_tick_divisors`.
-/

namespace Liath

/-! ## Machine integers -/

/-- Conversion of an integer to `int8_t` (two's complement). -/
def wrap8 (v : Int) : Int := (v + 128) % 256 - 128

/-- Conversion of an integer to `int16_t` (two's complement). -/
def wrap16 (v : Int) : Int := (v + 32768) % 65536 - 32768

/-- Conversion of an integer to `uint8_t`. -/
def toU8 (v : Int) : Nat := (v % 256).toNat

/-- Conversion of an integer to `uint32_t` (what C does to an `int` operand that meets an
`unsigned int` one). -/
def toU32 (v : Int) : Nat := (v % 4294967296).toNat

/-- Conversion of an integer to `size_t` (64 bits). -/
def toU64 (v : Int) : Nat := (v % 18446744073709551616).toNat

/-- Left shift of a 64 bit unsigned value (`0x01UL << n`). -/
def shl64 (v n : Nat) : Nat := (v <<< n) % 2 ^ 64

/-- Left shift of a 32 bit unsigned value (`(s & 0x01U) << n`): the bits shifted out of the
32 are lost. For `n >= 32` C leaves the shift undefined; the value here is then 0 for an operand
of one bit, where a processor that reduces the count to its five low bits yields `v << (n - 32)`.
Whatever the 32 bit result, it cannot reach the bit `n` of the 64 bit mask
(`strength_bit_out_of_reach`). -/
def shl32 (v n : Nat) : Nat := (v <<< n) % 2 ^ 32

/-- Bitwise complement of a 64 bit unsigned value. -/
def not64 (v : Nat) : Nat := 2 ^ 64 - (v + 1)

/-! ## Macros of `cortex.h` -/

/-- `WRAP(i, n)`. C's `%` truncates toward zero, which is `Int.tmod`. -/
def WRAP (i n : Int) : Int := if 0 ≤ i then Int.tmod i n else n + Int.tmod i n

/-- `NH_DIAM_2D(r)`. -/
def NH_DIAM_2D (r : Int) : Int := 2 * r + 1

/-- `NH_COUNT_2D(d)`. -/
def NH_COUNT_2D (d : Int) : Int := d * d - 1

/-- `IDX2D(i, j, m)`. -/
def IDX2D (i j m : Int) : Int := m * j + i

def EVOL_STEP_NEVER : Nat := 0xFFFF
def PULSE_WINDOW_LARGE : Int := 0x3F
def SAMPLE_WINDOW_SMALL : Nat := 0x10
def MAX_SYN_STRENGTH : Nat := 0x07
def DEFAULT_THRESHOLD : Int := 0x88
def DEFAULT_STARTING_VALUE : Int := 0x00
def DEFAULT_RECOVERY_VALUE : Int := -0x2A
def DEFAULT_DECAY_RATE : Int := 0x01
def DEFAULT_PULSE_WINDOW : Int := PULSE_WINDOW_LARGE
def DEFAULT_EVOL_STEP : Nat := 0x0000000A
def DEFAULT_INHEXC_RANGE : Nat := 0x64
def DEFAULT_INHEXC_RATIO : Nat := 0x06
def DEFAULT_SAMPLE_WINDOW : Nat := SAMPLE_WINDOW_SMALL
def DEFAULT_MAX_TOT_STRENGTH : Nat := 0x20
def DEFAULT_SYNGEN_CHANCE : Nat := 0x02A0
def DEFAULT_SYNSTR_CHANCE : Nat := 0x00A0

/-- `sizeof(nh_mask_t) * 8` and `sizeof(pulse_mask_t) * 8`: both masks are `uint64_t`. -/
def MASK_BITS : Nat := 64

/-- `DEFAULT_MAX_TOUCH * n` stored into a `syn_count_t`: the float product `0.25F * n` is exact
for every `int` of magnitude below `2^24`, the conversion to `uint8_t` truncates toward zero. -/
def max_touch_count (n : Int) : Nat := toU8 (Int.tdiv n 4)

/-- The macros of `c2d_init` that `cortex.h` does not define (it has `DEFAULT_EXC_VALUE` only),
taken as parameters of the model: every statement about `c2d_init` is made for all their
values. -/
structure defaults_t where
  DEFAULT_EXCITING_VALUE : Int
  DEFAULT_INHIBITING_VALUE : Int
  DEFAULT_SYNDEL_CHANCE : Nat
  DEFAULT_SYNWK_CHANCE : Nat
deriving DecidableEq, Repr

/-- The type `error_code_t` of `error.h`, which is not among the sources: the two codes that
`portia_std.c` returns. -/
inductive error_code_t where
  | NO_ERROR
  | ERROR_NH_RADIUS_TOO_BIG
deriving DecidableEq, Repr

/-- `pulse_mapping_t`. -/
inductive pulse_mapping_t where
  | PULSE_MAPPING_LINEAR
  | PULSE_MAPPING_FPROP
  | PULSE_MAPPING_RPROP
  | PULSE_MAPPING_DFPROP
deriving DecidableEq, Repr

/-! ## Data model -/

/-- Modelled from the spec: the declaration of `neuron_t` that `portia_std.c` is compiled
against (`portia_std.h`) is not among the sources, and `cortex.h` declares another revision of
the record (one pulse history, no `tick_pulse` / `evol_pulse`). The fields are those of the data
model of the specification, which are the fields `portia_std.c` reads and writes, under the
names the code uses. Their types follow the typedefs of `cortex.h`: the masks are `uint64_t`,
`tick_pulse` and `evol_pulse` are pulse counts (`int8_t`, the type `cortex.h` gives to the
pulse count and to `pulse_window`), `value` is `int16_t`, the counts and the total strength
are `uint8_t`, `inhexc_ratio` is `uint32_t`. -/
structure neuron_t where
  synac_mask : Nat
  synex_mask : Nat
  synstr_mask_a : Nat
  synstr_mask_b : Nat
  synstr_mask_c : Nat
  tick_pulse_mask : Nat
  tick_pulse : Int
  evol_pulse_mask : Nat
  evol_pulse : Int
  value : Int
  max_syn_count : Nat
  syn_count : Nat
  tot_syn_strength : Nat
  inhexc_ratio : Nat
deriving DecidableEq, Repr

/-- The all-zero neuron: what a read outside the neuron array yields in the model, and the
content of freshly allocated storage. -/
def zero_neuron : neuron_t :=
  { synac_mask := 0, synex_mask := 0, synstr_mask_a := 0, synstr_mask_b := 0, synstr_mask_c := 0,
    tick_pulse_mask := 0, tick_pulse := 0, evol_pulse_mask := 0, evol_pulse := 0, value := 0,
    max_syn_count := 0, syn_count := 0, tot_syn_strength := 0, inhexc_ratio := 0 }

/-- Modelled from the spec: the declaration of `cortex2d_t` that `portia_std.c` is compiled
against is not among the sources, and `cortex.h` declares another revision of the record
(without `inh_value`, `syndel_chance` and `synwk_chance`, which the code uses, and with a
`rand_state` that the code never mentions). The scalar fields
are the parameters of the data model of the specification, which are exactly the fields that
`c2d_init` assigns and `c2d_copy` copies (`portia_std.c` lines 9-31 and 58-80), followed by
the neuron array. `ticks_count`, `evols_count` and `evol_step` are 16 bits wide,
`pulse_window` and `nh_radius` are `int8_t`, the values are `int16_t`, the chances and
`inhexc_range` are `uint32_t`, the two caps are `uint8_t`, the sizes are `int32_t`. -/
structure cortex2d_t where
  width : Int
  height : Int
  ticks_count : Nat
  evols_count : Nat
  evol_step : Nat
  pulse_window : Int
  nh_radius : Int
  fire_threshold : Int
  recovery_value : Int
  exc_value : Int
  inh_value : Int
  decay_value : Int
  syngen_chance : Nat
  syndel_chance : Nat
  synstr_chance : Nat
  synwk_chance : Nat
  max_tot_strength : Nat
  max_syn_count : Nat
  inhexc_range : Nat
  sample_window : Nat
  pulse_mapping : pulse_mapping_t
  neurons : List neuron_t
deriving DecidableEq, Repr

/-- `malloc(n * sizeof(neuron_t))`: storage for `n` neurons. C leaves the content unspecified;
`c2d_init` and `c2d_copy` overwrite every cell they allocate. -/
def malloc_neurons (n : Int) : List neuron_t := List.replicate n.toNat zero_neuron

/-- `cortex->neurons[idx]` as an rvalue. -/
def neuron_at (neurons : List neuron_t) (idx : Int) : neuron_t :=
  if 0 ≤ idx then neurons.getD idx.toNat zero_neuron else zero_neuron

/-- `cortex->neurons[idx] = n`. -/
def neuron_store (neurons : List neuron_t) (idx : Int) (n : neuron_t) : List neuron_t :=
  if 0 ≤ idx then neurons.set idx.toNat n else neurons

/-- The loop `for (cortex_size_t v = lo; v < hi; v++)`: the values taken by `v`. -/
def loop_range (lo hi : Int) : List Int :=
  (List.range (hi - lo).toNat).map (fun (k : Nat) => lo + (k : Int))

/-! ## Grid lifecycle -/

/-- The fourteen assignments of the body of the initialisation loop of `c2d_init`
(`portia_std.c` lines 37-50), applied to the cell they address. -/
def init_cell (max_syn_count : Nat) (n : neuron_t) : neuron_t :=
  { n with
    synac_mask := 0x00, synex_mask := 0x00,
    synstr_mask_a := 0x00, synstr_mask_b := 0x00, synstr_mask_c := 0x00,
    tick_pulse_mask := 0x00, tick_pulse := 0x00,
    evol_pulse_mask := 0x00, evol_pulse := 0x00,
    value := DEFAULT_STARTING_VALUE,
    max_syn_count := max_syn_count,
    syn_count := 0x00, tot_syn_strength := 0x00,
    inhexc_ratio := DEFAULT_INHEXC_RATIO }

/-- The two nested loops of `c2d_init` over the freshly allocated array. -/
def init_neurons (width height : Int) (max_syn_count : Nat) (neurons : List neuron_t) :
    List neuron_t :=
  (loop_range 0 height).foldl
    (fun ns y => (loop_range 0 width).foldl
      (fun ns x =>
        neuron_store ns (IDX2D x y width) (init_cell max_syn_count (neuron_at ns (IDX2D x y width))))
      ns)
    neurons

/-- `c2d_init`. The result pairs the returned error code with the cortex record after the call
(`nh_radius` ranges over `nh_radius_t`, an `int8_t`). The comparison of line 4 is made in
`size_t`, to which the `int` neighbor count is converted. -/
def c2d_init (D : defaults_t) (cortex : cortex2d_t) (width height nh_radius : Int) :
    error_code_t × cortex2d_t :=
  if toU64 (NH_COUNT_2D (NH_DIAM_2D nh_radius)) > MASK_BITS then
    (error_code_t.ERROR_NH_RADIUS_TOO_BIG, cortex)
  else
    let max_syn_count := max_touch_count (NH_COUNT_2D (NH_DIAM_2D nh_radius))
    (error_code_t.NO_ERROR,
      { width := width,
        height := height,
        ticks_count := 0x00,
        evols_count := 0x00,
        evol_step := DEFAULT_EVOL_STEP,
        pulse_window := DEFAULT_PULSE_WINDOW,
        nh_radius := nh_radius,
        fire_threshold := DEFAULT_THRESHOLD,
        recovery_value := DEFAULT_RECOVERY_VALUE,
        exc_value := wrap16 D.DEFAULT_EXCITING_VALUE,
        inh_value := wrap16 D.DEFAULT_INHIBITING_VALUE,
        decay_value := DEFAULT_DECAY_RATE,
        syngen_chance := DEFAULT_SYNGEN_CHANCE,
        syndel_chance := D.DEFAULT_SYNDEL_CHANCE % 2 ^ 32,
        synstr_chance := DEFAULT_SYNSTR_CHANCE,
        synwk_chance := D.DEFAULT_SYNWK_CHANCE % 2 ^ 32,
        max_tot_strength := DEFAULT_MAX_TOT_STRENGTH,
        max_syn_count := max_syn_count,
        inhexc_range := DEFAULT_INHEXC_RANGE,
        sample_window := DEFAULT_SAMPLE_WINDOW,
        pulse_mapping := pulse_mapping_t.PULSE_MAPPING_LINEAR,
        neurons := init_neurons width height max_syn_count (malloc_neurons (width * height)) })

/-- The two nested loops of `c2d_copy`: cell `IDX2D(x, y, from->width)` of `to` receives the
same cell of `from`. -/
def copy_neurons (src : cortex2d_t) (neurons : List neuron_t) : List neuron_t :=
  (loop_range 0 src.height).foldl
    (fun ns y => (loop_range 0 src.width).foldl
      (fun ns x => neuron_store ns (IDX2D x y src.width) (neuron_at src.neurons (IDX2D x y src.width)))
      ns)
    neurons

/-- `c2d_copy(to, from)` as a function of the two records, for `to` and `from` two distinct
cortices: the result pairs the error code with `to` after the call. Every field of `to` is
overwritten, its neuron array is replaced by a fresh allocation. The call on two pointers,
which may be the same, is `c2d_copy_at`. -/
def c2d_copy (_to src : cortex2d_t) : error_code_t × cortex2d_t :=
  (error_code_t.NO_ERROR,
    { width := src.width,
      height := src.height,
      ticks_count := src.ticks_count,
      evols_count := src.evols_count,
      evol_step := src.evol_step,
      pulse_window := src.pulse_window,
      nh_radius := src.nh_radius,
      fire_threshold := src.fire_threshold,
      recovery_value := src.recovery_value,
      exc_value := src.exc_value,
      inh_value := src.inh_value,
      decay_value := src.decay_value,
      syngen_chance := src.syngen_chance,
      syndel_chance := src.syndel_chance,
      synstr_chance := src.synstr_chance,
      synwk_chance := src.synwk_chance,
      max_tot_strength := src.max_tot_strength,
      max_syn_count := src.max_syn_count,
      inhexc_range := src.inhexc_range,
      sample_window := src.sample_window,
      pulse_mapping := src.pulse_mapping,
      neurons := copy_neurons src (malloc_neurons (src.width * src.height)) })

/-! ## Setters and stimulus -/

/-- `c2d_set_evol_step`: the `evol_step_t` argument is stored into the 16 bit field. -/
def c2d_set_evol_step (cortex : cortex2d_t) (evol_step : Nat) : cortex2d_t :=
  { cortex with evol_step := evol_step % 2 ^ 16 }

/-- `c2d_set_pulse_window`. In `window >= 0x00u` the window is converted to `unsigned int`, in
`window < sizeof(pulse_mask_t) * 8` to `size_t`. -/
def c2d_set_pulse_window (cortex : cortex2d_t) (window : Int) : cortex2d_t :=
  if toU32 window ≥ 0x00 ∧ toU64 window < MASK_BITS then
    { cortex with pulse_window := window }
  else cortex

/-- The two nested loops of `c2d_sqfeed`. -/
def sqfeed_neurons (width x0 y0 x1 y1 value : Int) (neurons : List neuron_t) : List neuron_t :=
  (loop_range y0 y1).foldl
    (fun ns y => (loop_range x0 x1).foldl
      (fun ns x =>
        let n := neuron_at ns (IDX2D x y width)
        neuron_store ns (IDX2D x y width) { n with value := wrap16 (n.value + value) })
      ns)
    neurons

/-- `c2d_sqfeed`: adds `value` to the value of every neuron of the rectangle. -/
def c2d_sqfeed (cortex : cortex2d_t) (x0 y0 x1 y1 : Int) (value : Int) : cortex2d_t :=
  if x0 ≥ 0 ∧ y0 ≥ 0 ∧ x1 ≤ cortex.width ∧ y1 ≤ cortex.height then
    { cortex with neurons := sqfeed_neurons cortex.width x0 y0 x1 y1 value cortex.neurons }
  else cortex

/-! ## Tick engine -/

/-- The state carried through the neighbor loops of `c2d_tick` for one cell: the neuron being
written (`*next_neuron`), `next_cortex->evols_count`, the number of calls made to `xorshf32`
so far, and the five shifted copies of the previous masks. -/
structure slot_state where
  next_neuron : neuron_t
  evols_count : Nat
  calls : Nat
  prev_ac_mask : Nat
  prev_exc_mask : Nat
  prev_str_mask_a : Nat
  prev_str_mask_b : Nat
  prev_str_mask_c : Nat
deriving DecidableEq, Repr

/-- The current synapse strength (lines 303-305): bit 0 of the three shifted strength masks. -/
def syn_strength_of (prev_str_mask_a prev_str_mask_b prev_str_mask_c : Nat) : Nat :=
  (prev_str_mask_a &&& 0x01) ||| ((prev_str_mask_b &&& 0x01) <<< 0x01) |||
    ((prev_str_mask_c &&& 0x01) <<< 0x02)

/-- Lines 311-320: the influence of an active synapse whose neighbor fired. -/
def neighbor_influence_step (prev_cortex : cortex2d_t) (neighbor : neuron_t)
    (prev_ac_mask prev_exc_mask syn_strength : Nat) (next_neuron : neuron_t) : neuron_t :=
  if prev_ac_mask &&& 0x01 ≠ 0 then
    let neighbor_influence : Int :=
      wrap16 ((if prev_exc_mask &&& 0x01 ≠ 0 then prev_cortex.exc_value else prev_cortex.inh_value)
        * (((syn_strength / 4 : Nat) : Int) + 1))
    if neighbor.value > prev_cortex.fire_threshold then
      if next_neuron.value + neighbor_influence < prev_cortex.recovery_value then
        { next_neuron with value := prev_cortex.recovery_value }
      else
        { next_neuron with value := wrap16 (next_neuron.value + neighbor_influence) }
    else next_neuron
  else next_neuron

/-- Lines 344-351: the excitatory bit of a generated synapse, inhibitory (cleared) when
`random % next_cortex->inhexc_range < next_neuron->inhexc_ratio`, excitatory (set) otherwise. -/
def generated_synex_mask (next_inhexc_range random neighbor_nh_index : Nat)
    (next_neuron : neuron_t) : Nat :=
  if random % next_inhexc_range < next_neuron.inhexc_ratio then
    next_neuron.synex_mask &&& not64 (shl64 0x01 neighbor_nh_index)
  else
    next_neuron.synex_mask ||| shl64 0x01 neighbor_nh_index

/-- Lines 325-354: structural plasticity, deletion or generation of the synapse of the slot.
`next_inhexc_range` is `next_cortex->inhexc_range`. -/
def structural_step (prev_cortex : cortex2d_t) (next_inhexc_range : Nat)
    (prev_neuron neighbor : neuron_t) (prev_ac_mask syn_strength random neighbor_nh_index : Nat)
    (next_neuron : neuron_t) : neuron_t :=
  if prev_ac_mask &&& 0x01 ≠ 0 ∧
      random < prev_cortex.syndel_chance / toU32 (neighbor.tick_pulse + 1) ∧
      syn_strength ≤ 0x00 then
    { next_neuron with
      synac_mask := next_neuron.synac_mask &&& not64 (shl64 0x01 neighbor_nh_index),
      syn_count := (next_neuron.syn_count + 255) % 256 }
  else if ¬ (prev_ac_mask &&& 0x01 ≠ 0) ∧
      random < (prev_cortex.syngen_chance * toU32 neighbor.tick_pulse) % 2 ^ 32 ∧
      prev_neuron.syn_count < next_neuron.max_syn_count then
    { next_neuron with
      synac_mask := next_neuron.synac_mask ||| shl64 0x01 neighbor_nh_index,
      synstr_mask_a := next_neuron.synstr_mask_a &&& not64 (shl64 0x01 neighbor_nh_index),
      synstr_mask_b := next_neuron.synstr_mask_b &&& not64 (shl64 0x01 neighbor_nh_index),
      synstr_mask_c := next_neuron.synstr_mask_c &&& not64 (shl64 0x01 neighbor_nh_index),
      synex_mask := generated_synex_mask next_inhexc_range random neighbor_nh_index next_neuron,
      syn_count := (next_neuron.syn_count + 1) % 256 }
  else next_neuron

/-- Lines 365-367 and 376-378: the three strength masks are rebuilt from the masks of
`prev_neuron` with the bits of the new strength at the slot. -/
def store_strength (prev_neuron : neuron_t) (syn_strength neighbor_nh_index : Nat)
    (next_neuron : neuron_t) : neuron_t :=
  { next_neuron with
    synstr_mask_a := (prev_neuron.synstr_mask_a &&& not64 (shl64 0x01 neighbor_nh_index)) |||
      shl32 (syn_strength &&& 0x01) neighbor_nh_index,
    synstr_mask_b := (prev_neuron.synstr_mask_b &&& not64 (shl64 0x01 neighbor_nh_index)) |||
      shl32 ((syn_strength >>> 0x01) &&& 0x01) neighbor_nh_index,
    synstr_mask_c := (prev_neuron.synstr_mask_c &&& not64 (shl64 0x01 neighbor_nh_index)) |||
      shl32 ((syn_strength >>> 0x02) &&& 0x01) neighbor_nh_index }

/-- Lines 357-382: functional plasticity, strengthening or weakening of an active synapse. -/
def functional_step (prev_cortex : cortex2d_t) (prev_neuron neighbor : neuron_t)
    (prev_ac_mask syn_strength random neighbor_nh_index : Nat) (next_neuron : neuron_t) :
    neuron_t :=
  if prev_ac_mask &&& 0x01 ≠ 0 then
    if syn_strength < MAX_SYN_STRENGTH ∧
        prev_neuron.tot_syn_strength < prev_cortex.max_tot_strength ∧
        ((prev_neuron.tick_pulse_mask &&& 0x01 ≠ 0 ∧
            (neighbor.tick_pulse_mask >>> 0x01) &&& 0x01 ≠ 0) ∨
          random < (prev_cortex.synstr_chance *
            toU32 ((syn_strength : Int) + 1 + neighbor.evol_pulse + next_neuron.evol_pulse))
              % 2 ^ 32) then
      { store_strength prev_neuron (syn_strength + 1) neighbor_nh_index next_neuron with
        tot_syn_strength := (next_neuron.tot_syn_strength + 1) % 256 }
    else if syn_strength > 0x00 ∧
        (((prev_neuron.tick_pulse_mask >>> 0x01) &&& 0x01 ≠ 0 ∧
            neighbor.tick_pulse_mask &&& 0x01 ≠ 0) ∨
          random < prev_cortex.synwk_chance /
            toU32 ((syn_strength : Int) + 1 + neighbor.evol_pulse + next_neuron.evol_pulse)) then
      { store_strength prev_neuron (syn_strength - 1) neighbor_nh_index next_neuron with
        tot_syn_strength := (next_neuron.tot_syn_strength + 255) % 256 }
    else next_neuron
  else next_neuron

/-- Lines 293-386: the body executed for a neighbor slot that is not the center and lies inside
the grid. One call to `xorshf32` is made, `random = xorshf32() % 0xFFFFU`. -/
def slot_body (xorshf32 : Nat → Nat) (prev_cortex : cortex2d_t) (next_inhexc_range : Nat)
    (prev_neuron : neuron_t) (nh_diameter : Int) (evolve : Bool)
    (neighbor_x neighbor_y : Int) (j i : Int) (s : slot_state) : slot_state :=
  let neighbor_nh_index : Nat := (IDX2D i j nh_diameter).toNat
  let neighbor_index : Int :=
    IDX2D (WRAP neighbor_x prev_cortex.width) (WRAP neighbor_y prev_cortex.height) prev_cortex.width
  let neighbor := neuron_at prev_cortex.neurons neighbor_index
  let syn_strength := syn_strength_of s.prev_str_mask_a s.prev_str_mask_b s.prev_str_mask_c
  let random := (xorshf32 s.calls % 2 ^ 32) % 0xFFFF
  let n1 := neighbor_influence_step prev_cortex neighbor s.prev_ac_mask s.prev_exc_mask
    syn_strength s.next_neuron
  if evolve then
    let n2 := structural_step prev_cortex next_inhexc_range prev_neuron neighbor s.prev_ac_mask
      syn_strength random neighbor_nh_index n1
    let n3 := functional_step prev_cortex prev_neuron neighbor s.prev_ac_mask syn_strength random
      neighbor_nh_index n2
    { s with next_neuron := n3, evols_count := (s.evols_count + 1) % 2 ^ 16, calls := s.calls + 1 }
  else
    { s with next_neuron := n1, calls := s.calls + 1 }

/-- Lines 286-395: one iteration of the inner neighbor loop, for column `i` of row `j` of the
neighborhood of the cell `(x, y)`; the masks are shifted at the end of every iteration. -/
def tick_slot (xorshf32 : Nat → Nat) (prev_cortex : cortex2d_t) (next_inhexc_range : Nat)
    (prev_neuron : neuron_t) (x y nh_diameter : Int) (evolve : Bool) (j i : Int)
    (s : slot_state) : slot_state :=
  let neighbor_x := x + (i - prev_cortex.nh_radius)
  let neighbor_y := y + (j - prev_cortex.nh_radius)
  let s1 :=
    if (j ≠ prev_cortex.nh_radius ∨ i ≠ prev_cortex.nh_radius) ∧
        (neighbor_x ≥ 0 ∧ neighbor_y ≥ 0 ∧
          neighbor_x < prev_cortex.width ∧ neighbor_y < prev_cortex.height) then
      slot_body xorshf32 prev_cortex next_inhexc_range prev_neuron nh_diameter evolve
        neighbor_x neighbor_y j i s
    else s
  { s1 with
    prev_ac_mask := s1.prev_ac_mask >>> 0x01,
    prev_exc_mask := s1.prev_exc_mask >>> 0x01,
    prev_str_mask_a := s1.prev_str_mask_a >>> 0x01,
    prev_str_mask_b := s1.prev_str_mask_b >>> 0x01,
    prev_str_mask_c := s1.prev_str_mask_c >>> 0x01 }

/-- Lines 285-396: the two nested neighbor loops. -/
def neighbor_loops (xorshf32 : Nat → Nat) (prev_cortex : cortex2d_t) (next_inhexc_range : Nat)
    (prev_neuron : neuron_t) (x y nh_diameter : Int) (evolve : Bool) (s : slot_state) :
    slot_state :=
  (loop_range 0 nh_diameter).foldl
    (fun s j => (loop_range 0 nh_diameter).foldl
      (fun s i =>
        tick_slot xorshf32 prev_cortex next_inhexc_range prev_neuron x y nh_diameter evolve j i s)
      s)
    s

/-- The comparison `tick_pulse > pulse_window * 0.1F` of line 425. Both operands are 8 bit
integers; in IEEE single precision the product `pulse_window * 0.1F` rounds to the integer
`pulse_window / 10` when that is one and lies strictly between two integers otherwise, so
the comparison holds exactly when `10 * tick_pulse > pulse_window`. -/
def pulse_above_tenth (tick_pulse pulse_window : Int) : Bool :=
  decide (10 * tick_pulse > pulse_window)

/-- Lines 398-436: decay, firing and the update of the two pulse histories, applied to the
neuron left by the neighbor loops. -/
def cell_finish (prev_cortex : cortex2d_t) (prev_neuron : neuron_t) (evolve : Bool)
    (next_neuron : neuron_t) : neuron_t :=
  -- Push to equilibrium by decaying to zero, both from above and below.
  let n1 :=
    if prev_neuron.value > 0x00 then
      { next_neuron with value := wrap16 (next_neuron.value - DEFAULT_DECAY_RATE) }
    else if prev_neuron.value < 0x00 then
      { next_neuron with value := wrap16 (next_neuron.value + DEFAULT_DECAY_RATE) }
    else next_neuron
  -- Fired at the previous step.
  let n2 :=
    if prev_neuron.value > prev_cortex.fire_threshold then
      { n1 with
        value := DEFAULT_RECOVERY_VALUE,
        tick_pulse_mask := n1.tick_pulse_mask ||| 0x01,
        tick_pulse := wrap8 (n1.tick_pulse + 1) }
    else n1
  -- Decrease tick_pulse if the oldest recorded tick_pulse is active.
  let n3 :=
    if (prev_neuron.tick_pulse_mask >>> prev_cortex.pulse_window.toNat) &&& 0x01 ≠ 0 then
      { n2 with tick_pulse := wrap8 (n2.tick_pulse - 1) }
    else n2
  let n4 := { n3 with tick_pulse_mask := shl64 n3.tick_pulse_mask 0x01 }
  if evolve then
    let n5 :=
      if pulse_above_tenth prev_neuron.tick_pulse prev_cortex.pulse_window then
        { n4 with
          evol_pulse_mask := n4.evol_pulse_mask ||| 0x01,
          evol_pulse := wrap8 (n4.evol_pulse + 1) }
      else n4
    let n6 :=
      if (prev_neuron.evol_pulse_mask >>> prev_cortex.pulse_window.toNat) &&& 0x01 ≠ 0 then
        { n5 with evol_pulse := wrap8 (n5.evol_pulse - 1) }
      else n5
    { n6 with evol_pulse_mask := shl64 n6.evol_pulse_mask 0x01 }
  else n4

/-- The evolution gate of line 282; `ticks_count` is 16 bits wide, `evol_step + 1` is computed
in 32 bits. -/
def evolve_gate (prev_cortex : cortex2d_t) : Bool :=
  decide (prev_cortex.ticks_count % ((prev_cortex.evol_step + 1) % 2 ^ 32) = 0)

/-- Lines 249-276: the state in which the neighbor loops start, `*next_neuron = prev_neuron`
and the five masks copied from the previous neuron. -/
def cell_start (prev_neuron : neuron_t) (evols_count calls : Nat) : slot_state :=
  { next_neuron := prev_neuron, evols_count := evols_count, calls := calls,
    prev_ac_mask := prev_neuron.synac_mask,
    prev_exc_mask := prev_neuron.synex_mask,
    prev_str_mask_a := prev_neuron.synstr_mask_a,
    prev_str_mask_b := prev_neuron.synstr_mask_b,
    prev_str_mask_c := prev_neuron.synstr_mask_c }

/-- Lines 247-436: the body of the cell loops for the cell `(x, y)`. Starting from the value of
`next_cortex->evols_count` and the number of calls made to `xorshf32`, it yields the final state
of the neighbor loops, whose `next_neuron` has been completed by `cell_finish`. -/
def tick_cell (xorshf32 : Nat → Nat) (prev_cortex : cortex2d_t) (next_inhexc_range : Nat)
    (x y : Int) (evols_count calls : Nat) : slot_state :=
  let neuron_index := IDX2D x y prev_cortex.width
  let prev_neuron := neuron_at prev_cortex.neurons neuron_index
  let nh_diameter := NH_DIAM_2D prev_cortex.nh_radius
  let evolve := evolve_gate prev_cortex
  let s := neighbor_loops xorshf32 prev_cortex next_inhexc_range prev_neuron x y nh_diameter evolve
    (cell_start prev_neuron evols_count calls)
  { s with next_neuron := cell_finish prev_cortex prev_neuron evolve s.next_neuron }

/-- The state carried through the cell loops of `c2d_tick`: the next cortex and the number of
calls made to `xorshf32`. -/
structure tick_state where
  next_cortex : cortex2d_t
  calls : Nat
deriving DecidableEq, Repr

/-- One iteration of the inner cell loop of `c2d_tick`. -/
def tick_cell_step (xorshf32 : Nat → Nat) (prev_cortex : cortex2d_t) (y x : Int)
    (t : tick_state) : tick_state :=
  let s := tick_cell xorshf32 prev_cortex t.next_cortex.inhexc_range x y
    t.next_cortex.evols_count t.calls
  { next_cortex :=
      { t.next_cortex with
        evols_count := s.evols_count,
        neurons := neuron_store t.next_cortex.neurons (IDX2D x y prev_cortex.width) s.next_neuron },
    calls := s.calls }

/-- The two nested cell loops of `c2d_tick` (lines 245-438). -/
def cell_loops (xorshf32 : Nat → Nat) (prev_cortex : cortex2d_t) (t : tick_state) : tick_state :=
  (loop_range 0 prev_cortex.height).foldl
    (fun t y => (loop_range 0 prev_cortex.width).foldl
      (fun t x => tick_cell_step xorshf32 prev_cortex y x t)
      t)
    t

/-- `c2d_tick(prev_cortex, next_cortex)`: the next cortex after the call, for the random source
`xorshf32` (its calls numbered from 0 at the start of the tick). `prev_cortex` is passed by
value. -/
def c2d_tick (xorshf32 : Nat → Nat) (prev_cortex next_cortex : cortex2d_t) : cortex2d_t :=
  let t := cell_loops xorshf32 prev_cortex { next_cortex := next_cortex, calls := 0 }
  { t.next_cortex with ticks_count := (t.next_cortex.ticks_count + 1) % 2 ^ 16 }

/-! ## Setters (continued) -/

/-- `c2d_set_nhradius`: the result pairs the returned error code with the cortex record after
the call. `radius` ranges over `nh_radius_t`, the neighbor count is compared in `size_t`. -/
def c2d_set_nhradius (cortex : cortex2d_t) (radius : Int) : error_code_t × cortex2d_t :=
  if radius ≤ 0 ∨ toU64 (NH_COUNT_2D (NH_DIAM_2D radius)) > MASK_BITS then
    (error_code_t.ERROR_NH_RADIUS_TOO_BIG, cortex)
  else
    (error_code_t.NO_ERROR, { cortex with nh_radius := radius })

/-- `c2d_set_inhexc_range`. -/
def c2d_set_inhexc_range (cortex : cortex2d_t) (inhexc_range : Nat) : cortex2d_t :=
  { cortex with inhexc_range := inhexc_range % 2 ^ 32 }

/-! ## Pulse encoder

The operands are `ticks_count_t` (16 bit unsigned), promoted to `int` in every expression. A
result is `none` when C leaves the evaluation undefined (a division or modulo by zero), and
`some b` for the `bool_t` value `b` (`TRUE` is `true`) otherwise. -/

/-- `a / b` on `int` operands. -/
def c_div (a b : Int) : Option Int := if b = 0 then none else some (Int.tdiv a b)

/-- `a % b` on `int` operands. -/
def c_mod (a b : Int) : Option Int := if b = 0 then none else some (Int.tmod a b)

/-- `pulse_map_linear`: `sample_step % (sample_window - input) == 0`. -/
def pulse_map_linear (sample_window sample_step input : Nat) : Option Bool :=
  (c_mod (sample_step : Int) ((sample_window : Int) - (input : Int))).map (fun r => r == 0)

/-- `pulse_map_fprop`. `upper` is a `ticks_count_t`: `sample_window - 1` wraps to 65535 for a
window of 0. The operators `||` and `&&` evaluate their right operand only when needed. -/
def pulse_map_fprop (sample_window sample_step input : Nat) : Option Bool :=
  let upper : Nat := (sample_window + 65535) % 65536
  if input < sample_window / 2 then
    if sample_step ≤ 0 then some true
    else if input > 0 then
      (c_div (upper : Int) (input : Int)).bind
        (fun d => (c_mod (sample_step : Int) d).map (fun r => r == 0))
    else some false
  else
    if sample_step ≥ 0 then
      if input ≥ upper then some true
      else
        (c_div (upper : Int) ((upper : Int) - (input : Int))).bind
          (fun d => (c_mod (sample_step : Int) d).map (fun r => r != 0))
    else some false

/-- `(ticks_count_t) round(a / b)` for the quotient of two integers `a >= 0`, `b > 0` below
`2^16` held in `double`: the quotient is never within a rounding error of a half-integer unless
it is one, so the rounded value is the integer nearest to `a / b`, halves rounded up. -/
def round_div (a b : Int) : Int := Int.tdiv (2 * a + b) (2 * b) % 65536

/-- `pulse_map_rprop`. `upper` is the `double` `sample_window - 1`, computed in `int` (it is -1
for a window of 0); all comparisons are between integers held exactly in `double`. -/
def pulse_map_rprop (sample_window sample_step input : Nat) : Option Bool :=
  let upper : Int := (sample_window : Int) - 1
  if 2 * input < sample_window then
    if sample_step ≤ 0 then some true
    else if input > 0 then
      (c_mod (sample_step : Int) (round_div upper (input : Int))).map (fun r => r == 0)
    else some false
  else
    if sample_step ≥ 0 then
      if (input : Int) ≥ upper then some true
      else
        (c_mod (sample_step : Int) (round_div upper (upper - (input : Int)))).map
          (fun r => r != 0)
    else some false

/-- `pulse_map`: the mapping is evaluated only for an input inside the window; the enumerator
`PULSE_MAPPING_DFPROP` has no case and takes the `default` branch. -/
def pulse_map (sample_window sample_step input : Nat) (pulse_mapping : pulse_mapping_t) :
    Option Bool :=
  if input ≥ 0 ∧ input < sample_window then
    match pulse_mapping with
    | pulse_mapping_t.PULSE_MAPPING_LINEAR => pulse_map_linear sample_window sample_step input
    | pulse_mapping_t.PULSE_MAPPING_FPROP => pulse_map_fprop sample_window sample_step input
    | pulse_mapping_t.PULSE_MAPPING_RPROP => pulse_map_rprop sample_window sample_step input
    | pulse_mapping_t.PULSE_MAPPING_DFPROP => some false
  else some false

/-! ## The tick on two cortices in memory

`c2d_tick` receives two pointers. To speak of what the call does to the cortex behind its first
argument, the cortices live in a memory that maps an address to the record stored there (a
record with its neuron array, as `c2d_init` and `c2d_copy` allocate one array per record). Every
read of `prev_cortex->...` is a read at the first address, every write through `next_cortex->...`
or `next_neuron->...` is a write at the second address, whether the addresses differ or not. -/

/-- The state carried through the cell loops of `c2d_tick` on a memory. -/
structure memory_state where
  memory : Nat → cortex2d_t
  calls : Nat

/-- The memory after the record at `address` has been replaced. -/
def memory_write (memory : Nat → cortex2d_t) (address : Nat) (c : cortex2d_t) :
    Nat → cortex2d_t :=
  fun a => if a = address then c else memory a

/-- One iteration of the inner cell loop on a memory: the cell is computed from the record
currently at `prev_cortex` and written into the record at `next_cortex`. -/
def tick_cell_step_at (xorshf32 : Nat → Nat) (prev_cortex next_cortex : Nat) (y x : Int)
    (t : memory_state) : memory_state :=
  let r := tick_cell_step xorshf32 (t.memory prev_cortex) y x
    { next_cortex := t.memory next_cortex, calls := t.calls }
  { memory := memory_write t.memory next_cortex r.next_cortex, calls := r.calls }

/-- The two nested cell loops on a memory; the bounds `prev_cortex->height` and
`prev_cortex->width` are fields that no statement of `c2d_tick` writes. -/
def cell_loops_at (xorshf32 : Nat → Nat) (prev_cortex next_cortex : Nat) (t : memory_state) :
    memory_state :=
  (loop_range 0 (t.memory prev_cortex).height).foldl
    (fun t' y => (loop_range 0 (t.memory prev_cortex).width).foldl
      (fun t' x => tick_cell_step_at xorshf32 prev_cortex next_cortex y x t')
      t')
    t

/-- `c2d_tick(prev_cortex, next_cortex)` on a memory: the memory after the call. -/
def c2d_tick_at (xorshf32 : Nat → Nat) (memory : Nat → cortex2d_t)
    (prev_cortex next_cortex : Nat) : Nat → cortex2d_t :=
  let t := cell_loops_at xorshf32 prev_cortex next_cortex { memory := memory, calls := 0 }
  let next := t.memory next_cortex
  memory_write t.memory next_cortex { next with ticks_count := (next.ticks_count + 1) % 2 ^ 16 }

/-! ## The copy on two cortices in memory

`c2d_copy` receives two pointers as well. Every read of `from->...` is a read of the record at
the second address in the current memory, every write through `to->...` is a write to the record
at the first address, whether the addresses differ or not. -/

/-- `malloc(n * sizeof(neuron_t))` in a memory whose free storage holds the neuron `fresh k` in
its cell `k`: C leaves the content of the block unspecified. -/
def malloc_block (fresh : Nat → neuron_t) (n : Int) : List neuron_t :=
  (List.range n.toNat).map fresh

/-- Lines 58-80 of `c2d_copy` on a memory: each scalar field of the record at `to` receives the
field of the record at `src`; the neuron array of `to` is not touched yet. -/
def copy_parameters_at (memory : Nat → cortex2d_t) (dst src : Nat) : Nat → cortex2d_t :=
  memory_write memory dst
    { width := (memory src).width,
      height := (memory src).height,
      ticks_count := (memory src).ticks_count,
      evols_count := (memory src).evols_count,
      evol_step := (memory src).evol_step,
      pulse_window := (memory src).pulse_window,
      nh_radius := (memory src).nh_radius,
      fire_threshold := (memory src).fire_threshold,
      recovery_value := (memory src).recovery_value,
      exc_value := (memory src).exc_value,
      inh_value := (memory src).inh_value,
      decay_value := (memory src).decay_value,
      syngen_chance := (memory src).syngen_chance,
      syndel_chance := (memory src).syndel_chance,
      synstr_chance := (memory src).synstr_chance,
      synwk_chance := (memory src).synwk_chance,
      max_tot_strength := (memory src).max_tot_strength,
      max_syn_count := (memory src).max_syn_count,
      inhexc_range := (memory src).inhexc_range,
      sample_window := (memory src).sample_window,
      pulse_mapping := (memory src).pulse_mapping,
      neurons := (memory dst).neurons }

/-- Line 82 on a memory: the neuron array of the record at `to` is replaced by a fresh block of
`to->width * to->height` cells. -/
def copy_allocate_at (fresh : Nat → neuron_t) (memory : Nat → cortex2d_t) (dst : Nat) :
    Nat → cortex2d_t :=
  memory_write memory dst
    { memory dst with
      neurons := malloc_block fresh ((memory dst).width * (memory dst).height) }

/-- Line 86 on a memory: `to->neurons[IDX2D(x, y, from->width)] =
from->neurons[IDX2D(x, y, from->width)]`, both sides read in the current memory. -/
def copy_cell_at (dst src : Nat) (y x : Int) (memory : Nat → cortex2d_t) : Nat → cortex2d_t :=
  memory_write memory dst
    { memory dst with
      neurons := neuron_store (memory dst).neurons (IDX2D x y (memory src).width)
        (neuron_at (memory src).neurons (IDX2D x y (memory src).width)) }

/-- The two nested loops of `c2d_copy` on a memory (lines 84-88); the bounds `from->height` and
`from->width` are fields that the loops do not write. -/
def copy_loops_at (dst src : Nat) (memory : Nat → cortex2d_t) : Nat → cortex2d_t :=
  (loop_range 0 (memory src).height).foldl
    (fun m y => (loop_range 0 (memory src).width).foldl
      (fun m x => copy_cell_at dst src y x m)
      m)
    memory

/-- `c2d_copy(to, from)` on a memory: the returned error code and the memory after the call. -/
def c2d_copy_at (fresh : Nat → neuron_t) (memory : Nat → cortex2d_t) (dst src : Nat) :
    error_code_t × (Nat → cortex2d_t) :=
  (error_code_t.NO_ERROR,
    copy_loops_at dst src (copy_allocate_at fresh (copy_parameters_at memory dst src) dst))

/-! ## The ping-pong protocol -/

/-- The two grids after `k` calls of the ping-pong protocol on the pair `(A, B)`: call `k` is
`c2d_tick(A, B)` for odd `k` and `c2d_tick(B, A)` for even `k`; `draws k` is the random source
of call `k`. -/
def ping_pong (draws : Nat → Nat → Nat) (A B : cortex2d_t) : Nat → cortex2d_t × cortex2d_t
  | 0 => (A, B)
  | k + 1 =>
    if (k + 1) % 2 = 1 then
      ((ping_pong draws A B k).1,
        c2d_tick (draws (k + 1)) (ping_pong draws A B k).1 (ping_pong draws A B k).2)
    else
      (c2d_tick (draws (k + 1)) (ping_pong draws A B k).2 (ping_pong draws A B k).1,
        (ping_pong draws A B k).2)

/-- The grid written by call `k` of the ping-pong protocol (`k >= 1`). -/
def written_grid (draws : Nat → Nat → Nat) (A B : cortex2d_t) (k : Nat) : cortex2d_t :=
  if k % 2 = 1 then (ping_pong draws A B k).2 else (ping_pong draws A B k).1

/-! ## Setters of the caps -/

/-- `c2d_set_max_syn_count`: the `syn_count_t` argument is stored into the field of the cortex;
no neuron is written. -/
def c2d_set_max_syn_count (cortex : cortex2d_t) (syn_count : Nat) : cortex2d_t :=
  { cortex with max_syn_count := syn_count % 2 ^ 8 }

/-- The two nested loops of `c2d_syn_disable`. -/
def syn_disable_neurons (width x0 y0 x1 y1 : Int) (neurons : List neuron_t) : List neuron_t :=
  (loop_range y0 y1).foldl
    (fun ns y => (loop_range x0 x1).foldl
      (fun ns x =>
        let n := neuron_at ns (IDX2D x y width)
        neuron_store ns (IDX2D x y width) { n with max_syn_count := 0x00 })
      ns)
    neurons

/-- `c2d_syn_disable`: sets `max_syn_count` to 0 in every neuron of the rectangle. -/
def c2d_syn_disable (cortex : cortex2d_t) (x0 y0 x1 y1 : Int) : cortex2d_t :=
  if x0 ≥ 0 ∧ y0 ≥ 0 ∧ x1 ≤ cortex.width ∧ y1 ≤ cortex.height then
    { cortex with neurons := syn_disable_neurons cortex.width x0 y0 x1 y1 cortex.neurons }
  else cortex

/-! ## Parts of the tick on their own -/

/-- Line 312: the influence of the slot, `exc_value` or `inh_value` times
`syn_strength / 4 + 1`, stored into a `neuron_value_t`. -/
def neighbor_influence (prev_cortex : cortex2d_t) (prev_exc_mask syn_strength : Nat) : Int :=
  wrap16 ((if prev_exc_mask &&& 0x01 ≠ 0 then prev_cortex.exc_value else prev_cortex.inh_value)
    * (((syn_strength / 4 : Nat) : Int) + 1))

/-- Lines 398-403: the decay step. The direction is chosen by the sign of the previous value,
the step is applied to the value that the neighbor loops left in `*next_neuron`. -/
def decay_step (prev_neuron next_neuron : neuron_t) : neuron_t :=
  if prev_neuron.value > 0x00 then
    { next_neuron with value := wrap16 (next_neuron.value - DEFAULT_DECAY_RATE) }
  else if prev_neuron.value < 0x00 then
    { next_neuron with value := wrap16 (next_neuron.value + DEFAULT_DECAY_RATE) }
  else next_neuron

/-- Lines 247-396: the neuron that the neighbor loops leave in `*next_neuron` for the cell
`(x, y)`, before the decay step. -/
def loop_neuron (xorshf32 : Nat → Nat) (prev_cortex : cortex2d_t) (next_inhexc_range : Nat)
    (x y : Int) (evols_count calls : Nat) : neuron_t :=
  let prev_neuron := neuron_at prev_cortex.neurons (IDX2D x y prev_cortex.width)
  (neighbor_loops xorshf32 prev_cortex next_inhexc_range prev_neuron x y
    (NH_DIAM_2D prev_cortex.nh_radius) (evolve_gate prev_cortex)
    (cell_start prev_neuron evols_count calls)).next_neuron

/-- Line 361, the timing condition of the strengthening: the neighbor fired right before the
current neuron. -/
def fired_right_before (prev_neuron neighbor : neuron_t) : Prop :=
  prev_neuron.tick_pulse_mask &&& 0x01 ≠ 0 ∧ (neighbor.tick_pulse_mask >>> 0x01) &&& 0x01 ≠ 0

/-- Line 372, the timing condition of the weakening: the neighbor fired right after the current
neuron. -/
def fired_right_after (prev_neuron neighbor : neuron_t) : Prop :=
  (prev_neuron.tick_pulse_mask >>> 0x01) &&& 0x01 ≠ 0 ∧ neighbor.tick_pulse_mask &&& 0x01 ≠ 0

instance (a b : neuron_t) : Decidable (fired_right_before a b) := by
  unfold fired_right_before; infer_instance

instance (a b : neuron_t) : Decidable (fired_right_after a b) := by
  unfold fired_right_after; infer_instance

/-- Functional plasticity through the random component only: lines 357-382 with the two timing
conditions of lines 361 and 372 left out. -/
def functional_step_random (prev_cortex : cortex2d_t) (prev_neuron neighbor : neuron_t)
    (prev_ac_mask syn_strength random neighbor_nh_index : Nat) (next_neuron : neuron_t) :
    neuron_t :=
  if prev_ac_mask &&& 0x01 ≠ 0 then
    if syn_strength < MAX_SYN_STRENGTH ∧
        prev_neuron.tot_syn_strength < prev_cortex.max_tot_strength ∧
        random < (prev_cortex.synstr_chance *
          toU32 ((syn_strength : Int) + 1 + neighbor.evol_pulse + next_neuron.evol_pulse))
            % 2 ^ 32 then
      { store_strength prev_neuron (syn_strength + 1) neighbor_nh_index next_neuron with
        tot_syn_strength := (next_neuron.tot_syn_strength + 1) % 256 }
    else if syn_strength > 0x00 ∧
        random < prev_cortex.synwk_chance /
          toU32 ((syn_strength : Int) + 1 + neighbor.evol_pulse + next_neuron.evol_pulse) then
      { store_strength prev_neuron (syn_strength - 1) neighbor_nh_index next_neuron with
        tot_syn_strength := (next_neuron.tot_syn_strength + 255) % 256 }
    else next_neuron
  else next_neuron

/-! ## The divisors of the tick

`c2d_tick` evaluates four kinds of division or modulo: `ticks_count % (evol_step + 1)` (line
282), `syndel_chance / (neighbor.tick_pulse + 1)` (line 326), `random % next_cortex->inhexc_range`
(line 345) and `synwk_chance / (syn_strength + 1 + neighbor.evol_pulse + next_neuron->evol_pulse)`
(line 374). The definitions below list the divisors in the order in which a tick evaluates
them, each converted to the unsigned 32 bit type in which C computes the operation. The
operators `&&` and `||` evaluate their right operand only when the left one does not decide. -/

/-- Lines 325-354: the divisor that structural plasticity evaluates for a slot. For an active
synapse the deletion test divides by `neighbor.tick_pulse + 1`; for an inactive one the modulo
by `next_cortex->inhexc_range` is evaluated when the synapse is generated. -/
def structural_divisors (prev_cortex : cortex2d_t) (next_inhexc_range : Nat)
    (prev_neuron neighbor : neuron_t) (prev_ac_mask random : Nat) (next_neuron : neuron_t) :
    List Nat :=
  if prev_ac_mask &&& 0x01 ≠ 0 then [toU32 (neighbor.tick_pulse + 1)]
  else if random < (prev_cortex.syngen_chance * toU32 neighbor.tick_pulse) % 2 ^ 32 ∧
      prev_neuron.syn_count < next_neuron.max_syn_count then
    [next_inhexc_range]
  else []

/-- Lines 357-382: the divisor that functional plasticity evaluates for a slot, in the random
component of the weakening test. -/
def functional_divisors (prev_cortex : cortex2d_t) (prev_neuron neighbor : neuron_t)
    (prev_ac_mask syn_strength random : Nat) (next_neuron : neuron_t) : List Nat :=
  if prev_ac_mask &&& 0x01 ≠ 0 then
    if syn_strength < MAX_SYN_STRENGTH ∧
        prev_neuron.tot_syn_strength < prev_cortex.max_tot_strength ∧
        ((prev_neuron.tick_pulse_mask &&& 0x01 ≠ 0 ∧
            (neighbor.tick_pulse_mask >>> 0x01) &&& 0x01 ≠ 0) ∨
          random < (prev_cortex.synstr_chance *
            toU32 ((syn_strength : Int) + 1 + neighbor.evol_pulse + next_neuron.evol_pulse))
              % 2 ^ 32) then []
    else if syn_strength > 0x00 ∧
        ¬ ((prev_neuron.tick_pulse_mask >>> 0x01) &&& 0x01 ≠ 0 ∧
            neighbor.tick_pulse_mask &&& 0x01 ≠ 0) then
      [toU32 ((syn_strength : Int) + 1 + neighbor.evol_pulse + next_neuron.evol_pulse)]
    else []
  else []

/-- The divisors evaluated by one iteration of the inner neighbor loop started in state `s`
(the state is advanced by `tick_slot`). -/
def tick_slot_divisors (xorshf32 : Nat → Nat) (prev_cortex : cortex2d_t) (next_inhexc_range : Nat)
    (prev_neuron : neuron_t) (x y nh_diameter : Int) (evolve : Bool) (j i : Int)
    (s : slot_state) : List Nat :=
  let neighbor_x := x + (i - prev_cortex.nh_radius)
  let neighbor_y := y + (j - prev_cortex.nh_radius)
  if ((j ≠ prev_cortex.nh_radius ∨ i ≠ prev_cortex.nh_radius) ∧
      (neighbor_x ≥ 0 ∧ neighbor_y ≥ 0 ∧
        neighbor_x < prev_cortex.width ∧ neighbor_y < prev_cortex.height)) ∧ evolve = true then
    let neighbor_nh_index : Nat := (IDX2D i j nh_diameter).toNat
    let neighbor_index : Int :=
      IDX2D (WRAP neighbor_x prev_cortex.width) (WRAP neighbor_y prev_cortex.height)
        prev_cortex.width
    let neighbor := neuron_at prev_cortex.neurons neighbor_index
    let syn_strength := syn_strength_of s.prev_str_mask_a s.prev_str_mask_b s.prev_str_mask_c
    let random := (xorshf32 s.calls % 2 ^ 32) % 0xFFFF
    let n1 := neighbor_influence_step prev_cortex neighbor s.prev_ac_mask s.prev_exc_mask
      syn_strength s.next_neuron
    let n2 := structural_step prev_cortex next_inhexc_range prev_neuron neighbor s.prev_ac_mask
      syn_strength random neighbor_nh_index n1
    structural_divisors prev_cortex next_inhexc_range prev_neuron neighbor s.prev_ac_mask
        random n1 ++
      functional_divisors prev_cortex prev_neuron neighbor s.prev_ac_mask syn_strength random n2
  else []

/-- The neighbor loops, with the list of the divisors they evaluate. -/
def neighbor_loops_divisors (xorshf32 : Nat → Nat) (prev_cortex : cortex2d_t)
    (next_inhexc_range : Nat) (prev_neuron : neuron_t) (x y nh_diameter : Int) (evolve : Bool)
    (s : slot_state) : slot_state × List Nat :=
  (loop_range 0 nh_diameter).foldl
    (fun p j => (loop_range 0 nh_diameter).foldl
      (fun p i =>
        (tick_slot xorshf32 prev_cortex next_inhexc_range prev_neuron x y nh_diameter evolve j i
            p.1,
          p.2 ++ tick_slot_divisors xorshf32 prev_cortex next_inhexc_range prev_neuron x y
            nh_diameter evolve j i p.1))
      p)
    (s, [])

/-- The divisors evaluated for the cell `(x, y)`: `evol_step + 1` for the evolution gate, then
those of the neighbor loops. -/
def tick_cell_divisors (xorshf32 : Nat → Nat) (prev_cortex : cortex2d_t)
    (next_inhexc_range : Nat) (x y : Int) (evols_count calls : Nat) : List Nat :=
  let prev_neuron := neuron_at prev_cortex.neurons (IDX2D x y prev_cortex.width)
  ((prev_cortex.evol_step + 1) % 2 ^ 32) ::
    (neighbor_loops_divisors xorshf32 prev_cortex next_inhexc_range prev_neuron x y
      (NH_DIAM_2D prev_cortex.nh_radius) (evolve_gate prev_cortex)
      (cell_start prev_neuron evols_count calls)).2

/-- The cell loops, with the list of the divisors they evaluate. -/
def cell_loops_divisors (xorshf32 : Nat → Nat) (prev_cortex : cortex2d_t) (t : tick_state) :
    tick_state × List Nat :=
  (loop_range 0 prev_cortex.height).foldl
    (fun p y => (loop_range 0 prev_cortex.width).foldl
      (fun p x =>
        (tick_cell_step xorshf32 prev_cortex y x p.1,
          p.2 ++ tick_cell_divisors xorshf32 prev_cortex p.1.next_cortex.inhexc_range x y
            p.1.next_cortex.evols_count p.1.calls))
      p)
    (t, [])

/-- The divisors of every division and modulo that `c2d_tick(prev_cortex, next_cortex)`
evaluates, in the order of evaluation. -/
def c2d_tick_divisors (xorshf32 : Nat → Nat) (prev_cortex next_cortex : cortex2d_t) : List Nat :=
  (cell_loops_divisors xorshf32 prev_cortex { next_cortex := next_cortex, calls := 0 }).2

/-! ## The cell loops under a schedule

`#pragma omp parallel for` distributes the iterations of the outer loop of `c2d_tick` (the rows)
over the workers and does not order the iterations of different workers. `xorshf32` takes no
argument: its state is shared by all the callers, so the `k`-th call made during the tick
returns `xorshf32 k` whichever worker makes it, and `next_cortex->evols_count` is one counter.
An execution in which every row is completed before the next one starts is described by the
order of the rows. -/

/-- The cell loops of `c2d_tick`, the rows being executed in the order `rows`. -/
def cell_loops_rows (xorshf32 : Nat → Nat) (prev_cortex : cortex2d_t) (rows : List Int)
    (t : tick_state) : tick_state :=
  rows.foldl
    (fun t y => (loop_range 0 prev_cortex.width).foldl
      (fun t x => tick_cell_step xorshf32 prev_cortex y x t)
      t)
    t

/-- `c2d_tick` with the rows executed in the order `rows`. One worker executes them in the
order `loop_range 0 prev_cortex.height`. -/
def c2d_tick_rows (xorshf32 : Nat → Nat) (rows : List Int) (prev_cortex next_cortex : cortex2d_t) :
    cortex2d_t :=
  let t := cell_loops_rows xorshf32 prev_cortex rows { next_cortex := next_cortex, calls := 0 }
  { t.next_cortex with ticks_count := (t.next_cortex.ticks_count + 1) % 2 ^ 16 }

/-! ## Vocabulary of the specification -/

/-- Number of set bits among the bits `0 .. k-1` of `m`. -/
def count_bits (m : Nat) : Nat → Nat
  | 0 => 0
  | k + 1 => count_bits m k + (if m.testBit k then 1 else 0)

/-- Number of set bits of a 64 bit mask. -/
def popcount64 (m : Nat) : Nat := count_bits m 64

/-- The 3 bit strength `[cba]` that the three strength masks of a neuron encode at a slot. -/
def strength_at (n : neuron_t) (slot : Nat) : Nat :=
  (if n.synstr_mask_a.testBit slot then 1 else 0) +
    (if n.synstr_mask_b.testBit slot then 2 else 0) +
    (if n.synstr_mask_c.testBit slot then 4 else 0)

/-- Sum of the strengths of the active synapses among the slots `0 .. k-1`. -/
def sum_strength (n : neuron_t) : Nat → Nat
  | 0 => 0
  | k + 1 => sum_strength n k + (if n.synac_mask.testBit k then strength_at n k else 0)

/-- Sum of the strengths of the active synapses of a neuron. -/
def active_strength (n : neuron_t) : Nat := sum_strength n 64

/-- The synapse-count cap: every neuron has `syn_count <= max_syn_count`. -/
def syn_count_capped (c : cortex2d_t) : Prop := ∀ n ∈ c.neurons, n.syn_count ≤ n.max_syn_count

/-- The total-strength cap: every neuron has `tot_syn_strength <= max_tot_strength`. -/
def tot_strength_capped (c : cortex2d_t) : Prop :=
  ∀ n ∈ c.neurons, n.tot_syn_strength ≤ c.max_tot_strength

/-- Meaning of `syn_count`: the number of set bits of `synac_mask`. -/
def syn_count_exact (c : cortex2d_t) : Prop :=
  ∀ n ∈ c.neurons, n.syn_count = popcount64 n.synac_mask

/-- Meaning of `tot_syn_strength`: the sum of the strengths of the active synapses. -/
def tot_strength_exact (c : cortex2d_t) : Prop :=
  ∀ n ∈ c.neurons, n.tot_syn_strength = active_strength n

/-- Both pulse counts of every neuron lie in `[0, pulse_window]`. -/
def pulses_in_window (c : cortex2d_t) : Prop :=
  ∀ n ∈ c.neurons, 0 ≤ n.tick_pulse ∧ n.tick_pulse ≤ c.pulse_window ∧
    0 ≤ n.evol_pulse ∧ n.evol_pulse ≤ c.pulse_window

/-- Each synapse strength is a 3 bit value held in 64 bit planes, counts fit their types. -/
def neuron_typed (n : neuron_t) : Prop :=
  n.synac_mask < 2 ^ 64 ∧ n.synex_mask < 2 ^ 64 ∧ n.synstr_mask_a < 2 ^ 64 ∧
    n.synstr_mask_b < 2 ^ 64 ∧ n.synstr_mask_c < 2 ^ 64 ∧ n.tick_pulse_mask < 2 ^ 64 ∧
    n.evol_pulse_mask < 2 ^ 64 ∧ n.max_syn_count < 256 ∧ n.syn_count < 256 ∧
    n.tot_syn_strength < 256 ∧ -32768 ≤ n.value ∧ n.value < 32768

/-- The data-model invariants of the specification, for a cortex with its neuron array:
the array holds `width * height` typed neurons, the radius is one `c2d_init` accepts, the
caps hold, the counts have their meaning and the pulse counts lie in the window. -/
def data_invariants (c : cortex2d_t) : Prop :=
  0 ≤ c.width ∧ 0 ≤ c.height ∧ c.neurons.length = (c.width * c.height).toNat ∧
    NH_COUNT_2D (NH_DIAM_2D c.nh_radius) ≤ 64 ∧
    0 ≤ c.pulse_window ∧ c.pulse_window < 64 ∧
    (∀ n ∈ c.neurons, neuron_typed n) ∧
    (∀ n ∈ c.neurons, n.max_syn_count ≤ NH_COUNT_2D (NH_DIAM_2D c.nh_radius)) ∧
    syn_count_capped c ∧ tot_strength_capped c ∧ syn_count_exact c ∧ tot_strength_exact c ∧
    pulses_in_window c

instance (c : cortex2d_t) : Decidable (syn_count_capped c) := by unfold syn_count_capped; infer_instance
instance (c : cortex2d_t) : Decidable (tot_strength_capped c) := by
  unfold tot_strength_capped; infer_instance
instance (c : cortex2d_t) : Decidable (syn_count_exact c) := by unfold syn_count_exact; infer_instance
instance (c : cortex2d_t) : Decidable (tot_strength_exact c) := by
  unfold tot_strength_exact; infer_instance
instance (c : cortex2d_t) : Decidable (pulses_in_window c) := by unfold pulses_in_window; infer_instance
instance (n : neuron_t) : Decidable (neuron_typed n) := by unfold neuron_typed; infer_instance
instance (c : cortex2d_t) : Decidable (data_invariants c) := by unfold data_invariants; infer_instance

/-- Meaning of the two pulse counts for a pulse window of `W` bits: after a tick the newest
entry of a history sits at bit 1, bit 0 is clear, and the count is the number of set bits
among the bits `0 .. W` of the history. -/
def pulse_counts_exact (W : Nat) (n : neuron_t) : Prop :=
  n.tick_pulse_mask.testBit 0 = false ∧ n.tick_pulse = (count_bits n.tick_pulse_mask (W + 1) : Nat) ∧
    n.evol_pulse_mask.testBit 0 = false ∧ n.evol_pulse = (count_bits n.evol_pulse_mask (W + 1) : Nat)

/-- The neuron array after neuron `k` has received the stimulus `stim k`. -/
def stimulate_neurons (neurons : List neuron_t) (stim : Nat → Int) : List neuron_t :=
  (List.range neurons.length).map
    (fun (k : Nat) =>
      let n := neuron_at neurons (k : Int)
      { n with value := wrap16 (n.value + stim k) })

/-- Stimulus added to the neuron values between two ticks: neuron `k` receives `stim k`. -/
def stimulate (c : cortex2d_t) (stim : Nat → Int) : cortex2d_t :=
  { c with neurons := stimulate_neurons c.neurons stim }

/-- The cortex states reachable from `c2d_init` for a grid of the given size and radius whose
pulse window is set to `window` before the first tick: copies, stimulus on the neuron values
and ticks between reachable cortices, for any random source. -/
inductive reachable (D : defaults_t) (width height nh_radius window : Int) : cortex2d_t → Prop
  | init (cortex : cortex2d_t) :
      (c2d_init D cortex width height nh_radius).1 = error_code_t.NO_ERROR →
      reachable D width height nh_radius window
        (c2d_set_pulse_window (c2d_init D cortex width height nh_radius).2 window)
  | copy (dst : cortex2d_t) {c : cortex2d_t} :
      reachable D width height nh_radius window c →
      reachable D width height nh_radius window (c2d_copy dst c).2
  | stimulus (stim : Nat → Int) {c : cortex2d_t} :
      reachable D width height nh_radius window c →
      reachable D width height nh_radius window (stimulate c stim)
  | tick (xorshf32 : Nat → Nat) {prev_cortex next_cortex : cortex2d_t} :
      reachable D width height nh_radius window prev_cortex →
      reachable D width height nh_radius window next_cortex →
      reachable D width height nh_radius window (c2d_tick xorshf32 prev_cortex next_cortex)

/-- Every scalar parameter of `a` equals the corresponding parameter of `b`. -/
def same_parameters (a b : cortex2d_t) : Prop :=
  a.width = b.width ∧ a.height = b.height ∧ a.ticks_count = b.ticks_count ∧
    a.evols_count = b.evols_count ∧ a.evol_step = b.evol_step ∧
    a.pulse_window = b.pulse_window ∧ a.nh_radius = b.nh_radius ∧
    a.fire_threshold = b.fire_threshold ∧ a.recovery_value = b.recovery_value ∧
    a.exc_value = b.exc_value ∧ a.inh_value = b.inh_value ∧ a.decay_value = b.decay_value ∧
    a.syngen_chance = b.syngen_chance ∧ a.syndel_chance = b.syndel_chance ∧
    a.synstr_chance = b.synstr_chance ∧ a.synwk_chance = b.synwk_chance ∧
    a.max_tot_strength = b.max_tot_strength ∧ a.max_syn_count = b.max_syn_count ∧
    a.inhexc_range = b.inhexc_range ∧ a.sample_window = b.sample_window ∧
    a.pulse_mapping = b.pulse_mapping

instance (a b : cortex2d_t) : Decidable (same_parameters a b) := by
  unfold same_parameters; infer_instance

/-- Every cell of `a` with index in `[0, width * height)` of `b` equals the same cell of `b`,
field by field. -/
def same_cells (a b : cortex2d_t) : Prop :=
  ∀ idx : Int, 0 ≤ idx → idx < b.width * b.height →
    neuron_at a.neurons idx = neuron_at b.neurons idx

/-- The fields of a neuron that only an evolution may change, equal in `a` and `b`: the five
synapse masks, the two synapse totals, the two per-neuron parameters and the evolution pulse
history with its count. -/
def same_plasticity (a b : neuron_t) : Prop :=
  a.synac_mask = b.synac_mask ∧ a.synex_mask = b.synex_mask ∧
    a.synstr_mask_a = b.synstr_mask_a ∧ a.synstr_mask_b = b.synstr_mask_b ∧
    a.synstr_mask_c = b.synstr_mask_c ∧ a.syn_count = b.syn_count ∧
    a.tot_syn_strength = b.tot_syn_strength ∧ a.max_syn_count = b.max_syn_count ∧
    a.inhexc_ratio = b.inhexc_ratio ∧ a.evol_pulse_mask = b.evol_pulse_mask ∧
    a.evol_pulse = b.evol_pulse

/-- Neuron `a` has no active synapse that neuron `b` does not have: every set bit of its
`synac_mask` is set in that of `b`. -/
def no_new_synapse (a b : neuron_t) : Prop :=
  ∀ slot : Nat, a.synac_mask.testBit slot = true → b.synac_mask.testBit slot = true

/-- The neurons of the rectangle `[x0, x1) x [y0, y1)` of the array `grid` have
`max_syn_count = 0` and no active synapse that the same neuron of the array `reference` does
not have. -/
def region_disabled (width x0 y0 x1 y1 : Int) (reference grid : List neuron_t) : Prop :=
  ∀ x y : Int, x0 ≤ x → x < x1 → y0 ≤ y → y < y1 →
    (neuron_at grid (IDX2D x y width)).max_syn_count = 0 ∧
      no_new_synapse (neuron_at grid (IDX2D x y width)) (neuron_at reference (IDX2D x y width))

/-- Whether the tick of the cell `(x, y)` visits the position `(i, j)` of the neighborhood (line
291): the position is not the center and the neighbor lies inside the grid. -/
def slot_visited (c : cortex2d_t) (x y j i : Int) : Bool :=
  decide ((j ≠ c.nh_radius ∨ i ≠ c.nh_radius) ∧
    (x + (i - c.nh_radius) ≥ 0 ∧ y + (j - c.nh_radius) ≥ 0 ∧
      x + (i - c.nh_radius) < c.width ∧ y + (j - c.nh_radius) < c.height))

/-- Number of positions of the neighborhood that the tick of the cell `(x, y)` visits: the
neighbors that the neuron has inside the grid. -/
def cell_slots (c : cortex2d_t) (x y : Int) : Nat :=
  ((loop_range 0 (NH_DIAM_2D c.nh_radius)).map
    (fun j => ((loop_range 0 (NH_DIAM_2D c.nh_radius)).map
      (fun i => if slot_visited c x y j i then 1 else 0)).sum)).sum

/-- Number of positions that a tick visits over the whole grid. -/
def grid_slots (c : cortex2d_t) : Nat :=
  ((loop_range 0 c.height).map
    (fun y => ((loop_range 0 c.width).map (fun x => cell_slots c x y)).sum)).sum

/-- Number of set bits at the positions `1 .. W` of a pulse history. -/
def window_count (m W : Nat) : Nat := count_bits (m >>> 1) W

/-- The three strength bits of the slot `p` are the same in the neurons `a` and `b`. -/
def slot_bits_same (a b : neuron_t) (p : Nat) : Prop :=
  a.synstr_mask_a.testBit p = b.synstr_mask_a.testBit p ∧
    a.synstr_mask_b.testBit p = b.synstr_mask_b.testBit p ∧
    a.synstr_mask_c.testBit p = b.synstr_mask_c.testBit p

/-- What a tick may do to the strength bits of the slot `p`, from the neuron `prev` to the
neuron `n`: leave them, raise the strength of an active synapse by one from below 7, lower it
by one from above 0, or clear the bits of a slot that was inactive. -/
def strength_tracked (prev n : neuron_t) (p : Nat) : Prop :=
  slot_bits_same n prev p ∨
    (prev.synac_mask.testBit p = true ∧ strength_at prev p < 7 ∧
      strength_at n p = strength_at prev p + 1) ∨
    (prev.synac_mask.testBit p = true ∧ 0 < strength_at prev p ∧
      strength_at n p + 1 = strength_at prev p) ∨
    (prev.synac_mask.testBit p = false ∧ strength_at n p = 0)

/-- A neuron at rest: no active synapse, value 0, empty pulse histories, no tick pulse. -/
def quiescent (n : neuron_t) : Prop :=
  n.synac_mask = 0 ∧ n.value = 0 ∧ n.tick_pulse_mask = 0 ∧ n.tick_pulse = 0 ∧
    n.evol_pulse_mask = 0

/-- The cap invariant of the cortex parameters: `max_syn_count` is at most the number of
neighbor slots `(2 * nh_radius + 1)^2 - 1`. -/
def cap_invariant (c : cortex2d_t) : Prop :=
  (c.max_syn_count : Int) ≤ (2 * c.nh_radius + 1) ^ 2 - 1

instance (c : cortex2d_t) : Decidable (cap_invariant c) := by unfold cap_invariant; infer_instance

/-! ## Concrete cortices -/

/-- Sample values for the four macros of `c2d_init` that `cortex.h` lacks. -/
def sample_defaults : defaults_t :=
  { DEFAULT_EXCITING_VALUE := 0x20, DEFAULT_INHIBITING_VALUE := -0x20,
    DEFAULT_SYNDEL_CHANCE := 0x00A0, DEFAULT_SYNWK_CHANCE := 0x00A0 }

/-- A cortex record before `c2d_init` has filled it. -/
def blank_cortex : cortex2d_t :=
  { width := 0, height := 0, ticks_count := 0, evols_count := 0, evol_step := 0, pulse_window := 0,
    nh_radius := 0, fire_threshold := 0, recovery_value := 0, exc_value := 0, inh_value := 0,
    decay_value := 0, syngen_chance := 0, syndel_chance := 0, synstr_chance := 0, synwk_chance := 0,
    max_tot_strength := 0, max_syn_count := 0, inhexc_range := 0, sample_window := 0,
    pulse_mapping := pulse_mapping_t.PULSE_MAPPING_LINEAR, neurons := [] }

/-- A 2 x 2 grid of radius 1 from `c2d_init`, set to evolve at every tick
(`c2d_set_evol_step(.., 0)`), every neuron stimulated with 200 (`c2d_sqfeed`), which is above
the threshold 0x88. -/
def grid_a0 : cortex2d_t :=
  c2d_sqfeed (c2d_set_evol_step (c2d_init sample_defaults blank_cortex 2 2 1).2 0) 0 0 2 2 200

/-- The second grid of the ping-pong pair, a copy of `grid_a0`. -/
def grid_b0 : cortex2d_t := (c2d_copy blank_cortex grid_a0).2

/-- The pair after the first tick `c2d_tick(a, b)`, every draw being 0: all four neurons have
fired, each has `tick_pulse = 1`. -/
def grid_b1 : cortex2d_t := c2d_tick (fun _ => 0) grid_a0 grid_b0

/-- The pair after the second tick `c2d_tick(b, a)`, every draw being 0. -/
def grid_a2 : cortex2d_t := c2d_tick (fun _ => 0) grid_b1 grid_a0

/-- A 1 x 1 grid of radius 0 from `c2d_init` whose pulse window is set to 0
(`c2d_set_pulse_window(.., 0)`), its neuron stimulated with 200. -/
def window0_prev : cortex2d_t :=
  stimulate (c2d_set_pulse_window (c2d_init sample_defaults blank_cortex 1 1 0).2 0) (fun _ => 200)

/-- A 2 x 2 grid of radius 1 from `c2d_init` whose pulse window is set to 5. -/
def grid_w5 : cortex2d_t :=
  c2d_set_pulse_window (c2d_init sample_defaults blank_cortex 2 2 1).2 5

/-- A neuron as `c2d_init` leaves it on a grid of radius 1 (`max_syn_count = 2`). -/
def quiet_neuron : neuron_t := init_cell 2 zero_neuron

/-- A neuron with two active excitatory synapses of strength 1, at the slots 3 and 5 (its left
and right neighbors for radius 1): `syn_count = 2`, `tot_syn_strength = 2`. -/
def paired_neuron : neuron_t :=
  { quiet_neuron with
    synac_mask := 0x28, synex_mask := 0x28, synstr_mask_a := 0x28,
    syn_count := 2, tot_syn_strength := 2 }

/-- A 3 x 1 grid of radius 1 with the parameters of `c2d_init` and the given
`max_tot_strength`, at `ticks_count = 0`, whose middle neuron is `paired_neuron`. -/
def strength_prev (max_tot_strength : Nat) : cortex2d_t :=
  { (c2d_init sample_defaults blank_cortex 3 1 1).2 with
    max_tot_strength := max_tot_strength,
    neurons := [quiet_neuron, paired_neuron, quiet_neuron] }

/-- A 1 x 1 grid of radius 0 from `c2d_init`, its neuron stimulated with 200 (`c2d_sqfeed`),
which is above the threshold 0x88. -/
def spike_prev : cortex2d_t :=
  c2d_sqfeed (c2d_init sample_defaults blank_cortex 1 1 0).2 0 0 1 1 200

/-- The cortex `spike_prev` with a recovery value of -10 in place of the default -0x2A. -/
def recovery_prev : cortex2d_t := { spike_prev with recovery_value := -10 }

/-- A 1 x 1 grid of radius 0 from `c2d_init` with a decay value of 2 in place of the default 1,
its neuron (which has no synapse) stimulated with 5. -/
def decay_prev : cortex2d_t :=
  { c2d_sqfeed (c2d_init sample_defaults blank_cortex 1 1 0).2 0 0 1 1 5 with decay_value := 2 }

/-- A 2 x 2 grid of radius 1 as `c2d_init` leaves it: `ticks_count = 0`, `evols_count = 0`,
`evol_step = 0x0000000A`. -/
def fresh_a : cortex2d_t := (c2d_init sample_defaults blank_cortex 2 2 1).2

/-- The second grid of the ping-pong pair, made by `c2d_copy` from `fresh_a`. -/
def fresh_b : cortex2d_t := (c2d_copy blank_cortex fresh_a).2

/-- The grid `fresh_a` set to never evolve: `c2d_set_evol_step(.., EVOL_STEP_NEVER)`. -/
def never_prev : cortex2d_t := c2d_set_evol_step fresh_a EVOL_STEP_NEVER

/-- The cortex `grid_b1` (four neurons that have just fired, no synapse yet) with
`evol_step = EVOL_STEP_NEVER` and `ticks_count = 0`. -/
def never_active : cortex2d_t :=
  { grid_b1 with evol_step := EVOL_STEP_NEVER, ticks_count := 0 }

/-- The cortex `grid_a0` after `c2d_set_inhexc_range(.., 91)`: it differs from `grid_a0` in
`inhexc_range` only (91 in place of the default 100). -/
def grid_a0_wide : cortex2d_t := c2d_set_inhexc_range grid_a0 91

/-- A memory holding `grid_a0` at address 0 and `grid_b0` at every other address. -/
def grid_memory : Nat → cortex2d_t := fun a => if a = 0 then grid_a0 else grid_b0

/-- The grid `fresh_b` after the first tick of the fresh pair, every draw being 0:
`ticks_count = 1` with `evol_step = 10`, so that its tick does not evolve. -/
def fresh_b1 : cortex2d_t := c2d_tick (fun _ => 0) fresh_a fresh_b

/-- The table of the comment of `pulse_map_fprop` (`portia_std.c`, lines 489-498), for
`sample_window = 10`: row `x` is the line of input `x`, the cell of step `s` is the character
at position `2 * s + 1`. -/
def fprop_table : List String :=
  [ "|@| | | | | | | | | |",
    "|@| | | | | | | | |@|",
    "|@| | | |@| | | |@| |",
    "|@| | |@| | |@| | |@|",
    "|@| |@| |@| |@| |@| |",
    "| |@| |@| |@| |@| |@|",
    "| |@|@| |@|@| |@|@| |",
    "| |@|@|@| |@|@|@| |@|",
    "| |@|@|@|@|@|@|@|@| |",
    "| |@|@|@|@|@|@|@|@|@|" ]

/-- Whether a comment table marks a spike (`@`) for the given input at the given step. -/
def table_marks (table : List String) (input step : Nat) : Bool :=
  ((table.getD input "").toList.getD (2 * step + 1) ' ') == '@'

/-- A neuron as `c2d_init` leaves it on a grid of radius 1, stimulated with 200, which is above
the threshold 0x88. -/
def firing_neuron : neuron_t := { quiet_neuron with value := 200 }

/-- A neuron at the value 5 with one active synapse of strength 0 at slot 5 (its right neighbor
for radius 1), inhibitory since bit 5 of `synex_mask` is clear. -/
def inhibited_neuron : neuron_t :=
  { quiet_neuron with synac_mask := 0x20, syn_count := 1, value := 5 }

/-- A 2 x 1 grid of radius 1 with the parameters of `c2d_init` (`recovery_value = -42`,
`inh_value = -32` from `sample_defaults`): `inhibited_neuron` with `firing_neuron` on its
right. -/
def inhibited_prev : cortex2d_t :=
  { (c2d_init sample_defaults blank_cortex 2 1 1).2 with
    neurons := [inhibited_neuron, firing_neuron] }

/-- A neuron at the value -100 with one active excitatory synapse of strength 0 at slot 5 (its
right neighbor for radius 1). -/
def excited_neuron : neuron_t :=
  { quiet_neuron with synac_mask := 0x20, synex_mask := 0x20, syn_count := 1, value := -100 }

/-- A 2 x 1 grid of radius 1 with the parameters of `c2d_init` (`recovery_value = -42`,
`exc_value = 32` from `sample_defaults`): `excited_neuron` with `firing_neuron` on its right. -/
def excited_prev : cortex2d_t :=
  { (c2d_init sample_defaults blank_cortex 2 1 1).2 with
    neurons := [excited_neuron, firing_neuron] }

/-- The cortex `grid_a0` after `c2d_set_inhexc_range(.., 0)`. -/
def zero_range_a : cortex2d_t := c2d_set_inhexc_range grid_a0 0

/-- The copy of `zero_range_a` after the first tick, every draw being 0: all four neurons have
fired, each has `tick_pulse = 1`. -/
def zero_range_b1 : cortex2d_t :=
  c2d_tick (fun _ => 0) zero_range_a (c2d_copy blank_cortex zero_range_a).2

/-- The cortex `grid_a0` after `c2d_set_max_syn_count(.., 0)`. -/
def capped_a0 : cortex2d_t := c2d_set_max_syn_count grid_a0 0

/-- The copy of `capped_a0` after the first tick, every draw being 0: all four neurons have
fired, none has a synapse. -/
def capped_b1 : cortex2d_t :=
  c2d_tick (fun _ => 0) capped_a0 (c2d_copy blank_cortex capped_a0).2

/-- A 2 x 2 grid of radius 3 as `c2d_init` leaves it: 48 neighbor slots, `max_syn_count = 12`. -/
def wide_a : cortex2d_t := (c2d_init sample_defaults blank_cortex 2 2 3).2

/-- A 1 x 1 grid of radius 1 as `c2d_init` leaves it: its neuron has no neighbor inside the
grid. -/
def single_a : cortex2d_t := (c2d_init sample_defaults blank_cortex 1 1 1).2

/-- A random source whose first six calls return 0 and the following ones 0xFFFE. -/
def early_draws : Nat → Nat := fun k => if k < 6 then 0 else 0xFFFE

/-- A neuron as `c2d_init` leaves it on a grid of radius 1 that fired one tick ago. -/
def pulsed_neuron : neuron_t := { quiet_neuron with tick_pulse_mask := 2, tick_pulse := 1 }

/-- A neuron with one active synapse of strength 1 at slot 5 and, at the inactive slot 3, the
strength bits of a former synapse (bit 3 of `synstr_mask_a`). -/
def stale_neuron : neuron_t :=
  { quiet_neuron with
    synac_mask := 0x20, synstr_mask_a := 0x28, syn_count := 1, tot_syn_strength := 1 }

/-- A 3 x 1 grid of radius 1 with the parameters of `c2d_init`, at `ticks_count = 0`:
`stale_neuron` between two neurons that have fired. -/
def stale_prev : cortex2d_t :=
  { (c2d_init sample_defaults blank_cortex 3 1 1).2 with
    neurons := [pulsed_neuron, stale_neuron, pulsed_neuron] }

/-- A 3 x 1 grid of radius 1 from `c2d_init`, set to evolve at every tick, every neuron
stimulated with 200. -/
def row_a0 : cortex2d_t :=
  c2d_sqfeed (c2d_set_evol_step (c2d_init sample_defaults blank_cortex 3 1 1).2 0) 0 0 3 1 200

/-- The second grid of the pair, a copy of `row_a0`. -/
def row_b0 : cortex2d_t := (c2d_copy blank_cortex row_a0).2

/-- Random sources for four ping-pong ticks: every draw is 0 but the third draw of the third
tick (the right neighbor of the middle neuron), which is 0xFFFE. -/
def stale_draws : Nat → Nat → Nat := fun call k => if call = 3 ∧ k = 2 then 0xFFFE else 0

/-- A neuron of a grid of radius 3 with one active synapse of strength 3 at slot 32 (the
neighbor one row down and one column right). -/
def deep_neuron : neuron_t :=
  { init_cell 12 zero_neuron with
    synac_mask := 0x100000000, synstr_mask_a := 0x100000000, synstr_mask_b := 0x100000000,
    syn_count := 1, tot_syn_strength := 3 }

/-- The 2 x 2 grid `wide_a` of radius 3 with `deep_neuron` in cell 0. -/
def deep_prev : cortex2d_t :=
  { wide_a with
    neurons := [deep_neuron, init_cell 12 zero_neuron, init_cell 12 zero_neuron,
      init_cell 12 zero_neuron] }

/-- A memory holding `grid_a0` at address 0 and a record that `c2d_init` has not filled at every
other address. -/
def copy_memory : Nat → cortex2d_t := fun a => if a = 0 then grid_a0 else blank_cortex

/-- A free storage whose cells hold a neuron at the value 200 with three active synapses, as
left behind by an array that was released. -/
def used_storage : Nat → neuron_t :=
  fun _ => { firing_neuron with synac_mask := 416, syn_count := 3 }

/-- A free storage of cleared cells. -/
def cleared_storage : Nat → neuron_t := fun _ => zero_neuron

/-- The record of `c2d_init(.., -1, -1, 1)`, whose block of `(-1) * (-1) = 1` cell the
initialisation loops do not visit, the cell holding a neuron at the value 200. -/
def inverted_src : cortex2d_t :=
  { (c2d_init sample_defaults blank_cortex (-1) (-1) 1).2 with neurons := [firing_neuron] }

/-- A memory holding `inverted_src` at address 0 and a record that `c2d_init` has not filled at
every other address. -/
def inverted_memory : Nat → cortex2d_t := fun a => if a = 0 then inverted_src else blank_cortex

/-- Random sources for the ping-pong ticks: every draw of the third tick is 0, every other draw
is 0xFFFE. -/
def third_draws : Nat → Nat → Nat := fun call _ => if call = 3 then 0 else 0xFFFE

/-! ## Loops -/

/-- Invariant rule for a `for` loop: an invariant indexed by the number of completed iterations
that holds initially and is carried by every iteration holds when the loop ends. -/
theorem foldl_loop_range_inv {σ : Type} (f : σ → Int → σ) (P : Nat → σ → Prop) (lo hi : Int)
    (s0 : σ) (h0 : P 0 s0)
    (hstep : ∀ (k : Nat) (s : σ), k < (hi - lo).toNat → P k s → P (k + 1) (f s (lo + (k : Int)))) :
    P (hi - lo).toNat ((loop_range lo hi).foldl f s0) := by
  unfold loop_range
  generalize (hi - lo).toNat = m at hstep ⊢
  induction m with
  | zero => simpa using h0
  | succ m ih =>
    rw [List.range_succ, List.map_append, List.foldl_append]
    simp only [List.map_cons, List.map_nil, List.foldl_cons, List.foldl_nil]
    exact hstep m _ (Nat.lt_succ_self m) (ih (fun k s hk hP => hstep k s (Nat.lt_succ_of_lt hk) hP))

/-- Invariant rule for a loop whose invariant does not depend on the iteration. -/
theorem foldl_loop_range_preserves {σ : Type} (f : σ → Int → σ) (P : σ → Prop) (lo hi : Int)
    (s0 : σ) (h0 : P s0) (hstep : ∀ (v : Int) (s : σ), P s → P (f s v)) :
    P ((loop_range lo hi).foldl f s0) :=
  foldl_loop_range_inv f (fun _ s => P s) lo hi s0 h0 (fun _ s _ hP => hstep _ s hP)

/-- Invariant rule for two nested loops that both start at 0: the invariant is indexed by the
number of completed inner iterations, counted row by row. -/
theorem nested_loop_inv {σ : Type} (f : σ → Int → Int → σ) (P : Nat → σ → Prop) (h w : Int)
    (s0 : σ) (h0 : P 0 s0)
    (hstep : ∀ (j i : Nat) (s : σ), j < h.toNat → i < w.toNat →
      P (w.toNat * j + i) s → P (w.toNat * j + i + 1) (f s (j : Int) (i : Int))) :
    P (w.toNat * h.toNat)
      ((loop_range 0 h).foldl (fun s j => (loop_range 0 w).foldl (fun s i => f s j i) s) s0) := by
  have houter := foldl_loop_range_inv
    (fun s j => (loop_range 0 w).foldl (fun s i => f s j i) s)
    (fun j s => P (w.toNat * j) s) 0 h s0 (by simpa using h0)
    (by
      intro k s hk hP
      have hinner := foldl_loop_range_inv (fun s i => f s (0 + (k : Int)) i)
        (fun i s => P (w.toNat * k + i) s) 0 w s (by simpa using hP)
        (by
          intro i s' hi hP'
          have := hstep k i s' (by simpa using hk) (by simpa using hi) hP'
          simpa using this)
      simp only [sub_zero] at hinner
      have he : w.toNat * (k + 1) = w.toNat * k + w.toNat := by ring
      rw [he]
      exact hinner)
  simpa using houter

/-- Rule for two nested loops whose invariant does not depend on the iteration. -/
theorem nested_loop_preserves {σ : Type} (f : σ → Int → Int → σ) (P : σ → Prop) (h w : Int)
    (s0 : σ) (h0 : P s0) (hstep : ∀ (j i : Int) (s : σ), P s → P (f s j i)) :
    P ((loop_range 0 h).foldl (fun s j => (loop_range 0 w).foldl (fun s i => f s j i) s) s0) :=
  nested_loop_inv f (fun _ s => P s) h w s0 h0 (fun j i s _ _ hP => hstep j i s hP)

/-! ## Indices -/

theorem cell_index_lt (W H j i : Nat) (hj : j < H) (hi : i < W) : W * j + i < W * H := by
  have h1 : W * (j + 1) ≤ W * H := Nat.mul_le_mul_left W hj
  have h2 : W * (j + 1) = W * j + W := by ring
  omega

theorem IDX2D_nonneg (w : Int) (j i : Nat) (hw : 0 ≤ w) : 0 ≤ IDX2D (i : Int) (j : Int) w := by
  unfold IDX2D
  positivity

theorem IDX2D_toNat (w : Int) (j i : Nat) (hw : 0 ≤ w) :
    (IDX2D (i : Int) (j : Int) w).toNat = w.toNat * j + i := by
  unfold IDX2D
  obtain ⟨W, rfl⟩ := Int.eq_ofNat_of_zero_le hw
  have : ((W : Int) * (j : Int) + (i : Int)) = ((W * j + i : Nat) : Int) := by push_cast; ring
  rw [this]
  exact Int.toNat_natCast _

theorem neuron_at_of_getElem? (ns : List neuron_t) (k : Nat) (n : neuron_t)
    (h : ns[k]? = some n) : neuron_at ns (k : Int) = n := by
  unfold neuron_at
  simp [List.getD, h]

/-! ## `c2d_init`: radius validation -/

theorem neighbor_count_toU64 (r : Int) (hlo : -128 ≤ r) (hhi : r ≤ 127) :
    toU64 (NH_COUNT_2D (NH_DIAM_2D r)) > MASK_BITS ↔ (2 * r + 1) ^ 2 - 1 > 64 := by
  unfold toU64 NH_COUNT_2D NH_DIAM_2D MASK_BITS
  have h0 : 0 ≤ (2 * r + 1) * (2 * r + 1) - 1 := by
    rcases le_or_lt 0 r with h | h <;> nlinarith
  have h1 : (2 * r + 1) * (2 * r + 1) - 1 < 18446744073709551616 := by nlinarith
  rw [Int.emod_eq_of_lt h0 h1]
  have h2 : (2 * r + 1) ^ 2 = (2 * r + 1) * (2 * r + 1) := by ring
  rw [h2]
  omega

/-- C10. For every radius of the 8 bit signed radius type, `c2d_init` returns
`ERROR_NH_RADIUS_TOO_BIG` exactly when the neighbor-slot count `(2 * radius + 1)^2 - 1` exceeds
64, and then returns the cortex record it was given unmodified; otherwise it returns `NO_ERROR`
and the record has `nh_radius = radius`. -/
theorem c2d_init_radius_validation (D : defaults_t) (cortex : cortex2d_t)
    (width height radius : Int) (hlo : -128 ≤ radius) (hhi : radius ≤ 127) :
    ((c2d_init D cortex width height radius).1 = error_code_t.ERROR_NH_RADIUS_TOO_BIG ↔
        (2 * radius + 1) ^ 2 - 1 > 64) ∧
      ((2 * radius + 1) ^ 2 - 1 > 64 → (c2d_init D cortex width height radius).2 = cortex) ∧
      (¬ (2 * radius + 1) ^ 2 - 1 > 64 →
        (c2d_init D cortex width height radius).1 = error_code_t.NO_ERROR ∧
        (c2d_init D cortex width height radius).2.nh_radius = radius) := by
  have key := neighbor_count_toU64 radius hlo hhi
  unfold c2d_init
  by_cases h : toU64 (NH_COUNT_2D (NH_DIAM_2D radius)) > MASK_BITS
  · have h' := key.mp h
    simp [h, h']
  · have h' : ¬ (2 * radius + 1) ^ 2 - 1 > 64 := fun hc => h (key.mpr hc)
    simp [h, h']

/-- The radius 4 has 80 neighbor slots: `c2d_init` refuses it. -/
theorem c2d_init_radius_validation_witness :
    ((c2d_init sample_defaults blank_cortex 2 2 4).1 = error_code_t.ERROR_NH_RADIUS_TOO_BIG ↔
        (2 * (4 : Int) + 1) ^ 2 - 1 > 64) ∧
      ((2 * (4 : Int) + 1) ^ 2 - 1 > 64 →
        (c2d_init sample_defaults blank_cortex 2 2 4).2 = blank_cortex) ∧
      (¬ (2 * (4 : Int) + 1) ^ 2 - 1 > 64 →
        (c2d_init sample_defaults blank_cortex 2 2 4).1 = error_code_t.NO_ERROR ∧
        (c2d_init sample_defaults blank_cortex 2 2 4).2.nh_radius = 4) :=
  c2d_init_radius_validation sample_defaults blank_cortex 2 2 4 (by decide) (by decide)

/-! ## `c2d_copy` -/

theorem length_neuron_store (ns : List neuron_t) (idx : Int) (n : neuron_t) :
    (neuron_store ns idx n).length = ns.length := by
  unfold neuron_store
  split <;> simp

theorem length_malloc_neurons (n : Int) : (malloc_neurons n).length = n.toNat := by
  simp [malloc_neurons]

theorem toNat_mul_of_nonneg (w h : Int) (hw : 0 ≤ w) (hh : 0 ≤ h) :
    (w * h).toNat = w.toNat * h.toNat := by
  obtain ⟨W, rfl⟩ := Int.eq_ofNat_of_zero_le hw
  obtain ⟨H, rfl⟩ := Int.eq_ofNat_of_zero_le hh
  have : ((W : Int) * (H : Int)) = ((W * H : Nat) : Int) := by push_cast; ring
  rw [this]
  exact Int.toNat_natCast _

/-- The copy loops fill the first `width * height` cells of an array of that length with the
cells of the source. -/
theorem copy_neurons_cells (src : cortex2d_t) (ns : List neuron_t)
    (hw : 0 ≤ src.width) (hlen : ns.length = src.width.toNat * src.height.toNat) :
    (copy_neurons src ns).length = src.width.toNat * src.height.toNat ∧
      ∀ k : Nat, k < src.width.toNat * src.height.toNat →
        (copy_neurons src ns)[k]? = some (neuron_at src.neurons (k : Int)) := by
  unfold copy_neurons
  refine nested_loop_inv
    (fun ns y x => neuron_store ns (IDX2D x y src.width) (neuron_at src.neurons (IDX2D x y src.width)))
    (fun m ns => ns.length = src.width.toNat * src.height.toNat ∧
      ∀ k : Nat, k < m → ns[k]? = some (neuron_at src.neurons (k : Int)))
    src.height src.width ns ⟨hlen, fun k hk => absurd hk (Nat.not_lt_zero k)⟩ ?_
  intro j i s hj hi ⟨hl, hcells⟩
  have hidx := IDX2D_toNat src.width j i hw
  have hnn := IDX2D_nonneg src.width j i hw
  have hlt := cell_index_lt _ _ j i hj hi
  refine ⟨by rw [length_neuron_store, hl], ?_⟩
  intro k hk
  beta_reduce
  unfold neuron_store
  rw [if_pos hnn, hidx, List.getElem?_set]
  by_cases hkm : src.width.toNat * j + i = k
  · subst hkm
    rw [if_pos rfl, if_pos (by rw [hl]; exact hlt)]
    congr 2
    rw [← hidx, Int.toNat_of_nonneg hnn]
  · rw [if_neg hkm]
    exact hcells k (by omega)

/-- The functional model of the copy: from a source of non-negative dimensions `c2d_copy`
reports `NO_ERROR`, every scalar parameter of the result equals the corresponding parameter of
the source, and every cell with index in `[0, width * height)` equals the same cell of the
source field by field; when the array of the source has exactly `width * height` cells the two
records are equal. -/
theorem c2d_copy_fidelity (dst src : cortex2d_t) (hw : 0 ≤ src.width) (hh : 0 ≤ src.height) :
    (c2d_copy dst src).1 = error_code_t.NO_ERROR ∧
      same_parameters (c2d_copy dst src).2 src ∧
      same_cells (c2d_copy dst src).2 src ∧
      (src.neurons.length = (src.width * src.height).toNat → (c2d_copy dst src).2 = src) := by
  have hL := toNat_mul_of_nonneg src.width src.height hw hh
  have hcells := copy_neurons_cells src (malloc_neurons (src.width * src.height)) hw
    (by rw [length_malloc_neurons, hL])
  have hcell : ∀ idx : Int, 0 ≤ idx → idx < src.width * src.height →
      neuron_at (c2d_copy dst src).2.neurons idx = neuron_at src.neurons idx := by
    intro idx h0 h1
    have hk : idx.toNat < src.width.toNat * src.height.toNat := by
      rw [← hL]; omega
    have := neuron_at_of_getElem? _ _ _ (hcells.2 idx.toNat hk)
    rw [Int.toNat_of_nonneg h0] at this
    exact this
  refine ⟨rfl, ⟨rfl, rfl, rfl, rfl, rfl, rfl, rfl, rfl, rfl, rfl, rfl, rfl, rfl, rfl, rfl, rfl, rfl,
    rfl, rfl, rfl, rfl⟩, hcell, ?_⟩
  intro hlen
  have hns : (c2d_copy dst src).2.neurons = src.neurons := by
    apply List.ext_getElem?
    intro k
    by_cases hk : k < src.width.toNat * src.height.toNat
    · have h1 : (c2d_copy dst src).2.neurons[k]? = some (neuron_at src.neurons (k : Int)) :=
        hcells.2 k hk
      rw [h1]
      have hk' : k < src.neurons.length := by rw [hlen, hL]; exact hk
      unfold neuron_at
      simp [List.getD, List.getElem?_eq_getElem hk']
    · have h1 : (c2d_copy dst src).2.neurons.length ≤ k := by
        have := hcells.1
        show (copy_neurons src (malloc_neurons (src.width * src.height))).length ≤ k
        omega
      have h2 : src.neurons.length ≤ k := by rw [hlen, hL]; omega
      rw [List.getElem?_eq_none h1, List.getElem?_eq_none h2]
  cases src
  simp only [c2d_copy] at hns ⊢
  simp only [hns]

/-- The copy of the stimulated 2 x 2 grid `grid_a0`. -/
theorem c2d_copy_fidelity_witness :
    (c2d_copy blank_cortex grid_a0).1 = error_code_t.NO_ERROR ∧
      same_parameters (c2d_copy blank_cortex grid_a0).2 grid_a0 ∧
      same_cells (c2d_copy blank_cortex grid_a0).2 grid_a0 ∧
      (grid_a0.neurons.length = (grid_a0.width * grid_a0.height).toNat →
        (c2d_copy blank_cortex grid_a0).2 = grid_a0) :=
  c2d_copy_fidelity blank_cortex grid_a0 (by decide) (by decide)

/-! ## Bits -/

theorem shl64_one (m : Nat) (hm : m < 64) : shl64 0x01 m = 2 ^ m := by
  unfold shl64
  rw [Nat.one_shiftLeft]
  exact Nat.mod_eq_of_lt (Nat.pow_lt_pow_right (by decide) hm)

theorem testBit_set_slot (x m b : Nat) (hm : m < 64) :
    (x ||| shl64 0x01 m).testBit b = (x.testBit b || decide (m = b)) := by
  rw [shl64_one m hm, Nat.testBit_or, Nat.testBit_two_pow]

theorem testBit_clear_slot (x m b : Nat) (hm : m < 64) :
    (x &&& not64 (shl64 0x01 m)).testBit b = (x.testBit b && (decide (b < 64) && !decide (m = b))) := by
  rw [shl64_one m hm, Nat.testBit_and]
  unfold not64
  rw [Nat.testBit_two_pow_sub_succ (Nat.pow_lt_pow_right (by decide) hm), Nat.testBit_two_pow]

theorem and_one_ne_zero_iff (x : Nat) : x &&& 0x01 ≠ 0 ↔ x.testBit 0 = true := by
  rw [Nat.and_one_is_mod, Nat.testBit_zero]
  simp

theorem shiftRight_and_one_ne_zero_iff (x m : Nat) :
    (x >>> m) &&& 0x01 ≠ 0 ↔ x.testBit m = true := by
  rw [and_one_ne_zero_iff, Nat.testBit_shiftRight]
  simp

theorem count_bits_le (m k : Nat) : count_bits m k ≤ k := by
  induction k with
  | zero => simp [count_bits]
  | succ k ih =>
    unfold count_bits
    split <;> omega

theorem count_bits_congr (m1 m2 k : Nat) (h : ∀ b, b < k → m1.testBit b = m2.testBit b) :
    count_bits m1 k = count_bits m2 k := by
  induction k with
  | zero => simp [count_bits]
  | succ k ih =>
    unfold count_bits
    rw [ih (fun b hb => h b (Nat.lt_succ_of_lt hb)), h k (Nat.lt_succ_self k)]

/-- Setting one clear bit below `k` raises the count by one. -/
theorem count_bits_set (m1 m2 k b : Nat) (hb : b < k) (h0 : m1.testBit b = false)
    (h1 : m2.testBit b = true) (h : ∀ c, c < k → c ≠ b → m2.testBit c = m1.testBit c) :
    count_bits m2 k = count_bits m1 k + 1 := by
  induction k with
  | zero => omega
  | succ k ih =>
    unfold count_bits
    by_cases hbk : b = k
    · subst hbk
      rw [count_bits_congr m2 m1 b (fun c hc => h c (Nat.lt_succ_of_lt hc) (by omega)), h0, h1]
      simp
    · rw [ih (by omega) (fun c hc hcb => h c (Nat.lt_succ_of_lt hc) hcb),
        h k (Nat.lt_succ_self k) (fun hkb => hbk hkb.symm)]
      omega

/-! ## The neighbor loops and the synapse count -/

theorem neighbor_influence_step_synapses (prev_cortex : cortex2d_t) (neighbor : neuron_t)
    (ac ex ss : Nat) (n : neuron_t) :
    (neighbor_influence_step prev_cortex neighbor ac ex ss n).synac_mask = n.synac_mask ∧
      (neighbor_influence_step prev_cortex neighbor ac ex ss n).syn_count = n.syn_count := by
  unfold neighbor_influence_step
  dsimp only
  split_ifs <;> exact ⟨rfl, rfl⟩

theorem functional_step_synapses (prev_cortex : cortex2d_t) (prev_neuron neighbor : neuron_t)
    (ac ss random slot : Nat) (n : neuron_t) :
    (functional_step prev_cortex prev_neuron neighbor ac ss random slot n).synac_mask =
        n.synac_mask ∧
      (functional_step prev_cortex prev_neuron neighbor ac ss random slot n).syn_count =
        n.syn_count := by
  unfold functional_step store_strength
  split_ifs <;> exact ⟨rfl, rfl⟩

theorem cell_finish_synapses (prev_cortex : cortex2d_t) (prev_neuron : neuron_t) (evolve : Bool)
    (n : neuron_t) :
    (cell_finish prev_cortex prev_neuron evolve n).synac_mask = n.synac_mask ∧
      (cell_finish prev_cortex prev_neuron evolve n).syn_count = n.syn_count := by
  unfold cell_finish
  cases evolve with
  | false =>
    simp only [Bool.false_eq_true, if_false]
    split_ifs <;> exact ⟨rfl, rfl⟩
  | true =>
    simp only [eq_self_iff_true, if_true]
    split_ifs <;> exact ⟨rfl, rfl⟩

/-- Structural plasticity keeps `syn_count` equal to the number of set bits: a deletion clears
the bit of the slot, which was set, a generation sets it, which was clear; no other bit below
64 changes. -/
theorem structural_step_count (prev_cortex : cortex2d_t) (ir : Nat)
    (prev_neuron neighbor : neuron_t) (ac ss random slot : Nat) (n : neuron_t)
    (hslot : slot < 64) (hbit : ac &&& 0x01 ≠ 0 ↔ n.synac_mask.testBit slot = true)
    (hc : n.syn_count = popcount64 n.synac_mask) :
    (structural_step prev_cortex ir prev_neuron neighbor ac ss random slot n).syn_count =
        popcount64 (structural_step prev_cortex ir prev_neuron neighbor ac ss random slot n).synac_mask ∧
      ∀ b, b < 64 → b ≠ slot →
        (structural_step prev_cortex ir prev_neuron neighbor ac ss random slot n).synac_mask.testBit b
          = n.synac_mask.testBit b := by
  unfold structural_step
  split_ifs with hdel hgen
  · -- deletion
    have hset : n.synac_mask.testBit slot = true := hbit.mp hdel.1
    have hother : ∀ b, b < 64 → b ≠ slot →
        (n.synac_mask &&& not64 (shl64 0x01 slot)).testBit b = n.synac_mask.testBit b := by
      intro b hb hne
      rw [testBit_clear_slot _ _ _ hslot]
      simp [hb, Ne.symm hne]
    have hclear : (n.synac_mask &&& not64 (shl64 0x01 slot)).testBit slot = false := by
      rw [testBit_clear_slot _ _ _ hslot]
      simp
    have hcount := count_bits_set (n.synac_mask &&& not64 (shl64 0x01 slot)) n.synac_mask 64 slot
      hslot hclear hset (fun c hc hne => (hother c hc hne).symm)
    refine ⟨?_, hother⟩
    show (n.syn_count + 255) % 256 = popcount64 (n.synac_mask &&& not64 (shl64 0x01 slot))
    have hle := count_bits_le n.synac_mask 64
    unfold popcount64 at hc ⊢
    omega
  · -- generation
    have hunset : n.synac_mask.testBit slot = false := by
      by_contra hcon
      exact hgen.1 (hbit.mpr (by simpa using hcon))
    have hother : ∀ b, b < 64 → b ≠ slot →
        (n.synac_mask ||| shl64 0x01 slot).testBit b = n.synac_mask.testBit b := by
      intro b hb hne
      rw [testBit_set_slot _ _ _ hslot]
      simp [Ne.symm hne]
    have hnew : (n.synac_mask ||| shl64 0x01 slot).testBit slot = true := by
      rw [testBit_set_slot _ _ _ hslot]
      simp
    have hcount := count_bits_set n.synac_mask (n.synac_mask ||| shl64 0x01 slot) 64 slot
      hslot hunset hnew (fun c hc hne => hother c hc hne)
    refine ⟨?_, hother⟩
    show (n.syn_count + 1) % 256 = popcount64 (n.synac_mask ||| shl64 0x01 slot)
    have hle := count_bits_le (n.synac_mask ||| shl64 0x01 slot) 64
    unfold popcount64 at hc ⊢
    omega
  · exact ⟨hc, fun _ _ _ => rfl⟩

/-- One iteration of the neighbor loops carries the synapse-count invariant from slot `m` to
slot `m + 1`: the shifted activity mask is the previous mask shifted by the number of completed
iterations, the bits of the slots still to visit are those of the previous mask, and
`syn_count` is the number of set bits. -/
theorem tick_slot_syn_count (xorshf32 : Nat → Nat) (prev_cortex : cortex2d_t) (ir : Nat)
    (prev_neuron : neuron_t) (x y d : Int) (evolve : Bool) (j i : Int) (m : Nat) (s : slot_state)
    (hm : (IDX2D i j d).toNat = m) (hlt : m < 64)
    (hac : s.prev_ac_mask = prev_neuron.synac_mask >>> m)
    (hbits : ∀ b, m ≤ b → b < 64 →
      s.next_neuron.synac_mask.testBit b = prev_neuron.synac_mask.testBit b)
    (hc : s.next_neuron.syn_count = popcount64 s.next_neuron.synac_mask) :
    (tick_slot xorshf32 prev_cortex ir prev_neuron x y d evolve j i s).prev_ac_mask =
        prev_neuron.synac_mask >>> (m + 1) ∧
      (∀ b, m + 1 ≤ b → b < 64 →
        (tick_slot xorshf32 prev_cortex ir prev_neuron x y d evolve j i s).next_neuron.synac_mask.testBit b
          = prev_neuron.synac_mask.testBit b) ∧
      (tick_slot xorshf32 prev_cortex ir prev_neuron x y d evolve j i s).next_neuron.syn_count =
        popcount64
          (tick_slot xorshf32 prev_cortex ir prev_neuron x y d evolve j i s).next_neuron.synac_mask := by
  have hshift : (prev_neuron.synac_mask >>> m) >>> 0x01 = prev_neuron.synac_mask >>> (m + 1) := by
    rw [← Nat.shiftRight_add]
  have hbit : s.prev_ac_mask &&& 0x01 ≠ 0 ↔ s.next_neuron.synac_mask.testBit m = true := by
    rw [hac, shiftRight_and_one_ne_zero_iff, hbits m (le_refl m) hlt]
  unfold tick_slot
  dsimp only
  split_ifs with hcond
  · unfold slot_body
    dsimp only
    rw [hm]
    cases evolve with
    | false =>
      simp only [Bool.false_eq_true, if_false]
      have hi := neighbor_influence_step_synapses prev_cortex
        (neuron_at prev_cortex.neurons (IDX2D (WRAP (x + (i - prev_cortex.nh_radius)) prev_cortex.width)
          (WRAP (y + (j - prev_cortex.nh_radius)) prev_cortex.height) prev_cortex.width))
        s.prev_ac_mask s.prev_exc_mask
        (syn_strength_of s.prev_str_mask_a s.prev_str_mask_b s.prev_str_mask_c) s.next_neuron
      refine ⟨by rw [hac, hshift], ?_, ?_⟩
      · intro b hb1 hb2
        rw [hi.1]
        exact hbits b (by omega) hb2
      · rw [hi.1, hi.2]
        exact hc
    | true =>
      simp only [if_true]
      generalize hnb : neuron_at prev_cortex.neurons
        (IDX2D (WRAP (x + (i - prev_cortex.nh_radius)) prev_cortex.width)
          (WRAP (y + (j - prev_cortex.nh_radius)) prev_cortex.height) prev_cortex.width) = neighbor
      generalize hss : syn_strength_of s.prev_str_mask_a s.prev_str_mask_b s.prev_str_mask_c = ss
      generalize hrnd : xorshf32 s.calls % 2 ^ 32 % 0xFFFF = random
      have hi := neighbor_influence_step_synapses prev_cortex neighbor s.prev_ac_mask
        s.prev_exc_mask ss s.next_neuron
      have hst := structural_step_count prev_cortex ir prev_neuron neighbor s.prev_ac_mask ss random m
        (neighbor_influence_step prev_cortex neighbor s.prev_ac_mask s.prev_exc_mask ss s.next_neuron)
        hlt (by rw [hi.1]; exact hbit) (by rw [hi.1, hi.2]; exact hc)
      have hf := functional_step_synapses prev_cortex prev_neuron neighbor s.prev_ac_mask ss random m
        (structural_step prev_cortex ir prev_neuron neighbor s.prev_ac_mask ss random m
          (neighbor_influence_step prev_cortex neighbor s.prev_ac_mask s.prev_exc_mask ss s.next_neuron))
      refine ⟨by rw [hac, hshift], ?_, ?_⟩
      · intro b hb1 hb2
        rw [hf.1, hst.2 b hb2 (by omega), hi.1]
        exact hbits b (by omega) hb2
      · rw [hf.1, hf.2]
        exact hst.1
  · refine ⟨by rw [hac, hshift], ?_, hc⟩
    intro b hb1 hb2
    exact hbits b (by omega) hb2

theorem diameter_le_seven (r : Int) (hr : NH_COUNT_2D (NH_DIAM_2D r) ≤ 64) :
    (NH_DIAM_2D r).toNat ≤ 7 := by
  unfold NH_COUNT_2D NH_DIAM_2D at hr
  unfold NH_DIAM_2D
  have h1 : r ≤ 3 := by nlinarith
  omega

/-- The neighbor loops keep `syn_count` equal to the number of set bits of `synac_mask`. -/
theorem neighbor_loops_syn_count (xorshf32 : Nat → Nat) (prev_cortex : cortex2d_t) (ir : Nat)
    (prev_neuron : neuron_t) (x y : Int) (evolve : Bool) (s : slot_state)
    (hr : NH_COUNT_2D (NH_DIAM_2D prev_cortex.nh_radius) ≤ 64)
    (hac : s.prev_ac_mask = prev_neuron.synac_mask)
    (hmask : s.next_neuron.synac_mask = prev_neuron.synac_mask)
    (hc : s.next_neuron.syn_count = popcount64 s.next_neuron.synac_mask) :
    (neighbor_loops xorshf32 prev_cortex ir prev_neuron x y (NH_DIAM_2D prev_cortex.nh_radius)
        evolve s).next_neuron.syn_count =
      popcount64 (neighbor_loops xorshf32 prev_cortex ir prev_neuron x y
        (NH_DIAM_2D prev_cortex.nh_radius) evolve s).next_neuron.synac_mask := by
  have hd := diameter_le_seven prev_cortex.nh_radius hr
  unfold neighbor_loops
  have := nested_loop_inv
    (fun s j i => tick_slot xorshf32 prev_cortex ir prev_neuron x y
      (NH_DIAM_2D prev_cortex.nh_radius) evolve j i s)
    (fun m s => s.prev_ac_mask = prev_neuron.synac_mask >>> m ∧
      (∀ b, m ≤ b → b < 64 →
        s.next_neuron.synac_mask.testBit b = prev_neuron.synac_mask.testBit b) ∧
      s.next_neuron.syn_count = popcount64 s.next_neuron.synac_mask)
    (NH_DIAM_2D prev_cortex.nh_radius) (NH_DIAM_2D prev_cortex.nh_radius) s
    ⟨by simpa using hac, fun b _ _ => by rw [hmask], hc⟩
    (by
      intro j i s' hj hi ⟨h1, h2, h3⟩
      have hd0 : 0 ≤ NH_DIAM_2D prev_cortex.nh_radius := by omega
      have hidx := IDX2D_toNat (NH_DIAM_2D prev_cortex.nh_radius) j i hd0
      have hlt := cell_index_lt _ _ j i hj hi
      have hsq : (NH_DIAM_2D prev_cortex.nh_radius).toNat * (NH_DIAM_2D prev_cortex.nh_radius).toNat
          ≤ 7 * 7 := Nat.mul_le_mul hd hd
      exact tick_slot_syn_count xorshf32 prev_cortex ir prev_neuron x y _ evolve j i _ s' hidx
        (by omega) h1 h2 h3)
  exact this.2.2

/-- The body of the cell loops keeps `syn_count` equal to the number of set bits of
`synac_mask`, for a radius that `c2d_init` accepts. -/
theorem tick_cell_syn_count (xorshf32 : Nat → Nat) (prev_cortex : cortex2d_t) (ir : Nat)
    (x y : Int) (ev calls : Nat)
    (hr : NH_COUNT_2D (NH_DIAM_2D prev_cortex.nh_radius) ≤ 64)
    (hc : (neuron_at prev_cortex.neurons (IDX2D x y prev_cortex.width)).syn_count =
      popcount64 (neuron_at prev_cortex.neurons (IDX2D x y prev_cortex.width)).synac_mask) :
    (tick_cell xorshf32 prev_cortex ir x y ev calls).next_neuron.syn_count =
      popcount64 (tick_cell xorshf32 prev_cortex ir x y ev calls).next_neuron.synac_mask := by
  unfold tick_cell
  dsimp only
  rw [(cell_finish_synapses _ _ _ _).1, (cell_finish_synapses _ _ _ _).2]
  exact neighbor_loops_syn_count xorshf32 prev_cortex ir _ x y _ _ hr rfl rfl hc

/-! ## The cell loops -/

theorem neuron_at_mem_or_zero (ns : List neuron_t) (idx : Int) :
    neuron_at ns idx ∈ ns ∨ neuron_at ns idx = zero_neuron := by
  unfold neuron_at
  split_ifs with h
  · by_cases hk : idx.toNat < ns.length
    · left
      simp [List.getD, List.getElem?_eq_getElem hk]
    · right
      simp [List.getD, List.getElem?_eq_none (Nat.le_of_not_lt hk)]
  · right; rfl

/-- The cell loops change nothing of the next cortex but `evols_count` and the neuron array. -/
theorem cell_loops_frame (xorshf32 : Nat → Nat) (prev_cortex : cortex2d_t) (t : tick_state) :
    ∃ (ev : Nat) (ns : List neuron_t),
      (cell_loops xorshf32 prev_cortex t).next_cortex =
        { t.next_cortex with evols_count := ev, neurons := ns } := by
  unfold cell_loops
  refine nested_loop_preserves (fun t y x => tick_cell_step xorshf32 prev_cortex y x t)
    (fun t' => ∃ (ev : Nat) (ns : List neuron_t),
      t'.next_cortex = { t.next_cortex with evols_count := ev, neurons := ns })
    prev_cortex.height prev_cortex.width t ⟨t.next_cortex.evols_count, t.next_cortex.neurons, rfl⟩ ?_
  rintro j i s ⟨ev, ns, hs⟩
  refine ⟨(tick_cell_step xorshf32 prev_cortex j i s).next_cortex.evols_count,
    (tick_cell_step xorshf32 prev_cortex j i s).next_cortex.neurons, ?_⟩
  beta_reduce
  unfold tick_cell_step
  dsimp only
  rw [hs]

/-- Every neuron of the array left by the cell loops is a neuron of the array they started
from or the neuron computed by the body of the loops for some cell. -/
theorem cell_loops_mem (xorshf32 : Nat → Nat) (prev_cortex : cortex2d_t) (t : tick_state) :
    ∀ n ∈ (cell_loops xorshf32 prev_cortex t).next_cortex.neurons,
      n ∈ t.next_cortex.neurons ∨
        ∃ (x y : Int) (ir ev calls : Nat),
          n = (tick_cell xorshf32 prev_cortex ir x y ev calls).next_neuron := by
  unfold cell_loops
  refine nested_loop_preserves (fun t y x => tick_cell_step xorshf32 prev_cortex y x t)
    (fun t' => ∀ n ∈ t'.next_cortex.neurons, n ∈ t.next_cortex.neurons ∨
        ∃ (x y : Int) (ir ev calls : Nat),
          n = (tick_cell xorshf32 prev_cortex ir x y ev calls).next_neuron)
    prev_cortex.height prev_cortex.width t (fun n hn => Or.inl hn) ?_
  intro j i s hs n hn
  unfold tick_cell_step neuron_store at hn
  dsimp only at hn
  split_ifs at hn with h0
  · rcases List.mem_or_eq_of_mem_set hn with hmem | heq
    · exact hs n hmem
    · exact Or.inr ⟨i, j, _, _, _, heq⟩
  · exact hs n hn

/-- When the next array has `width * height` cells, the cell loops overwrite every cell: cell
`k` receives the neuron computed by the body of the loops for the coordinates of `k`. -/
theorem cell_loops_cells (xorshf32 : Nat → Nat) (prev_cortex : cortex2d_t) (t : tick_state)
    (hw : 0 ≤ prev_cortex.width)
    (hlen : t.next_cortex.neurons.length = prev_cortex.width.toNat * prev_cortex.height.toNat) :
    (cell_loops xorshf32 prev_cortex t).next_cortex.neurons.length =
        prev_cortex.width.toNat * prev_cortex.height.toNat ∧
      ∀ k : Nat, k < prev_cortex.width.toNat * prev_cortex.height.toNat →
        ∃ (x y : Int) (ir ev calls : Nat),
          0 ≤ x ∧ x < prev_cortex.width ∧ 0 ≤ y ∧ y < prev_cortex.height ∧
          IDX2D x y prev_cortex.width = (k : Int) ∧
          (cell_loops xorshf32 prev_cortex t).next_cortex.neurons[k]? =
            some (tick_cell xorshf32 prev_cortex ir x y ev calls).next_neuron := by
  unfold cell_loops
  refine nested_loop_inv (fun t y x => tick_cell_step xorshf32 prev_cortex y x t)
    (fun m t' =>
      t'.next_cortex.neurons.length = prev_cortex.width.toNat * prev_cortex.height.toNat ∧
      ∀ k : Nat, k < m →
        ∃ (x y : Int) (ir ev calls : Nat),
          0 ≤ x ∧ x < prev_cortex.width ∧ 0 ≤ y ∧ y < prev_cortex.height ∧
          IDX2D x y prev_cortex.width = (k : Int) ∧
          t'.next_cortex.neurons[k]? =
            some (tick_cell xorshf32 prev_cortex ir x y ev calls).next_neuron)
    prev_cortex.height prev_cortex.width t ⟨hlen, fun k hk => absurd hk (Nat.not_lt_zero k)⟩ ?_
  intro j i s hj hi ⟨hl, hcells⟩
  have hidx := IDX2D_toNat prev_cortex.width j i hw
  have hnn := IDX2D_nonneg prev_cortex.width j i hw
  have hlt := cell_index_lt _ _ j i hj hi
  beta_reduce
  unfold tick_cell_step neuron_store
  dsimp only
  rw [if_pos hnn, hidx]
  refine ⟨by rw [List.length_set, hl], ?_⟩
  intro k hk
  by_cases hkm : prev_cortex.width.toNat * j + i = k
  · subst hkm
    refine ⟨i, j, s.next_cortex.inhexc_range, s.next_cortex.evols_count, s.calls,
      by omega, by omega, by omega, by omega, ?_, ?_⟩
    · rw [← hidx, Int.toNat_of_nonneg hnn]
    · rw [List.getElem?_set, if_pos rfl, if_pos (by rw [hl]; exact hlt)]
  · obtain ⟨x', y', ir, ev, calls, h1, h2, h3, h4, h5, h6⟩ := hcells k (by omega)
    refine ⟨x', y', ir, ev, calls, h1, h2, h3, h4, h5, ?_⟩
    rw [List.getElem?_set, if_neg hkm]
    exact h6

/-- The neuron array after `c2d_tick` is the one left by the cell loops. -/
theorem c2d_tick_neurons (xorshf32 : Nat → Nat) (prev_cortex next_cortex : cortex2d_t) :
    (c2d_tick xorshf32 prev_cortex next_cortex).neurons =
      (cell_loops xorshf32 prev_cortex { next_cortex := next_cortex, calls := 0 }).next_cortex.neurons :=
  rfl

/-- For two grids of the same size, every neuron of the next cortex after `c2d_tick` is the
neuron computed by the body of the cell loops for some cell of the grid. -/
theorem c2d_tick_all_cells (xorshf32 : Nat → Nat) (prev_cortex next_cortex : cortex2d_t)
    (hw : 0 ≤ prev_cortex.width) (hh : 0 ≤ prev_cortex.height)
    (hlen : next_cortex.neurons.length = (prev_cortex.width * prev_cortex.height).toNat) :
    ∀ n ∈ (c2d_tick xorshf32 prev_cortex next_cortex).neurons,
      ∃ (x y : Int) (ir ev calls : Nat),
        0 ≤ x ∧ x < prev_cortex.width ∧ 0 ≤ y ∧ y < prev_cortex.height ∧
        n = (tick_cell xorshf32 prev_cortex ir x y ev calls).next_neuron := by
  intro n hn
  rw [c2d_tick_neurons] at hn
  have hL := toNat_mul_of_nonneg prev_cortex.width prev_cortex.height hw hh
  have hcells := cell_loops_cells xorshf32 prev_cortex { next_cortex := next_cortex, calls := 0 } hw
    (by rw [← hL]; exact hlen)
  obtain ⟨k, hk, hget⟩ := List.getElem_of_mem hn
  have hk' : k < prev_cortex.width.toNat * prev_cortex.height.toNat := by
    rw [← hcells.1]; exact hk
  obtain ⟨x, y, ir, ev, calls, h1, h2, h3, h4, _, h6⟩ := hcells.2 k hk'
  refine ⟨x, y, ir, ev, calls, h1, h2, h3, h4, ?_⟩
  rw [List.getElem?_eq_getElem hk] at h6
  rw [← hget]
  exact Option.some.inj h6

/-! ## C5: the meaning of `syn_count` -/

theorem zero_neuron_syn_count : zero_neuron.syn_count = popcount64 zero_neuron.synac_mask := by
  decide

/-- C5. `c2d_tick` preserves the meaning of `syn_count`: when the radius is one that `c2d_init`
accepts, the next grid has the size of the previous one, and every neuron of the previous
cortex has `syn_count` equal to the number of set bits of its `synac_mask`, then so has every
neuron of the next cortex after the tick, for every sequence of random draws. -/
theorem c2d_tick_syn_count_exact (xorshf32 : Nat → Nat) (prev_cortex next_cortex : cortex2d_t)
    (hw : 0 ≤ prev_cortex.width) (hh : 0 ≤ prev_cortex.height)
    (hlen : next_cortex.neurons.length = (prev_cortex.width * prev_cortex.height).toNat)
    (hr : NH_COUNT_2D (NH_DIAM_2D prev_cortex.nh_radius) ≤ 64)
    (hprev : syn_count_exact prev_cortex) :
    syn_count_exact (c2d_tick xorshf32 prev_cortex next_cortex) := by
  intro n hn
  obtain ⟨x, y, ir, ev, calls, _, _, _, _, rfl⟩ :=
    c2d_tick_all_cells xorshf32 prev_cortex next_cortex hw hh hlen n hn
  apply tick_cell_syn_count xorshf32 prev_cortex ir x y ev calls hr
  rcases neuron_at_mem_or_zero prev_cortex.neurons (IDX2D x y prev_cortex.width) with hmem | hz
  · exact hprev _ hmem
  · rw [hz]; exact zero_neuron_syn_count

set_option maxRecDepth 1000000 in
/-- The second tick of the ping-pong pair `grid_a0`, `grid_b0`, in which every neuron gains
three synapses, keeps `syn_count` equal to the number of set bits. -/
theorem c2d_tick_syn_count_exact_witness :
    syn_count_exact (c2d_tick (fun _ => 0) grid_b1 grid_a0) :=
  c2d_tick_syn_count_exact (fun _ => 0) grid_b1 grid_a0 (by decide) (by decide) (by decide)
    (by decide) (by decide)

/-! ## The pulse histories -/

theorem wrap8_of_range (v : Int) (h0 : -128 ≤ v) (h1 : v < 128) : wrap8 v = v := by
  unfold wrap8
  omega

theorem count_bits_zero (k : Nat) : count_bits 0 k = 0 := by
  induction k with
  | zero => rfl
  | succ k ih => simp [count_bits, ih]

theorem count_bits_le_of_bit_zero (m k : Nat) (h0 : m.testBit 0 = false) :
    count_bits m (k + 1) ≤ k := by
  induction k with
  | zero => simp [count_bits, h0]
  | succ k ih =>
    rw [count_bits]
    split <;> omega

theorem testBit_shl64_one (x b : Nat) :
    (shl64 x 0x01).testBit b = (decide (b < 64) && (decide (b ≥ 1) && x.testBit (b - 1))) := by
  unfold shl64
  rw [Nat.testBit_mod_two_pow, Nat.testBit_shiftLeft]

theorem count_bits_shl64 (x k : Nat) (hk : k + 1 ≤ 64) :
    count_bits (shl64 x 0x01) (k + 1) = count_bits x k := by
  induction k with
  | zero =>
    show count_bits (shl64 x 0x01) 0 + (if (shl64 x 0x01).testBit 0 then 1 else 0) = 0
    rw [testBit_shl64_one]
    simp [count_bits]
  | succ k ih =>
    rw [count_bits, ih (by omega), testBit_shl64_one]
    have h1 : decide (k + 1 < 64) = true := by simp; omega
    simp [h1, count_bits]

theorem count_bits_or_one (m k : Nat) (hk : 1 ≤ k) (h0 : m.testBit 0 = false) :
    count_bits (m ||| 0x01) k = count_bits m k + 1 := by
  apply count_bits_set m (m ||| 0x01) k 0 (by omega) h0
  · rw [Nat.testBit_or]; simp
  · intro c _ hc
    rw [Nat.testBit_or]
    have : (1 : Nat).testBit c = false := by
      have h := @Nat.testBit_two_pow 0 c
      simp at h
      simpa [Ne.symm hc] using h
    simp [this]

/-- One step of a pulse history of window `W`, `1 <= W <= 63`: the newest entry is recorded at
bit 0 when `f` holds, the count drops when the bit at position `W` was set, the history is
shifted. The count stays the number of set bits among the bits `0 .. W`, bit 0 being clear. -/
theorem window_update (W m : Nat) (p : Int) (f : Prop) [Decidable f] (hW1 : 1 ≤ W) (hW : W ≤ 63)
    (h0 : m.testBit 0 = false) (hp : p = (count_bits m (W + 1) : Nat)) :
    (shl64 (if f then m ||| 0x01 else m) 0x01).testBit 0 = false ∧
      (if (m >>> W) &&& 0x01 ≠ 0 then wrap8 ((if f then wrap8 (p + 1) else p) - 1)
        else (if f then wrap8 (p + 1) else p)) =
        (count_bits (shl64 (if f then m ||| 0x01 else m) 0x01) (W + 1) : Nat) := by
  refine ⟨by rw [testBit_shl64_one]; simp, ?_⟩
  rw [count_bits_shl64 _ W (by omega)]
  have hle := count_bits_le m W
  have hdef : count_bits m (W + 1) = count_bits m W + (if m.testBit W then 1 else 0) := rfl
  have hor := count_bits_or_one m W hW1 h0
  have hbit := shiftRight_and_one_ne_zero_iff m W
  by_cases hf : f
  · simp only [hf, if_true]
    rw [hor]
    by_cases hb : m.testBit W = true
    · rw [if_pos (hbit.mpr hb)]
      rw [hb] at hdef
      simp only [if_true] at hdef
      rw [wrap8_of_range (p + 1) (by omega) (by omega), wrap8_of_range _ (by omega) (by omega)]
      push_cast
      omega
    · rw [if_neg (fun h => hb (hbit.mp h))]
      have hdef2 : count_bits m (W + 1) = count_bits m W := by rw [hdef]; simp [hb]
      rw [wrap8_of_range (p + 1) (by omega) (by omega)]
      push_cast
      omega
  · simp only [hf, if_false]
    by_cases hb : m.testBit W = true
    · rw [if_pos (hbit.mpr hb)]
      rw [hb] at hdef
      simp only [if_true] at hdef
      rw [wrap8_of_range _ (by omega) (by omega)]
      omega
    · rw [if_neg (fun h => hb (hbit.mp h))]
      have hdef2 : count_bits m (W + 1) = count_bits m W := by rw [hdef]; simp [hb]
      omega

/-! ## The pulse fields through a tick -/

theorem neighbor_influence_step_pulses (prev_cortex : cortex2d_t) (neighbor : neuron_t)
    (ac ex ss : Nat) (n : neuron_t) :
    (neighbor_influence_step prev_cortex neighbor ac ex ss n).tick_pulse_mask = n.tick_pulse_mask ∧
      (neighbor_influence_step prev_cortex neighbor ac ex ss n).tick_pulse = n.tick_pulse ∧
      (neighbor_influence_step prev_cortex neighbor ac ex ss n).evol_pulse_mask = n.evol_pulse_mask ∧
      (neighbor_influence_step prev_cortex neighbor ac ex ss n).evol_pulse = n.evol_pulse := by
  unfold neighbor_influence_step
  dsimp only
  split_ifs <;> exact ⟨rfl, rfl, rfl, rfl⟩

theorem structural_step_pulses (prev_cortex : cortex2d_t) (ir : Nat)
    (prev_neuron neighbor : neuron_t) (ac ss random slot : Nat) (n : neuron_t) :
    (structural_step prev_cortex ir prev_neuron neighbor ac ss random slot n).tick_pulse_mask =
        n.tick_pulse_mask ∧
      (structural_step prev_cortex ir prev_neuron neighbor ac ss random slot n).tick_pulse =
        n.tick_pulse ∧
      (structural_step prev_cortex ir prev_neuron neighbor ac ss random slot n).evol_pulse_mask =
        n.evol_pulse_mask ∧
      (structural_step prev_cortex ir prev_neuron neighbor ac ss random slot n).evol_pulse =
        n.evol_pulse := by
  unfold structural_step
  split_ifs <;> exact ⟨rfl, rfl, rfl, rfl⟩

theorem functional_step_pulses (prev_cortex : cortex2d_t) (prev_neuron neighbor : neuron_t)
    (ac ss random slot : Nat) (n : neuron_t) :
    (functional_step prev_cortex prev_neuron neighbor ac ss random slot n).tick_pulse_mask =
        n.tick_pulse_mask ∧
      (functional_step prev_cortex prev_neuron neighbor ac ss random slot n).tick_pulse =
        n.tick_pulse ∧
      (functional_step prev_cortex prev_neuron neighbor ac ss random slot n).evol_pulse_mask =
        n.evol_pulse_mask ∧
      (functional_step prev_cortex prev_neuron neighbor ac ss random slot n).evol_pulse =
        n.evol_pulse := by
  unfold functional_step store_strength
  split_ifs <;> exact ⟨rfl, rfl, rfl, rfl⟩

theorem tick_slot_pulses (xorshf32 : Nat → Nat) (prev_cortex : cortex2d_t) (ir : Nat)
    (prev_neuron : neuron_t) (x y d : Int) (evolve : Bool) (j i : Int) (s : slot_state) :
    (tick_slot xorshf32 prev_cortex ir prev_neuron x y d evolve j i s).next_neuron.tick_pulse_mask =
        s.next_neuron.tick_pulse_mask ∧
      (tick_slot xorshf32 prev_cortex ir prev_neuron x y d evolve j i s).next_neuron.tick_pulse =
        s.next_neuron.tick_pulse ∧
      (tick_slot xorshf32 prev_cortex ir prev_neuron x y d evolve j i s).next_neuron.evol_pulse_mask =
        s.next_neuron.evol_pulse_mask ∧
      (tick_slot xorshf32 prev_cortex ir prev_neuron x y d evolve j i s).next_neuron.evol_pulse =
        s.next_neuron.evol_pulse := by
  unfold tick_slot
  dsimp only
  split_ifs with hcond
  · unfold slot_body
    dsimp only
    cases evolve with
    | false =>
      simp only [Bool.false_eq_true, if_false]
      exact neighbor_influence_step_pulses _ _ _ _ _ _
    | true =>
      simp only [if_true]
      have h1 := neighbor_influence_step_pulses prev_cortex
        (neuron_at prev_cortex.neurons (IDX2D (WRAP (x + (i - prev_cortex.nh_radius)) prev_cortex.width)
          (WRAP (y + (j - prev_cortex.nh_radius)) prev_cortex.height) prev_cortex.width))
        s.prev_ac_mask s.prev_exc_mask
        (syn_strength_of s.prev_str_mask_a s.prev_str_mask_b s.prev_str_mask_c) s.next_neuron
      have h2 := structural_step_pulses prev_cortex ir prev_neuron
        (neuron_at prev_cortex.neurons (IDX2D (WRAP (x + (i - prev_cortex.nh_radius)) prev_cortex.width)
          (WRAP (y + (j - prev_cortex.nh_radius)) prev_cortex.height) prev_cortex.width))
        s.prev_ac_mask (syn_strength_of s.prev_str_mask_a s.prev_str_mask_b s.prev_str_mask_c)
        (xorshf32 s.calls % 2 ^ 32 % 0xFFFF) (IDX2D i j d).toNat
        (neighbor_influence_step prev_cortex
          (neuron_at prev_cortex.neurons (IDX2D (WRAP (x + (i - prev_cortex.nh_radius)) prev_cortex.width)
            (WRAP (y + (j - prev_cortex.nh_radius)) prev_cortex.height) prev_cortex.width))
          s.prev_ac_mask s.prev_exc_mask
          (syn_strength_of s.prev_str_mask_a s.prev_str_mask_b s.prev_str_mask_c) s.next_neuron)
      have h3 := functional_step_pulses prev_cortex prev_neuron
        (neuron_at prev_cortex.neurons (IDX2D (WRAP (x + (i - prev_cortex.nh_radius)) prev_cortex.width)
          (WRAP (y + (j - prev_cortex.nh_radius)) prev_cortex.height) prev_cortex.width))
        s.prev_ac_mask (syn_strength_of s.prev_str_mask_a s.prev_str_mask_b s.prev_str_mask_c)
        (xorshf32 s.calls % 2 ^ 32 % 0xFFFF) (IDX2D i j d).toNat
        (structural_step prev_cortex ir prev_neuron
          (neuron_at prev_cortex.neurons (IDX2D (WRAP (x + (i - prev_cortex.nh_radius)) prev_cortex.width)
            (WRAP (y + (j - prev_cortex.nh_radius)) prev_cortex.height) prev_cortex.width))
          s.prev_ac_mask (syn_strength_of s.prev_str_mask_a s.prev_str_mask_b s.prev_str_mask_c)
          (xorshf32 s.calls % 2 ^ 32 % 0xFFFF) (IDX2D i j d).toNat
          (neighbor_influence_step prev_cortex
            (neuron_at prev_cortex.neurons (IDX2D (WRAP (x + (i - prev_cortex.nh_radius)) prev_cortex.width)
              (WRAP (y + (j - prev_cortex.nh_radius)) prev_cortex.height) prev_cortex.width))
            s.prev_ac_mask s.prev_exc_mask
            (syn_strength_of s.prev_str_mask_a s.prev_str_mask_b s.prev_str_mask_c) s.next_neuron))
      exact ⟨h3.1.trans (h2.1.trans h1.1), h3.2.1.trans (h2.2.1.trans h1.2.1),
        h3.2.2.1.trans (h2.2.2.1.trans h1.2.2.1), h3.2.2.2.trans (h2.2.2.2.trans h1.2.2.2)⟩
  · exact ⟨rfl, rfl, rfl, rfl⟩

/-- The neighbor loops leave the two pulse histories and the two pulse counts untouched. -/
theorem neighbor_loops_pulses (xorshf32 : Nat → Nat) (prev_cortex : cortex2d_t) (ir : Nat)
    (prev_neuron : neuron_t) (x y d : Int) (evolve : Bool) (s : slot_state) :
    (neighbor_loops xorshf32 prev_cortex ir prev_neuron x y d evolve s).next_neuron.tick_pulse_mask =
        s.next_neuron.tick_pulse_mask ∧
      (neighbor_loops xorshf32 prev_cortex ir prev_neuron x y d evolve s).next_neuron.tick_pulse =
        s.next_neuron.tick_pulse ∧
      (neighbor_loops xorshf32 prev_cortex ir prev_neuron x y d evolve s).next_neuron.evol_pulse_mask =
        s.next_neuron.evol_pulse_mask ∧
      (neighbor_loops xorshf32 prev_cortex ir prev_neuron x y d evolve s).next_neuron.evol_pulse =
        s.next_neuron.evol_pulse := by
  unfold neighbor_loops
  refine nested_loop_preserves
    (fun s j i => tick_slot xorshf32 prev_cortex ir prev_neuron x y d evolve j i s)
    (fun s' => s'.next_neuron.tick_pulse_mask = s.next_neuron.tick_pulse_mask ∧
      s'.next_neuron.tick_pulse = s.next_neuron.tick_pulse ∧
      s'.next_neuron.evol_pulse_mask = s.next_neuron.evol_pulse_mask ∧
      s'.next_neuron.evol_pulse = s.next_neuron.evol_pulse)
    d d s ⟨rfl, rfl, rfl, rfl⟩ ?_
  intro j i s' ⟨h1, h2, h3, h4⟩
  have h := tick_slot_pulses xorshf32 prev_cortex ir prev_neuron x y d evolve j i s'
  exact ⟨h.1.trans h1, h.2.1.trans h2, h.2.2.1.trans h3, h.2.2.2.trans h4⟩

/-- The tick-pulse history and count that `cell_finish` writes. -/
theorem cell_finish_tick_pulse (prev_cortex : cortex2d_t) (prev_neuron : neuron_t)
    (evolve : Bool) (n : neuron_t) :
    (cell_finish prev_cortex prev_neuron evolve n).tick_pulse_mask =
        shl64 (if prev_neuron.value > prev_cortex.fire_threshold then n.tick_pulse_mask ||| 0x01
          else n.tick_pulse_mask) 0x01 ∧
      (cell_finish prev_cortex prev_neuron evolve n).tick_pulse =
        (if (prev_neuron.tick_pulse_mask >>> prev_cortex.pulse_window.toNat) &&& 0x01 ≠ 0 then
          wrap8 ((if prev_neuron.value > prev_cortex.fire_threshold then wrap8 (n.tick_pulse + 1)
            else n.tick_pulse) - 1)
        else (if prev_neuron.value > prev_cortex.fire_threshold then wrap8 (n.tick_pulse + 1)
          else n.tick_pulse)) := by
  unfold cell_finish
  cases evolve with
  | false =>
    simp only [Bool.false_eq_true, if_false]
    split_ifs <;> exact ⟨rfl, rfl⟩
  | true =>
    simp only [eq_self_iff_true, if_true]
    split_ifs <;> exact ⟨rfl, rfl⟩

/-- The evolution-pulse history and count that `cell_finish` writes on an evolution tick. -/
theorem cell_finish_evol_pulse (prev_cortex : cortex2d_t) (prev_neuron : neuron_t)
    (n : neuron_t) :
    (cell_finish prev_cortex prev_neuron true n).evol_pulse_mask =
        shl64 (if pulse_above_tenth prev_neuron.tick_pulse prev_cortex.pulse_window = true then
          n.evol_pulse_mask ||| 0x01 else n.evol_pulse_mask) 0x01 ∧
      (cell_finish prev_cortex prev_neuron true n).evol_pulse =
        (if (prev_neuron.evol_pulse_mask >>> prev_cortex.pulse_window.toNat) &&& 0x01 ≠ 0 then
          wrap8 ((if pulse_above_tenth prev_neuron.tick_pulse prev_cortex.pulse_window = true then
            wrap8 (n.evol_pulse + 1) else n.evol_pulse) - 1)
        else (if pulse_above_tenth prev_neuron.tick_pulse prev_cortex.pulse_window = true then
          wrap8 (n.evol_pulse + 1) else n.evol_pulse)) := by
  unfold cell_finish
  simp only [eq_self_iff_true, if_true]
  split_ifs <;> exact ⟨rfl, rfl⟩

/-- Outside evolution ticks `cell_finish` leaves the evolution-pulse history and count. -/
theorem cell_finish_evol_pulse_idle (prev_cortex : cortex2d_t) (prev_neuron : neuron_t)
    (n : neuron_t) :
    (cell_finish prev_cortex prev_neuron false n).evol_pulse_mask = n.evol_pulse_mask ∧
      (cell_finish prev_cortex prev_neuron false n).evol_pulse = n.evol_pulse := by
  unfold cell_finish
  simp only [Bool.false_eq_true, if_false]
  split_ifs <;> exact ⟨rfl, rfl⟩

/-- The body of the cell loops keeps the meaning of the two pulse counts, for a pulse window
between 1 and 63. -/
theorem tick_cell_pulse_counts (xorshf32 : Nat → Nat) (prev_cortex : cortex2d_t) (ir : Nat)
    (x y : Int) (ev calls : Nat) (W : Nat) (hW1 : 1 ≤ W) (hW : W ≤ 63)
    (hwin : prev_cortex.pulse_window = (W : Int))
    (hp : pulse_counts_exact W (neuron_at prev_cortex.neurons (IDX2D x y prev_cortex.width))) :
    pulse_counts_exact W (tick_cell xorshf32 prev_cortex ir x y ev calls).next_neuron := by
  unfold tick_cell
  dsimp only
  generalize hpn : neuron_at prev_cortex.neurons (IDX2D x y prev_cortex.width) = pn at hp ⊢
  have hs0 : (cell_start pn ev calls).next_neuron = pn := rfl
  have hl := neighbor_loops_pulses xorshf32 prev_cortex ir pn x y (NH_DIAM_2D prev_cortex.nh_radius)
    (evolve_gate prev_cortex) (cell_start pn ev calls)
  rw [hs0] at hl
  generalize neighbor_loops xorshf32 prev_cortex ir pn x y (NH_DIAM_2D prev_cortex.nh_radius)
    (evolve_gate prev_cortex) (cell_start pn ev calls) = s at hl ⊢
  obtain ⟨h1, h2, h3, h4⟩ := hl
  obtain ⟨p1, p2, p3, p4⟩ := hp
  have hWn : prev_cortex.pulse_window.toNat = W := by rw [hwin]; exact Int.toNat_natCast W
  have ht := cell_finish_tick_pulse prev_cortex pn (evolve_gate prev_cortex) s.next_neuron
  rw [h1, h2, hWn] at ht
  have hu := window_update W pn.tick_pulse_mask pn.tick_pulse
    (pn.value > prev_cortex.fire_threshold) hW1 hW p1 p2
  refine ⟨by rw [ht.1]; exact hu.1, by rw [ht.2, ht.1]; exact hu.2, ?_⟩
  cases hev : evolve_gate prev_cortex with
  | false =>
    have he := cell_finish_evol_pulse_idle prev_cortex pn s.next_neuron
    rw [h3, h4] at he
    exact ⟨by rw [he.1]; exact p3, by rw [he.2, he.1]; exact p4⟩
  | true =>
    have he := cell_finish_evol_pulse prev_cortex pn s.next_neuron
    rw [h3, h4, hWn] at he
    have hv := window_update W pn.evol_pulse_mask pn.evol_pulse
      (pulse_above_tenth pn.tick_pulse prev_cortex.pulse_window = true) hW1 hW p3 p4
    exact ⟨by rw [he.1]; exact hv.1, by rw [he.2, he.1]; exact hv.2⟩

/-! ## C3: the pulse counts of reachable cortices -/

theorem pulse_counts_exact_zero_neuron (W : Nat) : pulse_counts_exact W zero_neuron := by
  unfold pulse_counts_exact zero_neuron
  simp [count_bits_zero]

theorem pulse_counts_exact_init_cell (W m : Nat) (n : neuron_t) :
    pulse_counts_exact W (init_cell m n) := by
  unfold pulse_counts_exact init_cell
  simp [count_bits_zero]

theorem pulse_counts_exact_of_mem_or_zero (W : Nat) (ns : List neuron_t) (idx : Int)
    (h : ∀ n ∈ ns, pulse_counts_exact W n) : pulse_counts_exact W (neuron_at ns idx) := by
  rcases neuron_at_mem_or_zero ns idx with hmem | hz
  · exact h _ hmem
  · rw [hz]; exact pulse_counts_exact_zero_neuron W

theorem init_neurons_mem (width height : Int) (m : Nat) (ns : List neuron_t) :
    ∀ n ∈ init_neurons width height m ns, n ∈ ns ∨ ∃ n0, n = init_cell m n0 := by
  unfold init_neurons
  refine nested_loop_preserves
    (fun ns y x => neuron_store ns (IDX2D x y width) (init_cell m (neuron_at ns (IDX2D x y width))))
    (fun ns' => ∀ n ∈ ns', n ∈ ns ∨ ∃ n0, n = init_cell m n0)
    height width ns (fun n hn => Or.inl hn) ?_
  intro j i s hs n hn
  beta_reduce at hn
  unfold neuron_store at hn
  split_ifs at hn
  · rcases List.mem_or_eq_of_mem_set hn with hmem | heq
    · exact hs n hmem
    · exact Or.inr ⟨_, heq⟩
  · exact hs n hn

theorem copy_neurons_mem (src : cortex2d_t) (ns : List neuron_t) :
    ∀ n ∈ copy_neurons src ns, n ∈ ns ∨ ∃ idx, n = neuron_at src.neurons idx := by
  unfold copy_neurons
  refine nested_loop_preserves
    (fun ns y x => neuron_store ns (IDX2D x y src.width) (neuron_at src.neurons (IDX2D x y src.width)))
    (fun ns' => ∀ n ∈ ns', n ∈ ns ∨ ∃ idx, n = neuron_at src.neurons idx)
    src.height src.width ns (fun n hn => Or.inl hn) ?_
  intro j i s hs n hn
  beta_reduce at hn
  unfold neuron_store at hn
  split_ifs at hn
  · rcases List.mem_or_eq_of_mem_set hn with hmem | heq
    · exact hs n hmem
    · exact Or.inr ⟨_, heq⟩
  · exact hs n hn

theorem mem_malloc_neurons (k : Int) (n : neuron_t) (h : n ∈ malloc_neurons k) :
    n = zero_neuron := by
  unfold malloc_neurons at h
  exact List.eq_of_mem_replicate h

/-- `c2d_tick` changes no scalar parameter of the next cortex but the two counters. -/
theorem c2d_tick_frame (xorshf32 : Nat → Nat) (prev_cortex next_cortex : cortex2d_t) :
    ∃ (tc ev : Nat) (ns : List neuron_t),
      c2d_tick xorshf32 prev_cortex next_cortex =
        { next_cortex with ticks_count := tc, evols_count := ev, neurons := ns } := by
  obtain ⟨ev, ns, h⟩ := cell_loops_frame xorshf32 prev_cortex
    { next_cortex := next_cortex, calls := 0 }
  refine ⟨(next_cortex.ticks_count + 1) % 2 ^ 16, ev, ns, ?_⟩
  unfold c2d_tick
  dsimp only
  rw [h]

/-- Every neuron of the next cortex after `c2d_tick` is a neuron the next cortex had before or
the neuron computed by the body of the cell loops for some cell. -/
theorem c2d_tick_mem (xorshf32 : Nat → Nat) (prev_cortex next_cortex : cortex2d_t) :
    ∀ n ∈ (c2d_tick xorshf32 prev_cortex next_cortex).neurons,
      n ∈ next_cortex.neurons ∨
        ∃ (x y : Int) (ir ev calls : Nat),
          n = (tick_cell xorshf32 prev_cortex ir x y ev calls).next_neuron := by
  intro n hn
  rw [c2d_tick_neurons] at hn
  exact cell_loops_mem xorshf32 prev_cortex { next_cortex := next_cortex, calls := 0 } n hn

theorem set_pulse_window_accepts (c : cortex2d_t) (W : Nat) (hW : W ≤ 63) :
    c2d_set_pulse_window c (W : Int) = { c with pulse_window := (W : Int) } := by
  unfold c2d_set_pulse_window toU64 MASK_BITS
  rw [if_pos]
  refine ⟨Nat.zero_le _, ?_⟩
  omega

/-- In every cortex reachable with a pulse window `W` between 1 and 63, the pulse window is `W`
and the two pulse counts of every neuron have their meaning. -/
theorem reachable_pulse_counts (D : defaults_t) (width height nh_radius : Int) (W : Nat)
    (hW1 : 1 ≤ W) (hW : W ≤ 63) (c : cortex2d_t)
    (hc : reachable D width height nh_radius (W : Int) c) :
    c.pulse_window = (W : Int) ∧ ∀ n ∈ c.neurons, pulse_counts_exact W n := by
  induction hc with
  | init cortex hok =>
    rw [set_pulse_window_accepts _ W hW]
    refine ⟨rfl, ?_⟩
    intro n hn
    unfold c2d_init at hok hn
    split_ifs at hok hn with hbig
    dsimp only at hn
    rcases init_neurons_mem _ _ _ _ n hn with hmem | ⟨n0, rfl⟩
    · rw [mem_malloc_neurons _ _ hmem]; exact pulse_counts_exact_zero_neuron W
    · exact pulse_counts_exact_init_cell W _ n0
  | copy dst hreach ih =>
    refine ⟨ih.1, ?_⟩
    intro n hn
    have hn' : n ∈ copy_neurons _ (malloc_neurons _) := hn
    rcases copy_neurons_mem _ _ n hn' with hmem | ⟨idx, rfl⟩
    · rw [mem_malloc_neurons _ _ hmem]; exact pulse_counts_exact_zero_neuron W
    · exact pulse_counts_exact_of_mem_or_zero W _ idx ih.2
  | stimulus stim hreach ih =>
    refine ⟨ih.1, ?_⟩
    intro n hn
    unfold stimulate stimulate_neurons at hn
    dsimp only at hn
    obtain ⟨k, _, rfl⟩ := List.mem_map.mp hn
    exact pulse_counts_exact_of_mem_or_zero W _ (k : Int) ih.2
  | tick xorshf32 hprev hnext ihp ihn =>
    obtain ⟨tc, ev, ns, hframe⟩ := c2d_tick_frame xorshf32 _ _
    refine ⟨by rw [hframe]; exact ihn.1, ?_⟩
    intro n hn
    rcases c2d_tick_mem xorshf32 _ _ n hn with hmem | ⟨x, y, ir, ev', calls, rfl⟩
    · exact ihn.2 n hmem
    · exact tick_cell_pulse_counts xorshf32 _ ir x y ev' calls W hW1 hW ihp.1
        (pulse_counts_exact_of_mem_or_zero W _ _ ihp.2)

set_option maxRecDepth 1000000 in
/-- C1 on a concrete input. The cortex `grid_b1` (a 2 x 2 grid of radius 1 from `c2d_init`,
evolving at every tick, after one tick in which all four neurons fired) satisfies the data-model
invariants, each neuron having `syn_count = 0 <= max_syn_count = 2`. After
`c2d_tick(grid_b1, grid_a0)` with every draw equal to 0 the neuron of cell 0 has
`syn_count = 3 > max_syn_count = 2`: the three generations of the tick were each allowed by the
count of the previous neuron. -/
theorem syn_count_cap_overrun :
    data_invariants grid_b1 ∧ syn_count_capped grid_b1 ∧
      (neuron_at grid_b1.neurons 0).syn_count = 0 ∧
      (neuron_at (c2d_tick (fun _ => 0) grid_b1 grid_a0).neurons 0).syn_count = 3 ∧
      (neuron_at (c2d_tick (fun _ => 0) grid_b1 grid_a0).neurons 0).max_syn_count = 2 ∧
      ¬ syn_count_capped (c2d_tick (fun _ => 0) grid_b1 grid_a0) := by
  decide

set_option maxRecDepth 1000000 in
/-- C2 on a concrete input. The cortex `strength_prev 3` satisfies the data-model invariants, its
middle neuron having `tot_syn_strength = 2 <= max_tot_strength = 3`. After one tick with every
draw equal to 0 that neuron has `tot_syn_strength = 4 > 3`: both synapses were strengthened, each
allowed by the total of the previous neuron. -/
theorem tot_strength_cap_overrun :
    data_invariants (strength_prev 3) ∧ tot_strength_capped (strength_prev 3) ∧
      (neuron_at (c2d_tick (fun _ => 0) (strength_prev 3)
        (c2d_copy blank_cortex (strength_prev 3)).2).neurons 1).tot_syn_strength = 4 ∧
      (c2d_tick (fun _ => 0) (strength_prev 3)
        (c2d_copy blank_cortex (strength_prev 3)).2).max_tot_strength = 3 ∧
      ¬ tot_strength_capped (c2d_tick (fun _ => 0) (strength_prev 3)
        (c2d_copy blank_cortex (strength_prev 3)).2) := by
  decide

set_option maxRecDepth 1000000 in
/-- C4 on a concrete input. In the cortex `strength_prev 32` every `tot_syn_strength` is the sum
of the strengths of the active synapses. After one tick with every draw equal to 0 the middle
neuron has `tot_syn_strength = 4` while its masks encode the strengths 1 (slot 3) and 2
(slot 5), of sum 3: the masks written for slot 5 were rebuilt from the previous masks and lost
the strengthening of slot 3. -/
theorem tot_strength_meaning_lost :
    data_invariants (strength_prev 32) ∧ tot_strength_exact (strength_prev 32) ∧
      (neuron_at (c2d_tick (fun _ => 0) (strength_prev 32)
        (c2d_copy blank_cortex (strength_prev 32)).2).neurons 1).tot_syn_strength = 4 ∧
      strength_at (neuron_at (c2d_tick (fun _ => 0) (strength_prev 32)
        (c2d_copy blank_cortex (strength_prev 32)).2).neurons 1) 3 = 1 ∧
      strength_at (neuron_at (c2d_tick (fun _ => 0) (strength_prev 32)
        (c2d_copy blank_cortex (strength_prev 32)).2).neurons 1) 5 = 2 ∧
      active_strength (neuron_at (c2d_tick (fun _ => 0) (strength_prev 32)
        (c2d_copy blank_cortex (strength_prev 32)).2).neurons 1) = 3 ∧
      ¬ tot_strength_exact (c2d_tick (fun _ => 0) (strength_prev 32)
        (c2d_copy blank_cortex (strength_prev 32)).2) := by
  decide

set_option maxRecDepth 1000000 in
/-- C6 on a concrete input. In the cortex `recovery_prev` the recovery value is -10 and the
neuron has the value 200, above the threshold 136. After one tick the value of the neuron is
`DEFAULT_RECOVERY_VALUE = -42`, not the recovery value of the cortex. -/
theorem fired_value_is_default :
    recovery_prev.recovery_value = -10 ∧
      (neuron_at recovery_prev.neurons 0).value = 200 ∧
      (neuron_at recovery_prev.neurons 0).value > recovery_prev.fire_threshold ∧
      (neuron_at (c2d_tick (fun _ => 0) recovery_prev
        (c2d_copy blank_cortex recovery_prev).2).neurons 0).value = -42 ∧
      (neuron_at (c2d_tick (fun _ => 0) recovery_prev
        (c2d_copy blank_cortex recovery_prev).2).neurons 0).value ≠ recovery_prev.recovery_value := by
  decide

set_option maxRecDepth 1000000 in
/-- C7 on a concrete input. In the cortex `spike_prev` the neuron has the value 200, above the
threshold 136. After one tick its `tick_pulse_mask` is 2: the spike is recorded at bit 1, bit 0
is clear, because the history is shifted after the spike has been stored at bit 0. -/
theorem spike_recorded_at_bit_one :
    (neuron_at spike_prev.neurons 0).value > spike_prev.fire_threshold ∧
      (neuron_at (c2d_tick (fun _ => 0) spike_prev
        (c2d_copy blank_cortex spike_prev).2).neurons 0).tick_pulse_mask = 2 ∧
      (neuron_at (c2d_tick (fun _ => 0) spike_prev
        (c2d_copy blank_cortex spike_prev).2).neurons 0).tick_pulse_mask.testBit 0 = false ∧
      (neuron_at (c2d_tick (fun _ => 0) spike_prev
        (c2d_copy blank_cortex spike_prev).2).neurons 0).tick_pulse_mask.testBit 1 = true := by
  decide

set_option maxRecDepth 1000000 in
/-- C8 on a concrete input. In the cortex `decay_prev` the decay value is 2 and the neuron has no
active synapse and the value 5, not above the threshold 136. After one tick its value is 4: it
moved toward zero by `DEFAULT_DECAY_RATE = 1`, not by the decay value of the cortex. -/
theorem decay_step_is_default :
    decay_prev.decay_value = 2 ∧
      (neuron_at decay_prev.neurons 0).synac_mask = 0 ∧
      (neuron_at decay_prev.neurons 0).value = 5 ∧
      ¬ (neuron_at decay_prev.neurons 0).value > decay_prev.fire_threshold ∧
      (neuron_at (c2d_tick (fun _ => 0) decay_prev
        (c2d_copy blank_cortex decay_prev).2).neurons 0).value = 4 ∧
      (neuron_at (c2d_tick (fun _ => 0) decay_prev
        (c2d_copy blank_cortex decay_prev).2).neurons 0).value ≠
          (neuron_at decay_prev.neurons 0).value - decay_prev.decay_value := by
  decide

/-! ## What a tick does to one cell -/

/-- For two grids of the same size, the cell `idx` of the next cortex after `c2d_tick` holds the
neuron computed by the body of the cell loops at the coordinates of `idx`. -/
theorem c2d_tick_cell_at (xorshf32 : Nat → Nat) (prev_cortex next_cortex : cortex2d_t)
    (hw : 0 ≤ prev_cortex.width) (hh : 0 ≤ prev_cortex.height)
    (hlen : next_cortex.neurons.length = (prev_cortex.width * prev_cortex.height).toNat)
    (idx : Int) (h0 : 0 ≤ idx) (h1 : idx < prev_cortex.width * prev_cortex.height) :
    ∃ (x y : Int) (ir ev calls : Nat),
      IDX2D x y prev_cortex.width = idx ∧
      neuron_at (c2d_tick xorshf32 prev_cortex next_cortex).neurons idx =
        (tick_cell xorshf32 prev_cortex ir x y ev calls).next_neuron := by
  have hL := toNat_mul_of_nonneg prev_cortex.width prev_cortex.height hw hh
  have hcells := cell_loops_cells xorshf32 prev_cortex { next_cortex := next_cortex, calls := 0 } hw
    (by rw [← hL]; exact hlen)
  have hk : idx.toNat < prev_cortex.width.toNat * prev_cortex.height.toNat := by
    rw [← hL]; omega
  obtain ⟨x, y, ir, ev, calls, _, _, _, _, h5, h6⟩ := hcells.2 idx.toNat hk
  refine ⟨x, y, ir, ev, calls, ?_, ?_⟩
  · rw [h5, Int.toNat_of_nonneg h0]
  · rw [c2d_tick_neurons]
    have := neuron_at_of_getElem? _ _ _ h6
    rw [Int.toNat_of_nonneg h0] at this
    exact this

/-- The value that `cell_finish` writes for a neuron that fired. -/
theorem cell_finish_value_fired (prev_cortex : cortex2d_t) (prev_neuron : neuron_t)
    (evolve : Bool) (n : neuron_t) (hf : prev_neuron.value > prev_cortex.fire_threshold) :
    (cell_finish prev_cortex prev_neuron evolve n).value = DEFAULT_RECOVERY_VALUE := by
  unfold cell_finish
  cases evolve with
  | false =>
    simp only [Bool.false_eq_true, if_false, if_pos hf]
    split_ifs <;> rfl
  | true =>
    simp only [eq_self_iff_true, if_true, if_pos hf]
    split_ifs <;> rfl

/-- Firing reset, as the code performs it: a neuron whose previous value is above the threshold
of the cortex has the value `DEFAULT_RECOVERY_VALUE` after the tick, whatever the recovery value
of the cortex and whatever its neighbors contributed. -/
theorem c2d_tick_fired_value (xorshf32 : Nat → Nat) (prev_cortex next_cortex : cortex2d_t)
    (hw : 0 ≤ prev_cortex.width) (hh : 0 ≤ prev_cortex.height)
    (hlen : next_cortex.neurons.length = (prev_cortex.width * prev_cortex.height).toNat)
    (idx : Int) (h0 : 0 ≤ idx) (h1 : idx < prev_cortex.width * prev_cortex.height)
    (hf : (neuron_at prev_cortex.neurons idx).value > prev_cortex.fire_threshold) :
    (neuron_at (c2d_tick xorshf32 prev_cortex next_cortex).neurons idx).value =
      DEFAULT_RECOVERY_VALUE := by
  obtain ⟨x, y, ir, ev, calls, hidx, hcell⟩ :=
    c2d_tick_cell_at xorshf32 prev_cortex next_cortex hw hh hlen idx h0 h1
  rw [hcell]
  unfold tick_cell
  dsimp only
  rw [hidx]
  exact cell_finish_value_fired _ _ _ _ hf

/-- Spike recording, as the code performs it: after the tick, bit 0 of the tick-pulse history of
every cell is clear, and the spike of a neuron whose previous value is above the threshold is
recorded at bit 1. -/
theorem c2d_tick_spike_bit (xorshf32 : Nat → Nat) (prev_cortex next_cortex : cortex2d_t)
    (hw : 0 ≤ prev_cortex.width) (hh : 0 ≤ prev_cortex.height)
    (hlen : next_cortex.neurons.length = (prev_cortex.width * prev_cortex.height).toNat)
    (idx : Int) (h0 : 0 ≤ idx) (h1 : idx < prev_cortex.width * prev_cortex.height) :
    (neuron_at (c2d_tick xorshf32 prev_cortex next_cortex).neurons idx).tick_pulse_mask.testBit 0 =
        false ∧
      ((neuron_at prev_cortex.neurons idx).value > prev_cortex.fire_threshold →
        (neuron_at (c2d_tick xorshf32 prev_cortex next_cortex).neurons idx).tick_pulse_mask.testBit 1 =
          true) := by
  obtain ⟨x, y, ir, ev, calls, hidx, hcell⟩ :=
    c2d_tick_cell_at xorshf32 prev_cortex next_cortex hw hh hlen idx h0 h1
  rw [hcell]
  unfold tick_cell
  dsimp only
  rw [hidx]
  rw [(cell_finish_tick_pulse _ _ _ _).1]
  refine ⟨by rw [testBit_shl64_one]; simp, ?_⟩
  intro hf
  rw [if_pos hf, testBit_shl64_one, Nat.testBit_or]
  simp

theorem structural_step_value (prev_cortex : cortex2d_t) (ir : Nat)
    (prev_neuron neighbor : neuron_t) (ac ss random slot : Nat) (n : neuron_t) :
    (structural_step prev_cortex ir prev_neuron neighbor ac ss random slot n).value = n.value := by
  unfold structural_step
  split_ifs <;> rfl

theorem functional_step_value (prev_cortex : cortex2d_t) (prev_neuron neighbor : neuron_t)
    (ac ss random slot : Nat) (n : neuron_t) :
    (functional_step prev_cortex prev_neuron neighbor ac ss random slot n).value = n.value := by
  unfold functional_step store_strength
  split_ifs <;> rfl

theorem neighbor_influence_step_idle (prev_cortex : cortex2d_t) (neighbor : neuron_t)
    (ex ss : Nat) (n : neuron_t) :
    neighbor_influence_step prev_cortex neighbor 0 ex ss n = n := by
  unfold neighbor_influence_step
  simp

theorem tick_slot_value_idle (xorshf32 : Nat → Nat) (prev_cortex : cortex2d_t) (ir : Nat)
    (prev_neuron : neuron_t) (x y d : Int) (evolve : Bool) (j i : Int) (s : slot_state)
    (hac : s.prev_ac_mask = 0) :
    (tick_slot xorshf32 prev_cortex ir prev_neuron x y d evolve j i s).prev_ac_mask = 0 ∧
      (tick_slot xorshf32 prev_cortex ir prev_neuron x y d evolve j i s).next_neuron.value =
        s.next_neuron.value := by
  unfold tick_slot
  dsimp only
  split_ifs with hcond
  · unfold slot_body
    dsimp only
    rw [hac, neighbor_influence_step_idle]
    cases evolve with
    | false =>
      simp only [Bool.false_eq_true, if_false]
      exact ⟨Nat.zero_shiftRight 1, trivial⟩
    | true =>
      simp only [if_true]
      refine ⟨Nat.zero_shiftRight 1, ?_⟩
      rw [functional_step_value, structural_step_value]
  · exact ⟨by rw [hac]; exact Nat.zero_shiftRight 1, rfl⟩

/-- The neighbor loops leave the value of a neuron that has no active synapse. -/
theorem neighbor_loops_value_idle (xorshf32 : Nat → Nat) (prev_cortex : cortex2d_t) (ir : Nat)
    (prev_neuron : neuron_t) (x y d : Int) (evolve : Bool) (s : slot_state)
    (hac : s.prev_ac_mask = 0) :
    (neighbor_loops xorshf32 prev_cortex ir prev_neuron x y d evolve s).next_neuron.value =
      s.next_neuron.value := by
  unfold neighbor_loops
  have := nested_loop_preserves
    (fun s j i => tick_slot xorshf32 prev_cortex ir prev_neuron x y d evolve j i s)
    (fun s' => s'.prev_ac_mask = 0 ∧ s'.next_neuron.value = s.next_neuron.value)
    d d s ⟨hac, rfl⟩
    (by
      intro j i s' ⟨h1, h2⟩
      have h := tick_slot_value_idle xorshf32 prev_cortex ir prev_neuron x y d evolve j i s' h1
      exact ⟨h.1, h.2.trans h2⟩)
  exact this.2

/-- The value that `cell_finish` writes for a neuron that did not fire. -/
theorem cell_finish_value_quiet (prev_cortex : cortex2d_t) (prev_neuron : neuron_t)
    (evolve : Bool) (n : neuron_t) (hq : ¬ prev_neuron.value > prev_cortex.fire_threshold) :
    (cell_finish prev_cortex prev_neuron evolve n).value =
      (if prev_neuron.value > 0x00 then wrap16 (n.value - DEFAULT_DECAY_RATE)
        else if prev_neuron.value < 0x00 then wrap16 (n.value + DEFAULT_DECAY_RATE)
        else n.value) := by
  unfold cell_finish
  cases evolve with
  | false =>
    simp only [Bool.false_eq_true, if_false, if_neg hq]
    split_ifs <;> rfl
  | true =>
    simp only [eq_self_iff_true, if_true, if_neg hq]
    split_ifs <;> rfl

/-- Decay, as the code performs it: a neuron with no active synapse whose previous value `v` is
not above the threshold moves toward zero by `DEFAULT_DECAY_RATE = 1` in one tick, whatever the
decay value of the cortex: `v - 1` when `v > 0`, `v + 1` when `v < 0`, never past zero. -/
theorem c2d_tick_decay_step (xorshf32 : Nat → Nat) (prev_cortex next_cortex : cortex2d_t)
    (hw : 0 ≤ prev_cortex.width) (hh : 0 ≤ prev_cortex.height)
    (hlen : next_cortex.neurons.length = (prev_cortex.width * prev_cortex.height).toNat)
    (idx : Int) (h0 : 0 ≤ idx) (h1 : idx < prev_cortex.width * prev_cortex.height)
    (hlo : -32768 ≤ (neuron_at prev_cortex.neurons idx).value)
    (hhi : (neuron_at prev_cortex.neurons idx).value < 32768)
    (hsyn : (neuron_at prev_cortex.neurons idx).synac_mask = 0)
    (hq : ¬ (neuron_at prev_cortex.neurons idx).value > prev_cortex.fire_threshold) :
    (0 < (neuron_at prev_cortex.neurons idx).value →
        (neuron_at (c2d_tick xorshf32 prev_cortex next_cortex).neurons idx).value =
          (neuron_at prev_cortex.neurons idx).value - 1) ∧
      ((neuron_at prev_cortex.neurons idx).value < 0 →
        (neuron_at (c2d_tick xorshf32 prev_cortex next_cortex).neurons idx).value =
          (neuron_at prev_cortex.neurons idx).value + 1) := by
  obtain ⟨x, y, ir, ev, calls, hidx, hcell⟩ :=
    c2d_tick_cell_at xorshf32 prev_cortex next_cortex hw hh hlen idx h0 h1
  rw [hcell]
  unfold tick_cell
  dsimp only
  rw [hidx]
  generalize neuron_at prev_cortex.neurons idx = pn at hlo hhi hsyn hq ⊢
  rw [cell_finish_value_quiet _ _ _ _ hq,
    neighbor_loops_value_idle _ _ _ _ _ _ _ _ (cell_start pn ev calls) hsyn]
  have hv : (cell_start pn ev calls).next_neuron.value = pn.value := rfl
  rw [hv]
  unfold wrap16 DEFAULT_DECAY_RATE
  constructor
  · intro hpos
    rw [if_pos hpos]
    omega
  · intro hneg
    rw [if_neg (by omega), if_pos hneg]
    omega

/-! ## C11: the tick counter -/

/-- `c2d_tick` increments the tick counter of the next cortex, modulo `2^16`. -/
theorem c2d_tick_ticks_count (xorshf32 : Nat → Nat) (prev_cortex next_cortex : cortex2d_t) :
    (c2d_tick xorshf32 prev_cortex next_cortex).ticks_count =
      (next_cortex.ticks_count + 1) % 2 ^ 16 := by
  obtain ⟨ev, ns, h⟩ := cell_loops_frame xorshf32 prev_cortex
    { next_cortex := next_cortex, calls := 0 }
  unfold c2d_tick
  dsimp only
  rw [h]

/-- C11. When the next cortex starts with the scalar parameters of the previous one, after
`c2d_tick(prev, next)` the tick counter of next is that of prev plus one in 16 bit unsigned
arithmetic: `prev.ticks_count + 1` below 65535, and 0 after 65535. -/
theorem c2d_tick_counter_postcondition (xorshf32 : Nat → Nat)
    (prev_cortex next_cortex : cortex2d_t) (hsame : same_parameters next_cortex prev_cortex) :
    (c2d_tick xorshf32 prev_cortex next_cortex).ticks_count =
        (prev_cortex.ticks_count + 1) % 2 ^ 16 ∧
      (prev_cortex.ticks_count < 65535 →
        (c2d_tick xorshf32 prev_cortex next_cortex).ticks_count = prev_cortex.ticks_count + 1) := by
  have h := c2d_tick_ticks_count xorshf32 prev_cortex next_cortex
  rw [hsame.2.2.1] at h
  refine ⟨h, fun hlt => ?_⟩
  rw [h]
  exact Nat.mod_eq_of_lt (by omega)

/-! ## C16, C17: the encoder and its window -/

theorem tmod_natCast (a b : Nat) : Int.tmod (a : Int) (b : Int) = ((a % b : Nat) : Int) := by
  rw [Int.tmod_eq_emod (Int.natCast_nonneg a) (Int.natCast_nonneg b)]
  norm_cast

/-- C16, as amended. For every sample window from 1 on and every step, the linear mapping with
input 0 fires exactly when the step is a multiple of the window. -/
theorem pulse_map_linear_input_zero (sample_window sample_step : Nat) (hw : 1 ≤ sample_window) :
    pulse_map sample_window sample_step 0 pulse_mapping_t.PULSE_MAPPING_LINEAR =
      some (decide (sample_step % sample_window = 0)) := by
  unfold pulse_map pulse_map_linear c_mod
  rw [if_pos ⟨Nat.le_refl 0, by omega⟩]
  dsimp only
  have hne : ((sample_window : Int) - ((0 : Nat) : Int)) ≠ 0 := by
    simp only [Nat.cast_zero, sub_zero]
    omega
  rw [if_neg hne]
  simp only [Nat.cast_zero, sub_zero, Option.map_some']
  rw [tmod_natCast]
  congr 1
  by_cases h : sample_step % sample_window = 0
  · simp [h]
  · simp only [h, decide_False]
    rw [beq_eq_false_iff_ne]
    exact_mod_cast h

/-- At the window 10 the linear mapping with input 0 fires at the steps 0, 10, 20. -/
theorem pulse_map_linear_input_zero_witness :
    pulse_map 10 20 0 pulse_mapping_t.PULSE_MAPPING_LINEAR = some (decide (20 % 10 = 0)) :=
  pulse_map_linear_input_zero 10 20 (by decide)

/-- C16, as stated, fails: `pulse_map(10, 1, 0, PULSE_MAPPING_LINEAR)` is `FALSE`
(`1 % (10 - 0) = 1`), and so it is at every step from 1 to 9. -/
theorem pulse_map_linear_input_zero_silent :
    pulse_map 10 1 0 pulse_mapping_t.PULSE_MAPPING_LINEAR = some false ∧
      ∀ step ∈ List.range 10, step ≠ 0 →
        pulse_map 10 step 0 pulse_mapping_t.PULSE_MAPPING_LINEAR = some false := by
  decide

/-- C17. For every sample window, step and pulse mapping, an input that is not below the window
makes `pulse_map` return `FALSE`; the evaluation is defined, no mapping being evaluated. -/
theorem pulse_map_rejects_out_of_window (sample_window sample_step input : Nat)
    (pulse_mapping : pulse_mapping_t) (hout : input ≥ sample_window) :
    pulse_map sample_window sample_step input pulse_mapping = some false := by
  unfold pulse_map
  rw [if_neg (fun h => absurd h.2 (by omega))]

/-- The input 10 on the window 10: the linear mapping, which would divide by `10 - 10`, is not
evaluated. -/
theorem pulse_map_rejects_out_of_window_witness :
    pulse_map 10 3 10 pulse_mapping_t.PULSE_MAPPING_LINEAR = some false :=
  pulse_map_rejects_out_of_window 10 3 10 pulse_mapping_t.PULSE_MAPPING_LINEAR (by decide)

/-! ## C18, C19: the floored-proportional mapping -/

set_option maxRecDepth 100000 in
/-- C18 on the documented table. For the window 10, `pulse_map_fprop` agrees with the table of
its comment at 99 of the 100 positions (steps and inputs 0 to 9). At the input 9 and the step 0
it returns `TRUE` while the table has no mark: `input >= upper` makes it fire at every step. -/
theorem pulse_map_fprop_table :
    (∀ input ∈ List.range 10, ∀ step ∈ List.range 10, (input, step) ≠ (9, 0) →
        pulse_map_fprop 10 step input = some (table_marks fprop_table input step)) ∧
      pulse_map_fprop 10 0 9 = some true ∧
      table_marks fprop_table 9 0 = false ∧
      (∀ step ∈ List.range 10, step ≠ 0 → table_marks fprop_table 9 step = true) ∧
      (∀ step ∈ List.range 10, table_marks fprop_table 0 step = decide (step = 0)) := by
  decide

theorem c_div_of_ne (a b : Int) (hb : b ≠ 0) : c_div a b = some (Int.tdiv a b) := by
  unfold c_div
  rw [if_neg hb]

theorem c_mod_of_ne (a b : Int) (hb : b ≠ 0) : c_mod a b = some (Int.tmod a b) := by
  unfold c_mod
  rw [if_neg hb]

theorem tdiv_pos_of_le (a b : Int) (hb : 0 < b) (hab : b ≤ a) : Int.tdiv a b ≠ 0 := by
  rw [Int.tdiv_eq_ediv (by omega) (by omega)]
  have : 1 ≤ a / b := by
    rw [Int.le_ediv_iff_mul_le hb]
    omega
  omega

/-- C19. For every even sample window `w` of at least 2 (a 16 bit value), every step and every
input `x` with `w / 2 <= x < w - 1`, the evaluations of `pulse_map_fprop` at `x` and at
`w - 1 - x` are both defined (no division or modulo by zero) and return opposite values. -/
theorem pulse_map_fprop_complement (w step x : Nat) (heven : w % 2 = 0) (hw : 2 ≤ w)
    (hw16 : w < 65536) (hlo : w / 2 ≤ x) (hhi : x < w - 1) :
    ∃ b : Bool, pulse_map_fprop w step x = some b ∧
      pulse_map_fprop w step (w - 1 - x) = some (!b) := by
  have hupper : (w + 65535) % 65536 = w - 1 := by omega
  have hd : ((w - 1 : Nat) : Int) - ((x : Nat) : Int) = ((w - 1 - x : Nat) : Int) := by omega
  have hdiv : Int.tdiv ((w - 1 : Nat) : Int) ((w - 1 - x : Nat) : Int) ≠ 0 :=
    tdiv_pos_of_le _ _ (by omega) (by omega)
  have hy0 : ((w - 1 - x : Nat) : Int) ≠ 0 := by omega
  refine ⟨Int.tmod (step : Int) (Int.tdiv ((w - 1 : Nat) : Int) ((w - 1 - x : Nat) : Int)) != 0,
    ?_, ?_⟩
  · unfold pulse_map_fprop
    dsimp only
    rw [hupper, if_neg (by omega), if_pos (Nat.zero_le step), if_neg (by omega), hd,
      c_div_of_ne _ _ hy0]
    simp only [Option.some_bind]
    rw [c_mod_of_ne _ _ hdiv]
    rfl
  · unfold pulse_map_fprop
    dsimp only
    rw [hupper, if_pos (by omega)]
    by_cases hs : step ≤ 0
    · rw [if_pos hs]
      have hs0 : step = 0 := by omega
      subst hs0
      simp
    · rw [if_neg hs, if_pos (by omega), c_div_of_ne _ _ hy0]
      simp only [Option.some_bind]
      rw [c_mod_of_ne _ _ hdiv]
      simp only [Option.map_some', bne, Bool.not_not]

/-- The window 10 at the step 4: the inputs 7 and 2 are evaluated with the period
`9 / 2 = 4`. -/
theorem pulse_map_fprop_complement_witness :
    ∃ b : Bool, pulse_map_fprop 10 4 7 = some b ∧ pulse_map_fprop 10 4 (10 - 1 - 7) = some (!b) :=
  pulse_map_fprop_complement 10 4 7 (by decide) (by decide) (by decide) (by decide) (by decide)

/-! ## C20: `c2d_set_nhradius` -/

/-- C20. For every radius of the 8 bit signed radius type, `c2d_set_nhradius` returns
`ERROR_NH_RADIUS_TOO_BIG` exactly when `radius <= 0` or `(2 * radius + 1)^2 - 1 > 64`, and then
leaves the cortex record unchanged; otherwise it returns `NO_ERROR` and the record is the one it
was given with `nh_radius` set to `radius`, no other field being changed. -/
theorem c2d_set_nhradius_atomic (cortex : cortex2d_t) (radius : Int)
    (hlo : -128 ≤ radius) (hhi : radius ≤ 127) :
    ((c2d_set_nhradius cortex radius).1 = error_code_t.ERROR_NH_RADIUS_TOO_BIG ↔
        (radius ≤ 0 ∨ (2 * radius + 1) ^ 2 - 1 > 64)) ∧
      ((radius ≤ 0 ∨ (2 * radius + 1) ^ 2 - 1 > 64) →
        (c2d_set_nhradius cortex radius).2 = cortex) ∧
      (¬ (radius ≤ 0 ∨ (2 * radius + 1) ^ 2 - 1 > 64) →
        (c2d_set_nhradius cortex radius).1 = error_code_t.NO_ERROR ∧
        (c2d_set_nhradius cortex radius).2 = { cortex with nh_radius := radius }) := by
  have key := neighbor_count_toU64 radius hlo hhi
  unfold c2d_set_nhradius
  by_cases h : radius ≤ 0 ∨ toU64 (NH_COUNT_2D (NH_DIAM_2D radius)) > MASK_BITS
  · have h' : radius ≤ 0 ∨ (2 * radius + 1) ^ 2 - 1 > 64 := h.imp id key.mp
    rw [if_pos h]
    exact ⟨⟨fun _ => h', fun _ => rfl⟩, fun _ => rfl, fun hn => absurd h' hn⟩
  · have h' : ¬ (radius ≤ 0 ∨ (2 * radius + 1) ^ 2 - 1 > 64) :=
      fun hc => h (hc.imp id key.mpr)
    rw [if_neg h]
    exact ⟨⟨fun hc => (by cases hc), fun hc => absurd hc h'⟩, fun hc => absurd hc h',
      fun _ => ⟨rfl, rfl⟩⟩

/-- On the grid `grid_a0` the radius 2 is accepted. -/
theorem c2d_set_nhradius_atomic_witness :
    ((c2d_set_nhradius grid_a0 2).1 = error_code_t.ERROR_NH_RADIUS_TOO_BIG ↔
        ((2 : Int) ≤ 0 ∨ (2 * (2 : Int) + 1) ^ 2 - 1 > 64)) ∧
      (((2 : Int) ≤ 0 ∨ (2 * (2 : Int) + 1) ^ 2 - 1 > 64) →
        (c2d_set_nhradius grid_a0 2).2 = grid_a0) ∧
      (¬ ((2 : Int) ≤ 0 ∨ (2 * (2 : Int) + 1) ^ 2 - 1 > 64) →
        (c2d_set_nhradius grid_a0 2).1 = error_code_t.NO_ERROR ∧
        (c2d_set_nhradius grid_a0 2).2 = { grid_a0 with nh_radius := 2 }) :=
  c2d_set_nhradius_atomic grid_a0 2 (by decide) (by decide)

/-! ## Two loops in lockstep -/

theorem foldl_rel {σ τ α : Type} (f : σ → α → σ) (g : τ → α → τ) (R : σ → τ → Prop)
    (l : List α) (s : σ) (t : τ) (h0 : R s t)
    (hstep : ∀ (a : α) (s : σ) (t : τ), R s t → R (f s a) (g t a)) :
    R (l.foldl f s) (l.foldl g t) := by
  induction l generalizing s t with
  | nil => exact h0
  | cons a l ih => exact ih _ _ (hstep a s t h0)

/-- Two pairs of nested loops over the same ranges keep a relation between their states that
every pair of iterations keeps. -/
theorem nested_loop_rel {σ τ : Type} (f : σ → Int → Int → σ) (g : τ → Int → Int → τ)
    (R : σ → τ → Prop) (h w : Int) (s : σ) (t : τ) (h0 : R s t)
    (hstep : ∀ (j i : Int) (s : σ) (t : τ), R s t → R (f s j i) (g t j i)) :
    R ((loop_range 0 h).foldl (fun s j => (loop_range 0 w).foldl (fun s i => f s j i) s) s)
      ((loop_range 0 h).foldl (fun t j => (loop_range 0 w).foldl (fun t i => g t j i) t) t) :=
  foldl_rel _ _ R _ s t h0
    (fun j s t hR => foldl_rel _ _ R _ s t hR (fun i s t hR' => hstep j i s t hR'))

/-! ## C14: the first argument of `c2d_tick` -/

/-- On two distinct addresses the cell loops on a memory leave every record but the one at
`next_cortex`, where they compute what the cell loops of `c2d_tick` compute. -/
theorem cell_loops_at_distinct (xorshf32 : Nat → Nat) (memory : Nat → cortex2d_t)
    (prev_cortex next_cortex : Nat) (hne : prev_cortex ≠ next_cortex) :
    (∀ a, a ≠ next_cortex →
        (cell_loops_at xorshf32 prev_cortex next_cortex
          { memory := memory, calls := 0 }).memory a = memory a) ∧
      (cell_loops_at xorshf32 prev_cortex next_cortex
          { memory := memory, calls := 0 }).memory next_cortex =
        (cell_loops xorshf32 (memory prev_cortex)
          { next_cortex := memory next_cortex, calls := 0 }).next_cortex := by
  unfold cell_loops_at cell_loops
  have h := nested_loop_rel
    (fun t y x => tick_cell_step_at xorshf32 prev_cortex next_cortex y x t)
    (fun t y x => tick_cell_step xorshf32 (memory prev_cortex) y x t)
    (fun (m : memory_state) (t : tick_state) =>
      (∀ a, a ≠ next_cortex → m.memory a = memory a) ∧
      m.memory next_cortex = t.next_cortex ∧ m.calls = t.calls)
    (memory prev_cortex).height (memory prev_cortex).width
    { memory := memory, calls := 0 } { next_cortex := memory next_cortex, calls := 0 }
    ⟨fun _ _ => rfl, rfl, rfl⟩
    (by
      intro j i m t ⟨h1, h2, h3⟩
      have hprev : m.memory prev_cortex = memory prev_cortex := h1 _ hne
      have ht : ({ next_cortex := m.memory next_cortex, calls := m.calls } : tick_state) = t := by
        cases t
        simp only [tick_state.mk.injEq]
        exact ⟨h2, h3⟩
      unfold tick_cell_step_at
      dsimp only
      rw [hprev, ht]
      refine ⟨?_, ?_, rfl⟩
      · intro a ha
        unfold memory_write
        rw [if_neg ha]
        exact h1 a ha
      · unfold memory_write
        rw [if_pos rfl])
  exact ⟨h.1, h.2.1⟩

/-- C14. `c2d_tick` on two distinct cortices never modifies its first argument: after the call
the record at the first address, with every scalar parameter and every neuron, is the record
that was there before, for every random source; so is every record but the one at the second
address, which holds the next cortex that `c2d_tick` computes. -/
theorem c2d_tick_at_frame (xorshf32 : Nat → Nat) (memory : Nat → cortex2d_t)
    (prev_cortex next_cortex : Nat) (hne : prev_cortex ≠ next_cortex) :
    c2d_tick_at xorshf32 memory prev_cortex next_cortex prev_cortex = memory prev_cortex ∧
      (∀ a, a ≠ next_cortex →
        c2d_tick_at xorshf32 memory prev_cortex next_cortex a = memory a) ∧
      c2d_tick_at xorshf32 memory prev_cortex next_cortex next_cortex =
        c2d_tick xorshf32 (memory prev_cortex) (memory next_cortex) := by
  obtain ⟨h1, h2⟩ := cell_loops_at_distinct xorshf32 memory prev_cortex next_cortex hne
  have hother : ∀ a, a ≠ next_cortex →
      c2d_tick_at xorshf32 memory prev_cortex next_cortex a = memory a := by
    intro a ha
    unfold c2d_tick_at memory_write
    rw [if_neg ha]
    exact h1 a ha
  refine ⟨hother _ hne, hother, ?_⟩
  unfold c2d_tick_at memory_write c2d_tick
  dsimp only
  rw [if_pos rfl, h2]

/-! ## C15: what the neuron array of the next cortex depends on -/

theorem foldl_prod {σ τ α : Type} (f : σ → α → σ) (g : τ → α → τ) (l : List α) (s : σ) (t : τ) :
    l.foldl (fun (p : σ × τ) a => (f p.1 a, g p.2 a)) (s, t) = (l.foldl f s, l.foldl g t) := by
  induction l generalizing s t with
  | nil => rfl
  | cons a l ih => exact ih _ _

/-- Invariant rule for two pairs of nested loops in lockstep, the invariant being indexed by the
number of completed inner iterations. -/
theorem nested_loop_rel_inv {σ τ : Type} (f : σ → Int → Int → σ) (g : τ → Int → Int → τ)
    (P : Nat → σ → τ → Prop) (h w : Int) (s : σ) (t : τ) (h0 : P 0 s t)
    (hstep : ∀ (j i : Nat) (s : σ) (t : τ), j < h.toNat → i < w.toNat →
      P (w.toNat * j + i) s t → P (w.toNat * j + i + 1) (f s j i) (g t j i)) :
    P (w.toNat * h.toNat)
      ((loop_range 0 h).foldl (fun s j => (loop_range 0 w).foldl (fun s i => f s j i) s) s)
      ((loop_range 0 h).foldl (fun t j => (loop_range 0 w).foldl (fun t i => g t j i) t) t) := by
  have hpair := nested_loop_inv
    (fun (p : σ × τ) j i => (f p.1 j i, g p.2 j i))
    (fun m p => P m p.1 p.2) h w (s, t) h0
    (fun j i p hj hi hP => hstep j i p.1 p.2 hj hi hP)
  have hinner : (fun (p : σ × τ) (j : Int) =>
      (loop_range 0 w).foldl (fun p i => (f p.1 j i, g p.2 j i)) p) =
      (fun (p : σ × τ) (j : Int) =>
        ((loop_range 0 w).foldl (fun s i => f s j i) p.1,
          (loop_range 0 w).foldl (fun t i => g t j i) p.2)) := by
    funext p j
    exact foldl_prod (fun s i => f s j i) (fun t i => g t j i) _ p.1 p.2
  rw [hinner, foldl_prod (fun s j => (loop_range 0 w).foldl (fun s i => f s j i) s)
    (fun t j => (loop_range 0 w).foldl (fun t i => g t j i) t)] at hpair
  exact hpair

/-- One iteration of the neighbor loops does not look at `evols_count`: two states that differ
in it only are taken to two states that differ in it only. -/
theorem tick_slot_evols (xorshf32 : Nat → Nat) (prev_cortex : cortex2d_t) (ir : Nat)
    (prev_neuron : neuron_t) (x y d : Int) (evolve : Bool) (j i : Int) (s : slot_state)
    (e : Nat) :
    tick_slot xorshf32 prev_cortex ir prev_neuron x y d evolve j i { s with evols_count := e } =
      { tick_slot xorshf32 prev_cortex ir prev_neuron x y d evolve j i s with
        evols_count :=
          (tick_slot xorshf32 prev_cortex ir prev_neuron x y d evolve j i
            { s with evols_count := e }).evols_count } := by
  unfold tick_slot
  dsimp only
  split_ifs with hcond
  · unfold slot_body
    dsimp only
    cases evolve <;> rfl
  · rfl

theorem neighbor_loops_evols (xorshf32 : Nat → Nat) (prev_cortex : cortex2d_t) (ir : Nat)
    (prev_neuron : neuron_t) (x y d : Int) (evolve : Bool) (s : slot_state) (e : Nat) :
    ∃ e', neighbor_loops xorshf32 prev_cortex ir prev_neuron x y d evolve
        { s with evols_count := e } =
      { neighbor_loops xorshf32 prev_cortex ir prev_neuron x y d evolve s with
        evols_count := e' } := by
  unfold neighbor_loops
  exact nested_loop_rel
    (fun s j i => tick_slot xorshf32 prev_cortex ir prev_neuron x y d evolve j i s)
    (fun s j i => tick_slot xorshf32 prev_cortex ir prev_neuron x y d evolve j i s)
    (fun s1 s2 => ∃ e', s1 = { s2 with evols_count := e' }) d d _ _ ⟨e, rfl⟩
    (by
      rintro j i s1 s2 ⟨e1, rfl⟩
      exact ⟨_, tick_slot_evols xorshf32 prev_cortex ir prev_neuron x y d evolve j i s2 e1⟩)

/-- The neuron computed for a cell and the number of draws it consumes do not depend on the
value of `evols_count` the cell starts from. -/
theorem tick_cell_evols (xorshf32 : Nat → Nat) (prev_cortex : cortex2d_t) (ir : Nat)
    (x y : Int) (ev1 ev2 calls : Nat) :
    (tick_cell xorshf32 prev_cortex ir x y ev1 calls).next_neuron =
        (tick_cell xorshf32 prev_cortex ir x y ev2 calls).next_neuron ∧
      (tick_cell xorshf32 prev_cortex ir x y ev1 calls).calls =
        (tick_cell xorshf32 prev_cortex ir x y ev2 calls).calls := by
  unfold tick_cell
  dsimp only
  have hstart : ∀ pn : neuron_t,
      cell_start pn ev1 calls = { cell_start pn ev2 calls with evols_count := ev1 } :=
    fun _ => rfl
  rw [hstart]
  obtain ⟨e', he⟩ := neighbor_loops_evols xorshf32 prev_cortex ir
    (neuron_at prev_cortex.neurons (IDX2D x y prev_cortex.width)) x y
    (NH_DIAM_2D prev_cortex.nh_radius) (evolve_gate prev_cortex)
    (cell_start (neuron_at prev_cortex.neurons (IDX2D x y prev_cortex.width)) ev2 calls) ev1
  rw [he]
  exact ⟨rfl, rfl⟩

/-- What one iteration of the cell loops writes. -/
theorem tick_cell_step_writes (xorshf32 : Nat → Nat) (prev_cortex : cortex2d_t) (j i : Nat)
    (t : tick_state) (hw : 0 ≤ prev_cortex.width) :
    (tick_cell_step xorshf32 prev_cortex (j : Int) (i : Int) t).next_cortex.neurons =
        t.next_cortex.neurons.set (prev_cortex.width.toNat * j + i)
          (tick_cell xorshf32 prev_cortex t.next_cortex.inhexc_range (i : Int) (j : Int)
            t.next_cortex.evols_count t.calls).next_neuron ∧
      (tick_cell_step xorshf32 prev_cortex (j : Int) (i : Int) t).calls =
        (tick_cell xorshf32 prev_cortex t.next_cortex.inhexc_range (i : Int) (j : Int)
          t.next_cortex.evols_count t.calls).calls ∧
      (tick_cell_step xorshf32 prev_cortex (j : Int) (i : Int) t).next_cortex.inhexc_range =
        t.next_cortex.inhexc_range := by
  have hidx := IDX2D_toNat prev_cortex.width j i hw
  have hnn := IDX2D_nonneg prev_cortex.width j i hw
  unfold tick_cell_step neuron_store
  dsimp only
  rw [if_pos hnn, hidx]
  exact ⟨rfl, rfl, rfl⟩

/-- What the neuron array written by `c2d_tick` depends on: for the same previous cortex and
the same random source, two next cortices whose arrays have `width * height` cells and whose
`inhexc_range` agree receive the same neuron array, whatever their neurons and their other
scalar parameters. -/
theorem c2d_tick_neurons_determined (xorshf32 : Nat → Nat)
    (prev_cortex next1 next2 : cortex2d_t)
    (hw : 0 ≤ prev_cortex.width) (hh : 0 ≤ prev_cortex.height)
    (hlen1 : next1.neurons.length = (prev_cortex.width * prev_cortex.height).toNat)
    (hlen2 : next2.neurons.length = (prev_cortex.width * prev_cortex.height).toNat)
    (hir : next1.inhexc_range = next2.inhexc_range) :
    (c2d_tick xorshf32 prev_cortex next1).neurons =
      (c2d_tick xorshf32 prev_cortex next2).neurons := by
  have hL := toNat_mul_of_nonneg prev_cortex.width prev_cortex.height hw hh
  rw [c2d_tick_neurons, c2d_tick_neurons]
  unfold cell_loops
  have h := nested_loop_rel_inv
    (fun t y x => tick_cell_step xorshf32 prev_cortex y x t)
    (fun t y x => tick_cell_step xorshf32 prev_cortex y x t)
    (fun m (t1 t2 : tick_state) =>
      t1.next_cortex.neurons.length = prev_cortex.width.toNat * prev_cortex.height.toNat ∧
      t2.next_cortex.neurons.length = prev_cortex.width.toNat * prev_cortex.height.toNat ∧
      t1.next_cortex.inhexc_range = t2.next_cortex.inhexc_range ∧
      t1.calls = t2.calls ∧
      ∀ k : Nat, k < m → t1.next_cortex.neurons[k]? = t2.next_cortex.neurons[k]?)
    prev_cortex.height prev_cortex.width
    { next_cortex := next1, calls := 0 } { next_cortex := next2, calls := 0 }
    ⟨by rw [← hL]; exact hlen1, by rw [← hL]; exact hlen2, hir, rfl,
      fun k hk => absurd hk (Nat.not_lt_zero k)⟩
    (by
      intro j i t1 t2 hj hi ⟨hl1, hl2, hr, hc, hcells⟩
      have hlt := cell_index_lt _ _ j i hj hi
      have hev := tick_cell_evols xorshf32 prev_cortex t2.next_cortex.inhexc_range (i : Int) (j : Int)
        t1.next_cortex.evols_count t2.next_cortex.evols_count t2.calls
      obtain ⟨a1, a2, a3⟩ := tick_cell_step_writes xorshf32 prev_cortex j i t1 hw
      obtain ⟨b1, b2, b3⟩ := tick_cell_step_writes xorshf32 prev_cortex j i t2 hw
      rw [hr, hc, hev.1] at a1
      rw [hr, hc, hev.2] at a2
      refine ⟨by rw [a1, List.length_set, hl1], by rw [b1, List.length_set, hl2],
        by rw [a3, b3, hr], by rw [a2, b2], ?_⟩
      intro k hk
      rw [a1, b1, List.getElem?_set, List.getElem?_set]
      by_cases hkm : prev_cortex.width.toNat * j + i = k
      · rw [if_pos hkm, if_pos hkm, if_pos (by rw [hl1]; exact hlt), if_pos (by rw [hl2]; exact hlt)]
      · rw [if_neg hkm, if_neg hkm]
        exact hcells k (by omega))
  beta_reduce at h
  obtain ⟨hl1, hl2, _, _, hcells⟩ := h
  apply List.ext_getElem?
  intro k
  by_cases hk : k < prev_cortex.width.toNat * prev_cortex.height.toNat
  · exact hcells k hk
  · rw [List.getElem?_eq_none (by omega), List.getElem?_eq_none (by omega)]

/-! ## C12, C13: counters and the evolution gate on concrete cortices -/

/-- Under the ping-pong protocol from two grids whose tick counters are 0, after `k` calls the
first grid has counted `k / 2` ticks and the second `(k + 1) / 2` (modulo `2^16`): each call
increments the counter of the grid it writes, which the other grid never sees. -/
theorem ping_pong_ticks_count (draws : Nat → Nat → Nat) (A B : cortex2d_t)
    (hA : A.ticks_count = 0) (hB : B.ticks_count = 0) (k : Nat) :
    (ping_pong draws A B k).1.ticks_count = (k / 2) % 65536 ∧
      (ping_pong draws A B k).2.ticks_count = ((k + 1) / 2) % 65536 := by
  induction k with
  | zero => exact ⟨hA, hB⟩
  | succ k ih =>
    unfold ping_pong
    by_cases hodd : (k + 1) % 2 = 1
    · rw [if_pos hodd]
      dsimp only
      rw [c2d_tick_ticks_count, ih.1, ih.2]
      constructor <;> omega
    · rw [if_neg hodd]
      dsimp only
      rw [c2d_tick_ticks_count, ih.1, ih.2]
      constructor <;> omega

/-- The tick counter of the grid written by call `k` of the ping-pong protocol is
`(k + 1) / 2` modulo `2^16`, for two grids that start at 0. -/
theorem written_grid_ticks_count (draws : Nat → Nat → Nat) (A B : cortex2d_t)
    (hA : A.ticks_count = 0) (hB : B.ticks_count = 0) (k : Nat) :
    (written_grid draws A B k).ticks_count = ((k + 1) / 2) % 65536 := by
  obtain ⟨h1, h2⟩ := ping_pong_ticks_count draws A B hA hB k
  unfold written_grid
  split_ifs with hodd
  · exact h2
  · rw [h1]
    omega

set_option maxRecDepth 1000000 in
/-- C12 on a concrete input. With `fresh_a` from `c2d_init(2, 2, 1)` and `fresh_b` its copy, the
grid written by the first call of the ping-pong protocol has `ticks_count = 1`, and so has the
grid written by the second call (the claim says 2); the grid written by the fourth call
has 2. -/
theorem ping_pong_counts_half :
    fresh_a.ticks_count = 0 ∧ fresh_b.ticks_count = 0 ∧
      (written_grid (fun _ _ => 0) fresh_a fresh_b 1).ticks_count = 1 ∧
      (written_grid (fun _ _ => 0) fresh_a fresh_b 2).ticks_count = 1 ∧
      (written_grid (fun _ _ => 0) fresh_a fresh_b 4).ticks_count = 2 := by
  decide

set_option maxRecDepth 1000000 in
/-- C13 on concrete inputs. The cortex `never_prev`, fresh from `c2d_init` with
`c2d_set_evol_step(.., EVOL_STEP_NEVER)`, has `evol_step = 0xFFFF` and `ticks_count = 0`; its
first tick evolves: `evols_count` of the next cortex goes from 0 to 12. On the cortex
`never_active`, whose neurons have fired, a tick at `ticks_count = 0` generates three synapses
in every neuron (`synac_mask` 0 becomes 416 in cell 0, `syn_count` 0 becomes 3). -/
theorem never_evolve_evolves_at_zero :
    never_prev.evol_step = 0xFFFF ∧ never_prev.ticks_count = 0 ∧
      evolve_gate never_prev = true ∧
      (c2d_copy blank_cortex never_prev).2.evols_count = 0 ∧
      (c2d_tick (fun _ => 0) never_prev (c2d_copy blank_cortex never_prev).2).evols_count = 12 ∧
      never_active.evol_step = 0xFFFF ∧ never_active.ticks_count = 0 ∧
      (neuron_at never_active.neurons 0).synac_mask = 0 ∧
      (neuron_at never_active.neurons 0).syn_count = 0 ∧
      (neuron_at (c2d_tick (fun _ => 0) never_active
        (c2d_copy blank_cortex never_active).2).neurons 0).synac_mask = 416 ∧
      (neuron_at (c2d_tick (fun _ => 0) never_active
        (c2d_copy blank_cortex never_active).2).neurons 0).syn_count = 3 := by
  decide

/-- With `evol_step = 0xFFFF` the evolution gate is open exactly at `ticks_count = 0`, for a
16 bit tick counter. -/
theorem evolve_gate_never (c : cortex2d_t) (hstep : c.evol_step = 0xFFFF)
    (hticks : c.ticks_count < 65536) : evolve_gate c = decide (c.ticks_count = 0) := by
  unfold evolve_gate
  rw [hstep]
  have hm : (0xFFFF + 1) % 2 ^ 32 = 65536 := by norm_num
  rw [hm, Nat.mod_eq_of_lt hticks]

set_option maxRecDepth 1000000 in
/-- C15 on a concrete input. The previous cortex is `grid_b1` and every draw is 100. The next
cortices `grid_a0` and `grid_a0_wide` differ in `inhexc_range` only (100 and 91, set by
`c2d_set_inhexc_range`). The two neuron arrays written by the tick differ: the three synapses
generated in cell 0 are inhibitory in the first (`synex_mask = 0`, as `100 % 100 < 6`) and
excitatory in the second (`synex_mask = 416`, as `100 % 91 = 9 >= 6`). -/
theorem next_inhexc_range_leaks :
    grid_a0_wide = { grid_a0 with inhexc_range := 91 } ∧
      grid_a0.neurons.length = grid_b1.neurons.length ∧
      (neuron_at (c2d_tick (fun _ => 100) grid_b1 grid_a0).neurons 0).synex_mask = 0 ∧
      (neuron_at (c2d_tick (fun _ => 100) grid_b1 grid_a0_wide).neurons 0).synex_mask = 416 ∧
      (c2d_tick (fun _ => 100) grid_b1 grid_a0).neurons ≠
        (c2d_tick (fun _ => 100) grid_b1 grid_a0_wide).neurons := by
  have h : (neuron_at (c2d_tick (fun _ => 100) grid_b1 grid_a0).neurons 0).synex_mask = 0 ∧
      (neuron_at (c2d_tick (fun _ => 100) grid_b1 grid_a0_wide).neurons 0).synex_mask = 416 := by
    decide
  refine ⟨by decide, by decide, h.1, h.2, fun heq => ?_⟩
  have h1 := h.1
  rw [heq, h.2] at h1
  exact absurd h1 (by decide)

/-! ## C11, C14 on the pair `grid_a0`, `grid_b0` -/

/-- The pair `grid_a0`, `grid_b0`: the second starts with the parameters of the first
(`ticks_count = 0`) and has `ticks_count = 1` after the tick. -/
theorem c2d_tick_counter_postcondition_witness :
    (c2d_tick (fun _ => 0) grid_a0 grid_b0).ticks_count = (grid_a0.ticks_count + 1) % 2 ^ 16 ∧
      (grid_a0.ticks_count < 65535 →
        (c2d_tick (fun _ => 0) grid_a0 grid_b0).ticks_count = grid_a0.ticks_count + 1) :=
  c2d_tick_counter_postcondition (fun _ => 0) grid_a0 grid_b0 (by decide)

/-- The memory `grid_memory` with the previous cortex at address 0 and the next one at
address 1. -/
theorem c2d_tick_at_frame_witness :
    c2d_tick_at (fun _ => 0) grid_memory 0 1 0 = grid_memory 0 ∧
      (∀ a, a ≠ 1 → c2d_tick_at (fun _ => 0) grid_memory 0 1 a = grid_memory a) ∧
      c2d_tick_at (fun _ => 0) grid_memory 0 1 1 =
        c2d_tick (fun _ => 0) (grid_memory 0) (grid_memory 1) :=
  c2d_tick_at_frame (fun _ => 0) grid_memory 0 1 (by decide)

set_option maxRecDepth 1000000 in
/-- When the two arguments of `c2d_tick` are the same cortex the record does change: the call
on address 0 twice leaves `ticks_count = 1` where it was 0. -/
theorem c2d_tick_at_aliased :
    (grid_memory 0).ticks_count = 0 ∧
      (c2d_tick_at (fun _ => 0) grid_memory 0 0 0).ticks_count = 1 := by
  decide

/-! ## C21: `c2d_set_pulse_window` -/

/-- C21. For every cortex and every window value of an integer type of at most 64 bits,
`c2d_set_pulse_window` sets `pulse_window` to the window and changes no other field when
`0 <= window < 64`, and leaves the cortex record as it was for every other window. -/
theorem c2d_set_pulse_window_guard (cortex : cortex2d_t) (window : Int)
    (hlo : -2 ^ 63 ≤ window) (hhi : window < 2 ^ 64) :
    ((0 ≤ window ∧ window < 64) →
        c2d_set_pulse_window cortex window = { cortex with pulse_window := window }) ∧
      (¬ (0 ≤ window ∧ window < 64) → c2d_set_pulse_window cortex window = cortex) := by
  have key : (toU32 window ≥ 0x00 ∧ toU64 window < MASK_BITS) ↔ (0 ≤ window ∧ window < 64) := by
    unfold toU64 MASK_BITS
    norm_num at hlo hhi
    constructor
    · rintro ⟨_, h⟩
      omega
    · intro h
      exact ⟨Nat.zero_le _, by omega⟩
  unfold c2d_set_pulse_window
  constructor
  · intro h
    rw [if_pos (key.mpr h)]
  · intro h
    rw [if_neg (fun hc => h (key.mp hc))]

/-- The windows 63 and 64 on the grid `grid_a0`: the first is stored, the second is ignored. -/
theorem c2d_set_pulse_window_guard_witness :
    (((0 : Int) ≤ 64 ∧ (64 : Int) < 64) →
        c2d_set_pulse_window grid_a0 64 = { grid_a0 with pulse_window := 64 }) ∧
      (¬ ((0 : Int) ≤ 64 ∧ (64 : Int) < 64) → c2d_set_pulse_window grid_a0 64 = grid_a0) :=
  c2d_set_pulse_window_guard grid_a0 64 (by norm_num) (by norm_num)

/-! ## C29: ticks that do not evolve -/

/-- The influence step writes the value of the neuron and nothing else. -/
theorem neighbor_influence_step_keeps (prev_cortex : cortex2d_t) (neighbor : neuron_t)
    (ac ex ss : Nat) (n : neuron_t) :
    ∃ v : Int, neighbor_influence_step prev_cortex neighbor ac ex ss n = { n with value := v } := by
  unfold neighbor_influence_step
  dsimp only
  split_ifs <;> first | exact ⟨n.value, rfl⟩ | exact ⟨_, rfl⟩

/-- Without evolution, one iteration of the neighbor loops writes the value of the neuron and
nothing else, and leaves `evols_count`. -/
theorem tick_slot_idle (xorshf32 : Nat → Nat) (prev_cortex : cortex2d_t) (ir : Nat)
    (prev_neuron : neuron_t) (x y d : Int) (j i : Int) (s : slot_state) :
    (∃ v : Int, (tick_slot xorshf32 prev_cortex ir prev_neuron x y d false j i s).next_neuron =
        { s.next_neuron with value := v }) ∧
      (tick_slot xorshf32 prev_cortex ir prev_neuron x y d false j i s).evols_count =
        s.evols_count := by
  unfold tick_slot
  dsimp only
  split_ifs with hcond
  · unfold slot_body
    dsimp only
    simp only [Bool.false_eq_true, if_false]
    exact ⟨neighbor_influence_step_keeps _ _ _ _ _ _, trivial⟩
  · exact ⟨⟨s.next_neuron.value, rfl⟩, rfl⟩

theorem neighbor_loops_idle (xorshf32 : Nat → Nat) (prev_cortex : cortex2d_t) (ir : Nat)
    (prev_neuron : neuron_t) (x y d : Int) (s : slot_state) :
    (∃ v : Int, (neighbor_loops xorshf32 prev_cortex ir prev_neuron x y d false s).next_neuron =
        { s.next_neuron with value := v }) ∧
      (neighbor_loops xorshf32 prev_cortex ir prev_neuron x y d false s).evols_count =
        s.evols_count := by
  unfold neighbor_loops
  refine nested_loop_preserves
    (fun s j i => tick_slot xorshf32 prev_cortex ir prev_neuron x y d false j i s)
    (fun s' => (∃ v : Int, s'.next_neuron = { s.next_neuron with value := v }) ∧
      s'.evols_count = s.evols_count)
    d d s ⟨⟨s.next_neuron.value, rfl⟩, rfl⟩ ?_
  intro j i s' ⟨⟨v, hv⟩, he⟩
  obtain ⟨⟨v', hv'⟩, he'⟩ := tick_slot_idle xorshf32 prev_cortex ir prev_neuron x y d j i s'
  refine ⟨⟨v', ?_⟩, he'.trans he⟩
  rw [hv', hv]

theorem same_plasticity_trans {a b c : neuron_t} (h1 : same_plasticity a b)
    (h2 : same_plasticity b c) : same_plasticity a c := by
  unfold same_plasticity at *
  omega

theorem same_plasticity_of_value (n : neuron_t) (v : Int) :
    same_plasticity { n with value := v } n :=
  ⟨rfl, rfl, rfl, rfl, rfl, rfl, rfl, rfl, rfl, rfl, rfl⟩

/-- Without evolution, `cell_finish` leaves every field that plasticity may change. -/
theorem cell_finish_idle (prev_cortex : cortex2d_t) (prev_neuron : neuron_t) (n : neuron_t) :
    same_plasticity (cell_finish prev_cortex prev_neuron false n) n := by
  unfold cell_finish same_plasticity
  simp only [Bool.false_eq_true, if_false]
  split_ifs <;> exact ⟨rfl, rfl, rfl, rfl, rfl, rfl, rfl, rfl, rfl, rfl, rfl⟩

/-- When the evolution gate is closed, the neuron computed for a cell has the plasticity fields
of the previous neuron and the cell does not increment `evols_count`. -/
theorem tick_cell_idle (xorshf32 : Nat → Nat) (prev_cortex : cortex2d_t) (ir : Nat)
    (x y : Int) (ev calls : Nat) (hgate : evolve_gate prev_cortex = false) :
    same_plasticity (tick_cell xorshf32 prev_cortex ir x y ev calls).next_neuron
        (neuron_at prev_cortex.neurons (IDX2D x y prev_cortex.width)) ∧
      (tick_cell xorshf32 prev_cortex ir x y ev calls).evols_count = ev := by
  unfold tick_cell
  dsimp only
  rw [hgate]
  obtain ⟨⟨v, hv⟩, he⟩ := neighbor_loops_idle xorshf32 prev_cortex ir
    (neuron_at prev_cortex.neurons (IDX2D x y prev_cortex.width)) x y
    (NH_DIAM_2D prev_cortex.nh_radius)
    (cell_start (neuron_at prev_cortex.neurons (IDX2D x y prev_cortex.width)) ev calls)
  refine ⟨?_, he⟩
  have h := cell_finish_idle prev_cortex
    (neuron_at prev_cortex.neurons (IDX2D x y prev_cortex.width))
    (neighbor_loops xorshf32 prev_cortex ir
      (neuron_at prev_cortex.neurons (IDX2D x y prev_cortex.width)) x y
      (NH_DIAM_2D prev_cortex.nh_radius) false
      (cell_start (neuron_at prev_cortex.neurons (IDX2D x y prev_cortex.width)) ev calls)).next_neuron
  refine same_plasticity_trans h ?_
  rw [hv]
  exact same_plasticity_of_value _ v

/-- When the evolution gate is closed, the cell loops leave `evols_count`. -/
theorem cell_loops_idle (xorshf32 : Nat → Nat) (prev_cortex : cortex2d_t) (t : tick_state)
    (hgate : evolve_gate prev_cortex = false) :
    (cell_loops xorshf32 prev_cortex t).next_cortex.evols_count = t.next_cortex.evols_count := by
  unfold cell_loops
  refine nested_loop_preserves
    (fun t y x => tick_cell_step xorshf32 prev_cortex y x t)
    (fun t' => t'.next_cortex.evols_count = t.next_cortex.evols_count)
    prev_cortex.height prev_cortex.width t rfl ?_
  intro j i t' ht'
  unfold tick_cell_step
  dsimp only
  rw [(tick_cell_idle xorshf32 prev_cortex _ i j _ _ hgate).2]
  exact ht'

/-- C29. When `prev.ticks_count mod (evol_step + 1)` is not 0, for every random source, after
`c2d_tick` every neuron of the next cortex has the synapse masks, the synapse totals,
`max_syn_count`, `inhexc_ratio` and the evolution pulse history and count of the same neuron of
the previous cortex, and `evols_count` of the next cortex is the one it had before the call. -/
theorem c2d_tick_no_plasticity (xorshf32 : Nat → Nat) (prev_cortex next_cortex : cortex2d_t)
    (hw : 0 ≤ prev_cortex.width) (hh : 0 ≤ prev_cortex.height)
    (hlen : next_cortex.neurons.length = (prev_cortex.width * prev_cortex.height).toNat)
    (hstep : prev_cortex.evol_step < 65536)
    (hgate : prev_cortex.ticks_count % (prev_cortex.evol_step + 1) ≠ 0) :
    (∀ idx : Int, 0 ≤ idx → idx < prev_cortex.width * prev_cortex.height →
        same_plasticity (neuron_at (c2d_tick xorshf32 prev_cortex next_cortex).neurons idx)
          (neuron_at prev_cortex.neurons idx)) ∧
      (c2d_tick xorshf32 prev_cortex next_cortex).evols_count = next_cortex.evols_count := by
  have hg : evolve_gate prev_cortex = false := by
    unfold evolve_gate
    have hm : (prev_cortex.evol_step + 1) % 2 ^ 32 = prev_cortex.evol_step + 1 :=
      Nat.mod_eq_of_lt (by norm_num; omega)
    rw [hm]
    exact decide_eq_false hgate
  constructor
  · intro idx h0 h1
    obtain ⟨x, y, ir, ev, calls, hidx, hcell⟩ :=
      c2d_tick_cell_at xorshf32 prev_cortex next_cortex hw hh hlen idx h0 h1
    rw [hcell, ← hidx]
    exact (tick_cell_idle xorshf32 prev_cortex ir x y ev calls hg).1
  · have h := cell_loops_idle xorshf32 prev_cortex { next_cortex := next_cortex, calls := 0 } hg
    unfold c2d_tick
    dsimp only
    exact h

/-! ## Loops over a list -/

theorem mem_loop_range (lo hi v : Int) : v ∈ loop_range lo hi ↔ lo ≤ v ∧ v < hi := by
  unfold loop_range
  simp only [List.mem_map, List.mem_range]
  constructor
  · rintro ⟨k, hk, rfl⟩
    omega
  · rintro ⟨h1, h2⟩
    exact ⟨(v - lo).toNat, by omega, by omega⟩

/-- A property kept by every iteration over the elements of the list holds when the loop
ends. -/
theorem foldl_preserves_mem {σ α : Type} (f : σ → α → σ) (P : σ → Prop) (l : List α) (s0 : σ)
    (h0 : P s0) (hstep : ∀ a ∈ l, ∀ s, P s → P (f s a)) : P (l.foldl f s0) := by
  induction l generalizing s0 with
  | nil => exact h0
  | cons a l ih =>
    exact ih (f s0 a) (hstep a (List.mem_cons_self a l) s0 h0)
      (fun b hb s hs => hstep b (List.mem_cons_of_mem a hb) s hs)

/-- A property that the iteration of the element `a` establishes and that every iteration keeps
holds when the loop ends, `I` being an invariant of the loop. -/
theorem foldl_establish {σ α : Type} (f : σ → α → σ) (I Q : σ → Prop) (l : List α) (a : α)
    (ha : a ∈ l) (s0 : σ) (h0 : I s0)
    (hI : ∀ b ∈ l, ∀ s, I s → I (f s b))
    (hset : ∀ s, I s → Q (f s a))
    (hkeep : ∀ b ∈ l, ∀ s, I s → Q s → Q (f s b)) : Q (l.foldl f s0) := by
  induction l generalizing s0 with
  | nil => cases ha
  | cons b l ih =>
    rcases List.mem_cons.mp ha with hab | hal
    · subst hab
      have h := foldl_preserves_mem f (fun s => I s ∧ Q s) l (f s0 a)
        ⟨hI a (List.mem_cons_self a l) s0 h0, hset s0 h0⟩
        (fun c hc s hs => ⟨hI c (List.mem_cons_of_mem a hc) s hs.1,
          hkeep c (List.mem_cons_of_mem a hc) s hs.1 hs.2⟩)
      exact h.2
    · exact ih hal (f s0 b) (hI b (List.mem_cons_self b l) s0 h0)
        (fun c hc s hs => hI c (List.mem_cons_of_mem b hc) s hs)
        (fun c hc s hs hq => hkeep c (List.mem_cons_of_mem b hc) s hs hq)

/-! ## Cells of the neuron array -/

/-- Reading a cell after a store: the stored neuron at the index of the store when it lies
inside the array, the previous content elsewhere. -/
theorem neuron_at_neuron_store (ns : List neuron_t) (i k : Int) (n : neuron_t) :
    neuron_at (neuron_store ns i n) k =
      if i = k ∧ 0 ≤ i ∧ i.toNat < ns.length then n else neuron_at ns k := by
  unfold neuron_at neuron_store
  by_cases hi : 0 ≤ i
  · by_cases hk : 0 ≤ k
    · by_cases hik : i = k
      · subst hik
        by_cases hlt : i.toNat < ns.length
        · simp [hi, hlt, List.getD_eq_getElem?_getD, List.getElem?_set]
        · have hnone : ns[i.toNat]? = none := List.getElem?_eq_none (by omega)
          simp [hi, hlt, hnone, List.getD_eq_getElem?_getD, List.getElem?_set]
      · have hne : i.toNat ≠ k.toNat := by omega
        simp [hi, hk, hik, hne, List.getD_eq_getElem?_getD, List.getElem?_set]
    · have hik : i ≠ k := by omega
      simp [hi, hk, hik]
  · simp [hi]

/-- The index of a cell of the grid is inside the array. -/
theorem IDX2D_in_grid (w h x y : Int) (hx0 : 0 ≤ x) (hx1 : x < w) (hy0 : 0 ≤ y) (hy1 : y < h) :
    0 ≤ IDX2D x y w ∧ IDX2D x y w < w * h := by
  unfold IDX2D
  have h1 : 0 ≤ w * y := mul_nonneg (by omega) hy0
  have h2 : w * (y + 1) ≤ w * h := mul_le_mul_of_nonneg_left (by omega) (by omega)
  have h3 : w * (y + 1) = w * y + w := by ring
  constructor <;> omega

/-- Two cells of the grid with the same index are the same cell. -/
theorem IDX2D_inj (w x y x' y' : Int) (hx0 : 0 ≤ x) (hx1 : x < w) (hx0' : 0 ≤ x')
    (hx1' : x' < w) (h : IDX2D x y w = IDX2D x' y' w) : x = x' ∧ y = y' := by
  unfold IDX2D at h
  have hy : y = y' := by
    by_contra hne
    rcases lt_or_gt_of_ne hne with hlt | hgt
    · have h1 : w * (y + 1) ≤ w * y' := mul_le_mul_of_nonneg_left (by omega) (by omega)
      have h2 : w * (y + 1) = w * y + w := by ring
      omega
    · have h1 : w * (y' + 1) ≤ w * y := mul_le_mul_of_nonneg_left (by omega) (by omega)
      have h2 : w * (y' + 1) = w * y' + w := by ring
      omega
  subst hy
  exact ⟨by omega, rfl⟩

/-! ## C22: `c2d_syn_disable` -/

theorem disable_store_keeps (ns : List neuron_t) (idx k : Int)
    (h : (neuron_at ns k).max_syn_count = 0) :
    (neuron_at (neuron_store ns idx { neuron_at ns idx with max_syn_count := 0x00 })
      k).max_syn_count = 0 := by
  rw [neuron_at_neuron_store]
  split_ifs
  · rfl
  · exact h

theorem disable_store_sets (ns : List neuron_t) (idx : Int) (h0 : 0 ≤ idx)
    (h1 : idx.toNat < ns.length) :
    (neuron_at (neuron_store ns idx { neuron_at ns idx with max_syn_count := 0x00 })
      idx).max_syn_count = 0 := by
  rw [neuron_at_neuron_store, if_pos ⟨rfl, h0, h1⟩]

/-- The loops of `c2d_syn_disable` keep the length of the array and, in every cell, every field
but `max_syn_count`, which they leave or set to 0. -/
theorem syn_disable_neurons_fields (width x0 y0 x1 y1 : Int) (ns : List neuron_t) :
    (syn_disable_neurons width x0 y0 x1 y1 ns).length = ns.length ∧
      ∀ k : Int, neuron_at (syn_disable_neurons width x0 y0 x1 y1 ns) k = neuron_at ns k ∨
        neuron_at (syn_disable_neurons width x0 y0 x1 y1 ns) k =
          { neuron_at ns k with max_syn_count := 0x00 } := by
  unfold syn_disable_neurons
  dsimp only
  refine foldl_preserves_mem _
    (fun s => s.length = ns.length ∧ ∀ k : Int, neuron_at s k = neuron_at ns k ∨
      neuron_at s k = { neuron_at ns k with max_syn_count := 0x00 })
    _ ns ⟨rfl, fun k => Or.inl rfl⟩ ?_
  intro y _ s hs
  refine foldl_preserves_mem _
    (fun s => s.length = ns.length ∧ ∀ k : Int, neuron_at s k = neuron_at ns k ∨
      neuron_at s k = { neuron_at ns k with max_syn_count := 0x00 })
    _ s hs ?_
  intro x _ s' ⟨hlen, hcells⟩
  refine ⟨by rw [length_neuron_store]; exact hlen, fun k => ?_⟩
  rw [neuron_at_neuron_store]
  split_ifs with hc
  · obtain ⟨hk, _, _⟩ := hc
    rw [hk]
    rcases hcells k with h | h
    · right
      rw [h]
    · right
      rw [h]
  · exact hcells k

/-- The loops of `c2d_syn_disable` leave every cell whose index is not the index of a cell of
the rectangle. -/
theorem syn_disable_neurons_outside (width x0 y0 x1 y1 : Int) (ns : List neuron_t) (k : Int)
    (hk : ∀ y x : Int, y0 ≤ y → y < y1 → x0 ≤ x → x < x1 → IDX2D x y width ≠ k) :
    neuron_at (syn_disable_neurons width x0 y0 x1 y1 ns) k = neuron_at ns k := by
  unfold syn_disable_neurons
  dsimp only
  refine foldl_preserves_mem _ (fun s => neuron_at s k = neuron_at ns k) _ ns rfl ?_
  intro y hy s hs
  refine foldl_preserves_mem _ (fun s => neuron_at s k = neuron_at ns k) _ s hs ?_
  intro x hx s' hs'
  rw [mem_loop_range] at hy hx
  rw [neuron_at_neuron_store, if_neg (fun hc => hk y x hy.1 hy.2 hx.1 hx.2 hc.1)]
  exact hs'

/-- The loops of `c2d_syn_disable` set `max_syn_count` to 0 in every cell of the rectangle whose
index lies inside the array. -/
theorem syn_disable_neurons_inside (width x0 y0 x1 y1 : Int) (ns : List neuron_t) (x y : Int)
    (hx0 : x0 ≤ x) (hx1 : x < x1) (hy0 : y0 ≤ y) (hy1 : y < y1)
    (h0 : 0 ≤ IDX2D x y width) (h1 : (IDX2D x y width).toNat < ns.length) :
    (neuron_at (syn_disable_neurons width x0 y0 x1 y1 ns) (IDX2D x y width)).max_syn_count =
      0 := by
  unfold syn_disable_neurons
  dsimp only
  refine foldl_establish _ (fun s => s.length = ns.length)
    (fun s => (neuron_at s (IDX2D x y width)).max_syn_count = 0)
    _ y ((mem_loop_range _ _ _).mpr ⟨hy0, hy1⟩) ns rfl ?_ ?_ ?_
  · intro b _ s hs
    refine foldl_preserves_mem _ (fun s => s.length = ns.length) _ s hs ?_
    intro a _ s' hs'
    rw [length_neuron_store]
    exact hs'
  · intro s hs
    refine foldl_establish _ (fun s => s.length = ns.length)
      (fun s => (neuron_at s (IDX2D x y width)).max_syn_count = 0)
      _ x ((mem_loop_range _ _ _).mpr ⟨hx0, hx1⟩) s hs ?_ ?_ ?_
    · intro a _ s' hs'
      rw [length_neuron_store]
      exact hs'
    · intro s' hs'
      exact disable_store_sets s' _ h0 (by rw [hs']; exact h1)
    · intro a _ s' _ hq
      exact disable_store_keeps s' _ _ hq
  · intro b _ s hs hq
    have h := foldl_preserves_mem
      (fun (ns : List neuron_t) (x' : Int) =>
        neuron_store ns (IDX2D x' b width)
          { neuron_at ns (IDX2D x' b width) with max_syn_count := 0x00 })
      (fun s => (neuron_at s (IDX2D x y width)).max_syn_count = 0)
      (loop_range x0 x1) s hq (fun a _ s' hq' => disable_store_keeps s' _ _ hq')
    exact h

/-- What `c2d_syn_disable` does to a cortex whose array has `width * height` cells, for a
rectangle inside the grid: the dimensions and the length of the array stay, the neurons of the
rectangle get `max_syn_count = 0` and keep their synapses, the neurons of the grid outside the
rectangle stay as they were. -/
theorem c2d_syn_disable_effect (cortex : cortex2d_t) (x0 y0 x1 y1 : Int)
    (hx0 : 0 ≤ x0) (hy0 : 0 ≤ y0) (hx1 : x1 ≤ cortex.width) (hy1 : y1 ≤ cortex.height)
    (hlen : cortex.neurons.length = (cortex.width * cortex.height).toNat) :
    (c2d_syn_disable cortex x0 y0 x1 y1).width = cortex.width ∧
      (c2d_syn_disable cortex x0 y0 x1 y1).height = cortex.height ∧
      (c2d_syn_disable cortex x0 y0 x1 y1).neurons.length = cortex.neurons.length ∧
      region_disabled cortex.width x0 y0 x1 y1 cortex.neurons
        (c2d_syn_disable cortex x0 y0 x1 y1).neurons ∧
      (∀ x y : Int, 0 ≤ x → x < cortex.width → 0 ≤ y → y < cortex.height →
        ¬ (x0 ≤ x ∧ x < x1 ∧ y0 ≤ y ∧ y < y1) →
        neuron_at (c2d_syn_disable cortex x0 y0 x1 y1).neurons (IDX2D x y cortex.width) =
          neuron_at cortex.neurons (IDX2D x y cortex.width)) := by
  unfold c2d_syn_disable
  rw [if_pos ⟨hx0, hy0, hx1, hy1⟩]
  dsimp only
  have hf := syn_disable_neurons_fields cortex.width x0 y0 x1 y1 cortex.neurons
  refine ⟨rfl, rfl, hf.1, ?_, ?_⟩
  · intro x y hxa hxb hya hyb
    have hin := IDX2D_in_grid cortex.width cortex.height x y (by omega) (by omega) (by omega)
      (by omega)
    constructor
    · exact syn_disable_neurons_inside cortex.width x0 y0 x1 y1 cortex.neurons x y hxa hxb hya
        hyb hin.1 (by rw [hlen]; omega)
    · intro slot hslot
      rcases hf.2 (IDX2D x y cortex.width) with h | h
      · rw [h] at hslot
        exact hslot
      · rw [h] at hslot
        exact hslot
  · intro x y hxa hxb hya hyb hout
    refine syn_disable_neurons_outside cortex.width x0 y0 x1 y1 cortex.neurons _ ?_
    intro y' x' h1 h2 h3 h4 heq
    have := IDX2D_inj cortex.width x' y' x y (by omega) (by omega) hxa hxb heq
    exact hout ⟨by omega, by omega, by omega, by omega⟩

/-! ## C22: a disabled neuron through the tick -/

theorem no_new_synapse_refl (n : neuron_t) : no_new_synapse n n := fun _ h => h

theorem no_new_synapse_trans {a b c : neuron_t} (h1 : no_new_synapse a b)
    (h2 : no_new_synapse b c) : no_new_synapse a c := fun slot h => h2 slot (h1 slot h)

/-- With `max_syn_count = 0` structural plasticity generates no synapse: the generation test
`prev_neuron.syn_count < next_neuron->max_syn_count` fails, the step can only delete. -/
theorem structural_step_disabled (prev_cortex : cortex2d_t) (ir : Nat)
    (prev_neuron neighbor : neuron_t) (ac ss random slot : Nat) (n : neuron_t)
    (hmax : n.max_syn_count = 0) :
    (structural_step prev_cortex ir prev_neuron neighbor ac ss random slot n).max_syn_count = 0 ∧
      no_new_synapse (structural_step prev_cortex ir prev_neuron neighbor ac ss random slot n)
        n := by
  unfold structural_step
  split_ifs with h1 h2
  · refine ⟨hmax, fun b hb => ?_⟩
    simp only [Nat.testBit_and, Bool.and_eq_true] at hb
    exact hb.1
  · rw [hmax] at h2
    exact absurd h2.2.2 (Nat.not_lt_zero _)
  · exact ⟨hmax, no_new_synapse_refl n⟩

theorem functional_step_cap (prev_cortex : cortex2d_t) (prev_neuron neighbor : neuron_t)
    (ac ss random slot : Nat) (n : neuron_t) :
    (functional_step prev_cortex prev_neuron neighbor ac ss random slot n).max_syn_count =
      n.max_syn_count := by
  unfold functional_step store_strength
  split_ifs <;> rfl

theorem cell_finish_cap (prev_cortex : cortex2d_t) (prev_neuron : neuron_t) (evolve : Bool)
    (n : neuron_t) :
    (cell_finish prev_cortex prev_neuron evolve n).max_syn_count = n.max_syn_count := by
  unfold cell_finish
  cases evolve with
  | false =>
    simp only [Bool.false_eq_true, if_false]
    split_ifs <;> rfl
  | true =>
    simp only [eq_self_iff_true, if_true]
    split_ifs <;> rfl

/-- One iteration of the neighbor loops on a neuron with `max_syn_count = 0`: the cap stays 0
and no synapse is gained. -/
theorem tick_slot_disabled (xorshf32 : Nat → Nat) (prev_cortex : cortex2d_t) (ir : Nat)
    (prev_neuron : neuron_t) (x y d : Int) (evolve : Bool) (j i : Int) (s : slot_state)
    (hmax : s.next_neuron.max_syn_count = 0) :
    (tick_slot xorshf32 prev_cortex ir prev_neuron x y d evolve j i s).next_neuron.max_syn_count
        = 0 ∧
      no_new_synapse (tick_slot xorshf32 prev_cortex ir prev_neuron x y d evolve j i s).next_neuron
        s.next_neuron := by
  unfold tick_slot
  dsimp only
  split_ifs with hcond
  · unfold slot_body
    dsimp only
    obtain ⟨v, hv⟩ := neighbor_influence_step_keeps prev_cortex
      (neuron_at prev_cortex.neurons (IDX2D (WRAP (x + (i - prev_cortex.nh_radius)) prev_cortex.width)
        (WRAP (y + (j - prev_cortex.nh_radius)) prev_cortex.height) prev_cortex.width))
      s.prev_ac_mask s.prev_exc_mask
      (syn_strength_of s.prev_str_mask_a s.prev_str_mask_b s.prev_str_mask_c) s.next_neuron
    rw [hv]
    cases evolve with
    | false =>
      simp only [Bool.false_eq_true, if_false]
      exact ⟨hmax, fun _ h => h⟩
    | true =>
      simp only [if_true]
      have h2 := structural_step_disabled prev_cortex ir prev_neuron
        (neuron_at prev_cortex.neurons (IDX2D (WRAP (x + (i - prev_cortex.nh_radius)) prev_cortex.width)
          (WRAP (y + (j - prev_cortex.nh_radius)) prev_cortex.height) prev_cortex.width))
        s.prev_ac_mask (syn_strength_of s.prev_str_mask_a s.prev_str_mask_b s.prev_str_mask_c)
        (xorshf32 s.calls % 2 ^ 32 % 0xFFFF) (IDX2D i j d).toNat
        { s.next_neuron with value := v } hmax
      constructor
      · rw [functional_step_cap]
        exact h2.1
      · intro b hb
        rw [(functional_step_synapses _ _ _ _ _ _ _ _).1] at hb
        exact h2.2 b hb
  · exact ⟨hmax, fun _ h => h⟩

theorem neighbor_loops_disabled (xorshf32 : Nat → Nat) (prev_cortex : cortex2d_t) (ir : Nat)
    (prev_neuron : neuron_t) (x y d : Int) (evolve : Bool) (s : slot_state)
    (hmax : s.next_neuron.max_syn_count = 0) :
    (neighbor_loops xorshf32 prev_cortex ir prev_neuron x y d evolve s).next_neuron.max_syn_count
        = 0 ∧
      no_new_synapse (neighbor_loops xorshf32 prev_cortex ir prev_neuron x y d evolve s).next_neuron
        s.next_neuron := by
  unfold neighbor_loops
  refine nested_loop_preserves
    (fun s j i => tick_slot xorshf32 prev_cortex ir prev_neuron x y d evolve j i s)
    (fun s' => s'.next_neuron.max_syn_count = 0 ∧ no_new_synapse s'.next_neuron s.next_neuron)
    d d s ⟨hmax, no_new_synapse_refl _⟩ ?_
  intro j i s' ⟨h1, h2⟩
  have h := tick_slot_disabled xorshf32 prev_cortex ir prev_neuron x y d evolve j i s' h1
  exact ⟨h.1, no_new_synapse_trans h.2 h2⟩

/-- The neuron computed for a cell whose previous neuron has `max_syn_count = 0` has
`max_syn_count = 0` and no synapse that the previous neuron did not have, for every random
source and whether the tick evolves or not. -/
theorem tick_cell_disabled (xorshf32 : Nat → Nat) (prev_cortex : cortex2d_t) (ir : Nat)
    (x y : Int) (ev calls : Nat)
    (hmax : (neuron_at prev_cortex.neurons (IDX2D x y prev_cortex.width)).max_syn_count = 0) :
    (tick_cell xorshf32 prev_cortex ir x y ev calls).next_neuron.max_syn_count = 0 ∧
      no_new_synapse (tick_cell xorshf32 prev_cortex ir x y ev calls).next_neuron
        (neuron_at prev_cortex.neurons (IDX2D x y prev_cortex.width)) := by
  unfold tick_cell
  dsimp only
  have h := neighbor_loops_disabled xorshf32 prev_cortex ir
    (neuron_at prev_cortex.neurons (IDX2D x y prev_cortex.width)) x y
    (NH_DIAM_2D prev_cortex.nh_radius) (evolve_gate prev_cortex)
    (cell_start (neuron_at prev_cortex.neurons (IDX2D x y prev_cortex.width)) ev calls) hmax
  constructor
  · rw [cell_finish_cap]
    exact h.1
  · intro b hb
    rw [(cell_finish_synapses _ _ _ _).1] at hb
    exact h.2 b hb

/-- The tick does not change the length of the neuron array of the next cortex, nor its
dimensions. -/
theorem c2d_tick_shape (xorshf32 : Nat → Nat) (prev_cortex next_cortex : cortex2d_t) :
    (c2d_tick xorshf32 prev_cortex next_cortex).neurons.length = next_cortex.neurons.length ∧
      (c2d_tick xorshf32 prev_cortex next_cortex).width = next_cortex.width ∧
      (c2d_tick xorshf32 prev_cortex next_cortex).height = next_cortex.height := by
  obtain ⟨tc, ev, ns, h⟩ := c2d_tick_frame xorshf32 prev_cortex next_cortex
  refine ⟨?_, by rw [h], by rw [h]⟩
  rw [c2d_tick_neurons]
  unfold cell_loops
  refine nested_loop_preserves
    (fun t y x => tick_cell_step xorshf32 prev_cortex y x t)
    (fun t => t.next_cortex.neurons.length = next_cortex.neurons.length)
    prev_cortex.height prev_cortex.width _ rfl ?_
  intro j i t ht
  unfold tick_cell_step
  dsimp only
  rw [length_neuron_store]
  exact ht

/-- A tick keeps a disabled region disabled: when the neurons of a rectangle of the previous
cortex have `max_syn_count = 0` and no synapse beyond those of a reference array, so have the
neurons that the tick writes. -/
theorem c2d_tick_region_disabled (xorshf32 : Nat → Nat) (prev_cortex next_cortex : cortex2d_t)
    (reference : List neuron_t) (x0 y0 x1 y1 : Int)
    (hx0 : 0 ≤ x0) (hy0 : 0 ≤ y0) (hx1 : x1 ≤ prev_cortex.width) (hy1 : y1 ≤ prev_cortex.height)
    (hlen : next_cortex.neurons.length = (prev_cortex.width * prev_cortex.height).toNat)
    (hprev : region_disabled prev_cortex.width x0 y0 x1 y1 reference prev_cortex.neurons) :
    region_disabled prev_cortex.width x0 y0 x1 y1 reference
      (c2d_tick xorshf32 prev_cortex next_cortex).neurons := by
  intro x y hxa hxb hya hyb
  have hin := IDX2D_in_grid prev_cortex.width prev_cortex.height x y (by omega) (by omega)
    (by omega) (by omega)
  obtain ⟨x', y', ir, ev, calls, hidx, hcell⟩ :=
    c2d_tick_cell_at xorshf32 prev_cortex next_cortex (by omega) (by omega) hlen
      (IDX2D x y prev_cortex.width) hin.1 hin.2
  obtain ⟨hm, hs⟩ := hprev x y hxa hxb hya hyb
  rw [← hidx] at hm
  have h := tick_cell_disabled xorshf32 prev_cortex ir x' y' ev calls hm
  rw [hcell]
  refine ⟨h.1, no_new_synapse_trans h.2 ?_⟩
  rw [hidx]
  exact hs

/-- When the neurons of the rectangle have `max_syn_count = 0` in both grids of the ping-pong
pair, with no active synapse that the reference array lacks, they have after every number of
ping-pong ticks, whichever grid the first tick reads. -/
theorem ping_pong_region_disabled (draws : Nat → Nat → Nat) (P Q : cortex2d_t)
    (reference : List neuron_t) (w h x0 y0 x1 y1 : Int)
    (hx0 : 0 ≤ x0) (hy0 : 0 ≤ y0) (hx1 : x1 ≤ w) (hy1 : y1 ≤ h)
    (hPw : P.width = w) (hPh : P.height = h) (hPl : P.neurons.length = (w * h).toNat)
    (hQw : Q.width = w) (hQh : Q.height = h) (hQl : Q.neurons.length = (w * h).toNat)
    (hP : region_disabled w x0 y0 x1 y1 reference P.neurons)
    (hQ : region_disabled w x0 y0 x1 y1 reference Q.neurons) (k : Nat) :
    region_disabled w x0 y0 x1 y1 reference (ping_pong draws P Q k).1.neurons ∧
      region_disabled w x0 y0 x1 y1 reference (ping_pong draws P Q k).2.neurons := by
  have hinv : (ping_pong draws P Q k).1.width = w ∧ (ping_pong draws P Q k).1.height = h ∧
      (ping_pong draws P Q k).1.neurons.length = (w * h).toNat ∧
      (ping_pong draws P Q k).2.width = w ∧ (ping_pong draws P Q k).2.height = h ∧
      (ping_pong draws P Q k).2.neurons.length = (w * h).toNat ∧
      region_disabled w x0 y0 x1 y1 reference (ping_pong draws P Q k).1.neurons ∧
      region_disabled w x0 y0 x1 y1 reference (ping_pong draws P Q k).2.neurons := by
    induction k with
    | zero => exact ⟨hPw, hPh, hPl, hQw, hQh, hQl, hP, hQ⟩
    | succ k ih =>
      obtain ⟨h1w, h1h, h1l, h2w, h2h, h2l, hr1, hr2⟩ := ih
      unfold ping_pong
      by_cases hodd : (k + 1) % 2 = 1
      · rw [if_pos hodd]
        dsimp only
        have hs := c2d_tick_shape (draws (k + 1)) (ping_pong draws P Q k).1
          (ping_pong draws P Q k).2
        have hr := c2d_tick_region_disabled (draws (k + 1)) (ping_pong draws P Q k).1
          (ping_pong draws P Q k).2 reference x0 y0 x1 y1 hx0 hy0
          (by rw [h1w]; exact hx1) (by rw [h1h]; exact hy1)
          (by rw [h1w, h1h]; exact h2l) (by rw [h1w]; exact hr1)
        rw [h1w] at hr
        exact ⟨h1w, h1h, h1l, hs.2.1.trans h2w, hs.2.2.trans h2h, hs.1.trans h2l, hr1, hr⟩
      · rw [if_neg hodd]
        dsimp only
        have hs := c2d_tick_shape (draws (k + 1)) (ping_pong draws P Q k).2
          (ping_pong draws P Q k).1
        have hr := c2d_tick_region_disabled (draws (k + 1)) (ping_pong draws P Q k).2
          (ping_pong draws P Q k).1 reference x0 y0 x1 y1 hx0 hy0
          (by rw [h2w]; exact hx1) (by rw [h2h]; exact hy1)
          (by rw [h2w, h2h]; exact h1l) (by rw [h2w]; exact hr2)
        rw [h2w] at hr
        exact ⟨hs.2.1.trans h1w, hs.2.2.trans h1h, hs.1.trans h1l, h2w, h2h, h2l, hr, hr2⟩
  exact ⟨hinv.2.2.2.2.2.2.1, hinv.2.2.2.2.2.2.2⟩

/-- C22, as amended. Let the rectangle lie inside the grid of the cortex `A`, whose array and
that of the second grid `B` have `width * height` cells, `B` having the dimensions of `A`. After
`c2d_syn_disable(A, x0, y0, x1, y1)`, for every number `k >= 1` of ping-pong ticks that start by
reading `A` and for every random source, in both grids every neuron of the rectangle has
`max_syn_count = 0` and no set bit in `synac_mask` that it did not have in `A` at the call. The
same holds, for every number of ticks, when the first tick writes `A` from a grid `B` in which
the neurons of the rectangle have `max_syn_count = 0` as well and no active synapse that those
of `A` lack. The call leaves `max_syn_count` of every neuron outside the rectangle as it
was. -/
theorem c2d_syn_disable_region (draws : Nat → Nat → Nat) (A B : cortex2d_t)
    (x0 y0 x1 y1 : Int)
    (hx0 : 0 ≤ x0) (hy0 : 0 ≤ y0) (hx1 : x1 ≤ A.width) (hy1 : y1 ≤ A.height)
    (hlenA : A.neurons.length = (A.width * A.height).toNat)
    (hlenB : B.neurons.length = (A.width * A.height).toNat)
    (hBw : B.width = A.width) (hBh : B.height = A.height) :
    (∀ k : Nat, 1 ≤ k →
        region_disabled A.width x0 y0 x1 y1 A.neurons
          (ping_pong draws (c2d_syn_disable A x0 y0 x1 y1) B k).1.neurons ∧
        region_disabled A.width x0 y0 x1 y1 A.neurons
          (ping_pong draws (c2d_syn_disable A x0 y0 x1 y1) B k).2.neurons) ∧
      (region_disabled A.width x0 y0 x1 y1 A.neurons B.neurons →
        ∀ k : Nat,
          region_disabled A.width x0 y0 x1 y1 A.neurons
            (ping_pong draws B (c2d_syn_disable A x0 y0 x1 y1) k).1.neurons ∧
          region_disabled A.width x0 y0 x1 y1 A.neurons
            (ping_pong draws B (c2d_syn_disable A x0 y0 x1 y1) k).2.neurons) ∧
      (∀ x y : Int, 0 ≤ x → x < A.width → 0 ≤ y → y < A.height →
        ¬ (x0 ≤ x ∧ x < x1 ∧ y0 ≤ y ∧ y < y1) →
        (neuron_at (c2d_syn_disable A x0 y0 x1 y1).neurons (IDX2D x y A.width)).max_syn_count =
          (neuron_at A.neurons (IDX2D x y A.width)).max_syn_count) := by
  obtain ⟨hw', hh', hlen', hreg, hout⟩ :=
    c2d_syn_disable_effect A x0 y0 x1 y1 hx0 hy0 hx1 hy1 hlenA
  have hinv : ∀ k : Nat,
      (ping_pong draws (c2d_syn_disable A x0 y0 x1 y1) B k).1.width = A.width ∧
      (ping_pong draws (c2d_syn_disable A x0 y0 x1 y1) B k).1.height = A.height ∧
      (ping_pong draws (c2d_syn_disable A x0 y0 x1 y1) B k).1.neurons.length =
        (A.width * A.height).toNat ∧
      (ping_pong draws (c2d_syn_disable A x0 y0 x1 y1) B k).2.width = A.width ∧
      (ping_pong draws (c2d_syn_disable A x0 y0 x1 y1) B k).2.height = A.height ∧
      (ping_pong draws (c2d_syn_disable A x0 y0 x1 y1) B k).2.neurons.length =
        (A.width * A.height).toNat ∧
      region_disabled A.width x0 y0 x1 y1 A.neurons
        (ping_pong draws (c2d_syn_disable A x0 y0 x1 y1) B k).1.neurons ∧
      (1 ≤ k → region_disabled A.width x0 y0 x1 y1 A.neurons
        (ping_pong draws (c2d_syn_disable A x0 y0 x1 y1) B k).2.neurons) := by
    intro k
    induction k with
    | zero =>
      exact ⟨hw', hh', hlen'.trans hlenA, hBw, hBh, hlenB, hreg, fun h => absurd h (by omega)⟩
    | succ k ih =>
      obtain ⟨h1w, h1h, h1l, h2w, h2h, h2l, hr1, hr2⟩ := ih
      unfold ping_pong
      by_cases hodd : (k + 1) % 2 = 1
      · rw [if_pos hodd]
        dsimp only
        have hs := c2d_tick_shape (draws (k + 1))
          (ping_pong draws (c2d_syn_disable A x0 y0 x1 y1) B k).1
          (ping_pong draws (c2d_syn_disable A x0 y0 x1 y1) B k).2
        have hr := c2d_tick_region_disabled (draws (k + 1))
          (ping_pong draws (c2d_syn_disable A x0 y0 x1 y1) B k).1
          (ping_pong draws (c2d_syn_disable A x0 y0 x1 y1) B k).2 A.neurons x0 y0 x1 y1 hx0 hy0
          (by rw [h1w]; exact hx1) (by rw [h1h]; exact hy1)
          (by rw [h1w, h1h]; exact h2l) (by rw [h1w]; exact hr1)
        rw [h1w] at hr
        exact ⟨h1w, h1h, h1l, hs.2.1.trans h2w, hs.2.2.trans h2h, hs.1.trans h2l, hr1,
          fun _ => hr⟩
      · rw [if_neg hodd]
        dsimp only
        have hk : 1 ≤ k := by omega
        have hs := c2d_tick_shape (draws (k + 1))
          (ping_pong draws (c2d_syn_disable A x0 y0 x1 y1) B k).2
          (ping_pong draws (c2d_syn_disable A x0 y0 x1 y1) B k).1
        have hr := c2d_tick_region_disabled (draws (k + 1))
          (ping_pong draws (c2d_syn_disable A x0 y0 x1 y1) B k).2
          (ping_pong draws (c2d_syn_disable A x0 y0 x1 y1) B k).1 A.neurons x0 y0 x1 y1 hx0 hy0
          (by rw [h2w]; exact hx1) (by rw [h2h]; exact hy1)
          (by rw [h2w, h2h]; exact h1l) (by rw [h2w]; exact hr2 hk)
        rw [h2w] at hr
        exact ⟨hs.2.1.trans h1w, hs.2.2.trans h1h, hs.1.trans h1l, h2w, h2h, h2l, hr,
          fun _ => hr2 hk⟩
  refine ⟨fun k hk => ⟨(hinv k).2.2.2.2.2.2.1, (hinv k).2.2.2.2.2.2.2 hk⟩, ?_, ?_⟩
  · intro hB k
    exact ping_pong_region_disabled draws B (c2d_syn_disable A x0 y0 x1 y1) A.neurons
      A.width A.height x0 y0 x1 y1 hx0 hy0 hx1 hy1 hBw hBh hlenB hw' hh'
      (hlen'.trans hlenA) hB hreg k
  intro x y hxa hxb hya hyb hnot
  rw [hout x y hxa hxb hya hyb hnot]

/-! ## C22, C29 on concrete grids -/

/-- The left column of the 2 x 2 grid `grid_a0` disabled: with `grid_b0` as the second grid when
the first tick reads the disabled grid, and with the second grid disabled too
(`c2d_syn_disable` called on `grid_b0` as well) when the first tick writes it. -/
theorem c2d_syn_disable_region_witness :
    ((∀ k : Nat, 1 ≤ k →
        region_disabled grid_a0.width 0 0 1 2 grid_a0.neurons
          (ping_pong (fun _ _ => 0) (c2d_syn_disable grid_a0 0 0 1 2) grid_b0 k).1.neurons ∧
        region_disabled grid_a0.width 0 0 1 2 grid_a0.neurons
          (ping_pong (fun _ _ => 0) (c2d_syn_disable grid_a0 0 0 1 2) grid_b0 k).2.neurons) ∧
      (∀ x y : Int, 0 ≤ x → x < grid_a0.width → 0 ≤ y → y < grid_a0.height →
        ¬ ((0 : Int) ≤ x ∧ x < 1 ∧ (0 : Int) ≤ y ∧ y < 2) →
        (neuron_at (c2d_syn_disable grid_a0 0 0 1 2).neurons
            (IDX2D x y grid_a0.width)).max_syn_count =
          (neuron_at grid_a0.neurons (IDX2D x y grid_a0.width)).max_syn_count)) ∧
      (∀ k : Nat,
        region_disabled grid_a0.width 0 0 1 2 grid_a0.neurons
          (ping_pong (fun _ _ => 0) (c2d_syn_disable grid_b0 0 0 1 2)
            (c2d_syn_disable grid_a0 0 0 1 2) k).1.neurons ∧
        region_disabled grid_a0.width 0 0 1 2 grid_a0.neurons
          (ping_pong (fun _ _ => 0) (c2d_syn_disable grid_b0 0 0 1 2)
            (c2d_syn_disable grid_a0 0 0 1 2) k).2.neurons) :=
  ⟨⟨(c2d_syn_disable_region (fun _ _ => 0) grid_a0 grid_b0 0 0 1 2 (by decide) (by decide)
      (by decide) (by decide) (by decide) (by decide) (by decide) (by decide)).1,
    (c2d_syn_disable_region (fun _ _ => 0) grid_a0 grid_b0 0 0 1 2 (by decide) (by decide)
      (by decide) (by decide) (by decide) (by decide) (by decide) (by decide)).2.2⟩,
    (c2d_syn_disable_region (fun _ _ => 0) grid_a0 (c2d_syn_disable grid_b0 0 0 1 2) 0 0 1 2
      (by decide) (by decide) (by decide) (by decide) (by decide) (by decide) (by decide)
      (by decide)).2.1
      (by
        intro x y hxa hxb hya hyb
        have hx : x = 0 := by omega
        subst hx
        have hy : y = 0 ∨ y = 1 := by omega
        rcases hy with hy | hy <;> subst hy
        · exact ⟨by decide, by
            intro slot hs
            have h0 : (neuron_at (c2d_syn_disable grid_b0 0 0 1 2).neurons
              (IDX2D 0 0 grid_a0.width)).synac_mask = 0 := by decide
            rw [h0, Nat.zero_testBit] at hs
            exact absurd hs (by decide)⟩
        · exact ⟨by decide, by
            intro slot hs
            have h0 : (neuron_at (c2d_syn_disable grid_b0 0 0 1 2).neurons
              (IDX2D 0 1 grid_a0.width)).synac_mask = 0 := by decide
            rw [h0, Nat.zero_testBit] at hs
            exact absurd hs (by decide)⟩)⟩

set_option maxRecDepth 1000000 in
/-- C22, as stated, fails when the call is made on the grid that the first tick writes. The
left column of `grid_b0` is disabled, `grid_a0` is not. Right after the call the neuron of cell
0 of the disabled grid has `max_syn_count = 0` and no synapse. The first tick,
`c2d_tick(grid_a0, disabled grid)`, overwrites it with the neuron of `grid_a0` (line 253): its
`max_syn_count` is 2 again. The third tick, which writes the same grid with draws equal to 0,
generates three synapses in it: `synac_mask = 416`. -/
theorem c2d_syn_disable_overwritten :
    (neuron_at (c2d_syn_disable grid_b0 0 0 1 2).neurons 0).max_syn_count = 0 ∧
      (neuron_at (c2d_syn_disable grid_b0 0 0 1 2).neurons 0).synac_mask = 0 ∧
      (neuron_at (ping_pong third_draws grid_a0 (c2d_syn_disable grid_b0 0 0 1 2) 1).2.neurons
        0).max_syn_count = 2 ∧
      (neuron_at (ping_pong third_draws grid_a0 (c2d_syn_disable grid_b0 0 0 1 2) 2).2.neurons
        0).synac_mask = 0 ∧
      (neuron_at (ping_pong third_draws grid_a0 (c2d_syn_disable grid_b0 0 0 1 2) 3).2.neurons
        0).max_syn_count = 2 ∧
      (neuron_at (ping_pong third_draws grid_a0 (c2d_syn_disable grid_b0 0 0 1 2) 3).2.neurons
        0).synac_mask = 416 ∧
      (neuron_at (ping_pong third_draws grid_a0 (c2d_syn_disable grid_b0 0 0 1 2) 3).2.neurons
        0).syn_count = 3 := by
  decide

set_option maxRecDepth 1000000 in
/-- The left column of `grid_a0` disabled, two ticks, every draw being 0: the neurons of the
left column (cells 0 and 2) have no synapse, those of the right column (cells 1 and 3) have
gained three each. When the call is made on the grid that the first tick writes (`grid_b0`)
and not on the one it reads, the tick overwrites the disabled neurons with those of `grid_a0`
and cell 0 gains its three synapses in the second tick. -/
theorem c2d_syn_disable_example :
    (neuron_at (ping_pong (fun _ _ => 0) (c2d_syn_disable grid_a0 0 0 1 2) grid_b0 2).1.neurons
        0).synac_mask = 0 ∧
      (neuron_at (ping_pong (fun _ _ => 0) (c2d_syn_disable grid_a0 0 0 1 2) grid_b0 2).1.neurons
        2).synac_mask = 0 ∧
      (neuron_at (ping_pong (fun _ _ => 0) (c2d_syn_disable grid_a0 0 0 1 2) grid_b0 2).1.neurons
        1).synac_mask = 200 ∧
      (neuron_at (ping_pong (fun _ _ => 0) (c2d_syn_disable grid_a0 0 0 1 2) grid_b0 2).1.neurons
        3).synac_mask = 11 ∧
      (neuron_at (c2d_syn_disable grid_b0 0 0 1 2).neurons 0).max_syn_count = 0 ∧
      (neuron_at (ping_pong (fun _ _ => 0) grid_a0 (c2d_syn_disable grid_b0 0 0 1 2) 1).2.neurons
        0).max_syn_count = 2 ∧
      (neuron_at (ping_pong (fun _ _ => 0) grid_a0 (c2d_syn_disable grid_b0 0 0 1 2) 2).1.neurons
        0).synac_mask = 416 := by
  decide

/-- The grid `fresh_b1` has `ticks_count = 1` and `evol_step = 10`: its tick into `fresh_a`
does not evolve. -/
theorem c2d_tick_no_plasticity_witness :
    (∀ idx : Int, 0 ≤ idx → idx < fresh_b1.width * fresh_b1.height →
        same_plasticity (neuron_at (c2d_tick (fun _ => 0) fresh_b1 fresh_a).neurons idx)
          (neuron_at fresh_b1.neurons idx)) ∧
      (c2d_tick (fun _ => 0) fresh_b1 fresh_a).evols_count = fresh_a.evols_count :=
  c2d_tick_no_plasticity (fun _ => 0) fresh_b1 fresh_a (by decide) (by decide) (by decide)
    (by decide) (by decide)

/-! ## C23: the cap of the cortex and the tick -/

theorem tick_slot_ignores_cap (xorshf32 : Nat → Nat) (prev_cortex : cortex2d_t) (m : Nat) (ir : Nat)
    (prev_neuron : neuron_t) (x y d : Int) (evolve : Bool) (j i : Int) (s : slot_state) :
    tick_slot xorshf32 { prev_cortex with max_syn_count := m } ir prev_neuron x y d evolve j i s =
      tick_slot xorshf32 prev_cortex ir prev_neuron x y d evolve j i s := by
  simp only [tick_slot, slot_body, neighbor_influence_step, structural_step, functional_step]

theorem tick_cell_ignores_cap (xorshf32 : Nat → Nat) (prev_cortex : cortex2d_t) (m : Nat) (ir : Nat)
    (x y : Int) (ev calls : Nat) :
    tick_cell xorshf32 { prev_cortex with max_syn_count := m } ir x y ev calls =
      tick_cell xorshf32 prev_cortex ir x y ev calls := by
  simp only [tick_cell, neighbor_loops, tick_slot_ignores_cap, cell_finish, evolve_gate]

/-- The field `max_syn_count` of the cortex is not read by `c2d_tick`: the tick of a cortex is
the tick of the same cortex after `c2d_set_max_syn_count`, whatever the argument. -/
theorem c2d_tick_ignores_cap (xorshf32 : Nat → Nat) (prev_cortex next_cortex : cortex2d_t)
    (syn_count : Nat) :
    c2d_tick xorshf32 (c2d_set_max_syn_count prev_cortex syn_count) next_cortex =
      c2d_tick xorshf32 prev_cortex next_cortex := by
  simp only [c2d_tick, cell_loops, tick_cell_step, c2d_set_max_syn_count, tick_cell_ignores_cap]

/-! ## C23, C24: the caps on concrete cortices -/

set_option maxRecDepth 1000000 in
/-- C23 on a concrete input. After `c2d_set_max_syn_count(.., 0)` on `grid_a0` the cortex has
`max_syn_count = 0` while its neurons keep `max_syn_count = 2`. In the second tick after the
call, every draw being 0, the neuron of cell 0, whose `syn_count` is `0 >= 0`, gains three
synapses (`synac_mask` 0 becomes 416). -/
theorem set_max_syn_count_not_applied :
    capped_a0.max_syn_count = 0 ∧ capped_b1.max_syn_count = 0 ∧
      (neuron_at capped_a0.neurons 0).max_syn_count = 2 ∧
      (neuron_at capped_b1.neurons 0).max_syn_count = 2 ∧
      (neuron_at capped_b1.neurons 0).syn_count = 0 ∧
      (neuron_at capped_b1.neurons 0).synac_mask = 0 ∧
      (neuron_at (c2d_tick (fun _ => 0) capped_b1 capped_a0).neurons 0).synac_mask = 416 ∧
      (neuron_at (c2d_tick (fun _ => 0) capped_b1 capped_a0).neurons 0).syn_count = 3 := by
  decide

set_option maxRecDepth 1000000 in
/-- C24 on concrete inputs. The cortex `fresh_a` (radius 1, 8 neighbor slots, `max_syn_count`
2) satisfies the cap invariant; after `c2d_set_max_syn_count(.., 255)` it has
`max_syn_count = 255` and does not. The cortex `wide_a` (radius 3, 48 slots, `max_syn_count`
12) satisfies it; `c2d_set_nhradius(.., 1)` returns `NO_ERROR` and leaves `max_syn_count = 12`
with 8 slots. -/
theorem setters_break_cap_invariant :
    cap_invariant fresh_a ∧
      (c2d_set_max_syn_count fresh_a 255).max_syn_count = 255 ∧
      (c2d_set_max_syn_count fresh_a 255).nh_radius = 1 ∧
      ¬ cap_invariant (c2d_set_max_syn_count fresh_a 255) ∧
      cap_invariant wide_a ∧ wide_a.max_syn_count = 12 ∧
      (c2d_set_nhradius wide_a 1).1 = error_code_t.NO_ERROR ∧
      (c2d_set_nhradius wide_a 1).2.nh_radius = 1 ∧
      (c2d_set_nhradius wide_a 1).2.max_syn_count = 12 ∧
      ¬ cap_invariant (c2d_set_nhradius wide_a 1).2 := by
  decide

/-! ## C25: the divisors of the tick -/

set_option maxRecDepth 1000000 in
/-- C25 on a concrete input. The cortex `zero_range_a` comes from `c2d_init`,
`c2d_set_evol_step`, `c2d_sqfeed` and `c2d_set_inhexc_range(.., 0)`; `zero_range_b1` is its copy
after one tick. In the first tick every divisor is 1; in the second tick `c2d_tick(zero_range_b1,
zero_range_a)`, every draw being 0, the first cell evaluates `evol_step + 1 = 1` and then, for
each of its three neighbors, `random % next_cortex->inhexc_range` with the divisor 0. -/
theorem tick_divides_by_zero_range :
    zero_range_a.inhexc_range = 0 ∧ zero_range_b1.inhexc_range = 0 ∧
      c2d_tick_divisors (fun _ => 0) zero_range_a (c2d_copy blank_cortex zero_range_a).2 =
        [1, 1, 1, 1] ∧
      (c2d_tick_divisors (fun _ => 0) zero_range_b1 zero_range_a).take 4 = [1, 0, 0, 0] ∧
      0 ∈ c2d_tick_divisors (fun _ => 0) zero_range_b1 zero_range_a := by
  decide

/-! ## C26: the order of the rows -/

/-- One worker: the rows in the order of the loop give `c2d_tick`. -/
theorem c2d_tick_rows_sequential (xorshf32 : Nat → Nat) (prev_cortex next_cortex : cortex2d_t) :
    c2d_tick_rows xorshf32 (loop_range 0 prev_cortex.height) prev_cortex next_cortex =
      c2d_tick xorshf32 prev_cortex next_cortex := rfl

set_option maxRecDepth 1000000 in
/-- C26 on a concrete input. The previous cortex is `grid_b1` (2 rows), the next one `grid_a0`,
the random source returns 0 at its first six calls and 0xFFFE afterwards. With one worker (row
0, then row 1) the cells of row 0 consume the first six draws and gain three synapses each
(`synac_mask = 416` in cell 0), the cells of row 1 none. When the worker of row 1 runs before
the worker of row 0, the cells of row 1 consume them: cell 0 stays at `synac_mask = 0`, cell 2
gets `synac_mask = 38`. The two next grids differ. -/
theorem row_order_changes_next_grid :
    loop_range 0 grid_b1.height = [0, 1] ∧
      c2d_tick_rows early_draws [0, 1] grid_b1 grid_a0 = c2d_tick early_draws grid_b1 grid_a0 ∧
      (neuron_at (c2d_tick_rows early_draws [0, 1] grid_b1 grid_a0).neurons 0).synac_mask = 416 ∧
      (neuron_at (c2d_tick_rows early_draws [0, 1] grid_b1 grid_a0).neurons 2).synac_mask = 0 ∧
      (neuron_at (c2d_tick_rows early_draws [1, 0] grid_b1 grid_a0).neurons 0).synac_mask = 0 ∧
      (neuron_at (c2d_tick_rows early_draws [1, 0] grid_b1 grid_a0).neurons 2).synac_mask = 38 ∧
      c2d_tick_rows early_draws [1, 0] grid_b1 grid_a0 ≠
        c2d_tick_rows early_draws [0, 1] grid_b1 grid_a0 := by
  have h : (neuron_at (c2d_tick_rows early_draws [0, 1] grid_b1 grid_a0).neurons 0).synac_mask
        = 416 ∧
      (neuron_at (c2d_tick_rows early_draws [1, 0] grid_b1 grid_a0).neurons 0).synac_mask = 0 := by
    decide
  refine ⟨by decide, rfl, h.1, by decide, h.2, by decide, fun heq => ?_⟩
  have h1 := h.2
  rw [heq, h.1] at h1
  exact absurd h1 (by decide)

/-! ## C27 on a concrete slot -/

set_option maxRecDepth 1000000 in
/-- C27, as stated, fails. In `excited_prev` the neuron of cell 0 is at the value -100 and has
one active excitatory synapse of strength 0 from its right neighbor, whose value 200 exceeds
the threshold 136. The influence of the slot is `32 >= 0`, yet `-100 + 32 = -68` is below
`recovery_value = -42`, so the running value is replaced by `recovery_value` and not increased
by 32 to -68; the neighbor loops leave -42, the tick leaves -41 after the decay step. -/
theorem recovery_clamp_hits_excitatory :
    excited_neuron.value = -100 ∧ excited_prev.recovery_value = -42 ∧
      (0x20 >>> 5) &&& 0x01 ≠ 0 ∧
      firing_neuron.value > excited_prev.fire_threshold ∧
      neighbor_influence excited_prev (0x20 >>> 5) 0 = 32 ∧
      (neighbor_influence_step excited_prev firing_neuron (0x20 >>> 5) (0x20 >>> 5) 0
        excited_neuron).value = excited_prev.recovery_value ∧
      (neighbor_influence_step excited_prev firing_neuron (0x20 >>> 5) (0x20 >>> 5) 0
        excited_neuron).value ≠ excited_neuron.value + 32 ∧
      (loop_neuron (fun _ => 0xFFFE) excited_prev 100 0 0 0 0).value = -42 ∧
      (neuron_at (c2d_tick (fun _ => 0xFFFE) excited_prev
        (c2d_copy blank_cortex excited_prev).2).neurons 0).value = -41 := by
  decide

/-! ## C28: the decay step -/

set_option maxRecDepth 1000000 in
/-- C28 on a concrete input. In `inhibited_prev` the neuron of cell 0 is at the value 5 and has
one active inhibitory synapse from its right neighbor, which fires. The neighbor loops leave
the value `5 - 32 = -27`; the decay step, which tests the previous value `5 > 0`, subtracts 1
and produces -28, further from zero than -27. The neuron has not fired, so -28 is the value
after the tick. -/
theorem decay_pushes_away_from_zero :
    data_invariants inhibited_prev ∧
      (neuron_at inhibited_prev.neurons 0).value = 5 ∧
      (loop_neuron (fun _ => 0xFFFE) inhibited_prev 100 0 0 0 0).value = -27 ∧
      (decay_step (neuron_at inhibited_prev.neurons 0)
        (loop_neuron (fun _ => 0xFFFE) inhibited_prev 100 0 0 0 0)).value = -28 ∧
      (neuron_at (c2d_tick (fun _ => 0xFFFE) inhibited_prev
        (c2d_copy blank_cortex inhibited_prev).2).neurons 0).value = -28 := by
  decide

/-! ## C30: the evolution counter -/

set_option maxRecDepth 1000000 in
/-- C30 on concrete inputs. The tick of the fresh 2 x 2 grid `fresh_a` of radius 1 evolves
(`ticks_count = 0`) and raises `evols_count` of the next cortex from 0 to 12, one increment for
each of the three neighbors that each of the four neurons has inside the grid, not to
`width * height = 4`. The tick of the fresh 1 x 1 grid `single_a` evolves and leaves
`evols_count` at 0: its neuron has no neighbor inside the grid. -/
theorem evols_count_counts_slots :
    evolve_gate fresh_a = true ∧ fresh_b.evols_count = 0 ∧
      fresh_a.width * fresh_a.height = 4 ∧
      (c2d_tick (fun _ => 0) fresh_a fresh_b).evols_count = 12 ∧
      evolve_gate single_a = true ∧ single_a.width * single_a.height = 1 ∧
      (c2d_copy blank_cortex single_a).2.evols_count = 0 ∧
      (c2d_tick (fun _ => 0) single_a (c2d_copy blank_cortex single_a).2).evols_count = 0 := by
  decide

/-! ## C27: the recovery clamp -/

theorem wrap16_of_range (v : Int) (h0 : -32768 ≤ v) (h1 : v < 32768) : wrap16 v = v := by
  unfold wrap16
  omega

/-- A consequence of the floor: for an active slot whose neighbor's previous value exceeds the
threshold, a non-negative influence is added exactly to a running value that is not below
`recovery_value`, when the sum fits the 16 bit value type. -/
theorem recovery_clamp_spares_nonneg (prev_cortex : cortex2d_t) (neighbor : neuron_t)
    (prev_ac_mask prev_exc_mask syn_strength : Nat) (next_neuron : neuron_t)
    (hac : prev_ac_mask &&& 0x01 ≠ 0)
    (hfire : neighbor.value > prev_cortex.fire_threshold)
    (hpos : 0 ≤ neighbor_influence prev_cortex prev_exc_mask syn_strength)
    (hfloor : prev_cortex.recovery_value ≤ next_neuron.value)
    (hlo : -32768 ≤ next_neuron.value)
    (hfit : next_neuron.value + neighbor_influence prev_cortex prev_exc_mask syn_strength
      ≤ 32767) :
    (neighbor_influence_step prev_cortex neighbor prev_ac_mask prev_exc_mask syn_strength
        next_neuron).value =
      next_neuron.value + neighbor_influence prev_cortex prev_exc_mask syn_strength := by
  unfold neighbor_influence at hpos hfit ⊢
  unfold neighbor_influence_step
  dsimp only
  rw [if_pos hac, if_pos hfire, if_neg (by omega)]
  exact wrap16_of_range _ (by omega) (by omega)

/-- In `excited_prev`, a neuron at the value 0 with an excitatory synapse from the firing
neighbor receives the influence 32. -/
theorem recovery_clamp_spares_nonneg_witness :
    (neighbor_influence_step excited_prev firing_neuron 1 1 0 quiet_neuron).value =
      quiet_neuron.value + neighbor_influence excited_prev 1 0 :=
  recovery_clamp_spares_nonneg excited_prev firing_neuron 1 1 0 quiet_neuron (by decide)
    (by decide) (by decide) (by decide) (by decide) (by decide)

/-- C27, as amended. For an active slot whose neighbor's previous value exceeds the threshold,
whatever the sign of the influence: when the running value plus the influence is below
`recovery_value` the running value is replaced by `recovery_value`; otherwise the influence is
added to the running value in the 16 bit value type, which is the exact sum when the sum does
not exceed 32767 (`recovery_value` being a 16 bit value), and the value is not replaced. -/
theorem recovery_clamp_floor (prev_cortex : cortex2d_t) (neighbor : neuron_t)
    (prev_ac_mask prev_exc_mask syn_strength : Nat) (next_neuron : neuron_t)
    (hac : prev_ac_mask &&& 0x01 ≠ 0)
    (hfire : neighbor.value > prev_cortex.fire_threshold) :
    (next_neuron.value + neighbor_influence prev_cortex prev_exc_mask syn_strength <
        prev_cortex.recovery_value →
      neighbor_influence_step prev_cortex neighbor prev_ac_mask prev_exc_mask syn_strength
        next_neuron = { next_neuron with value := prev_cortex.recovery_value }) ∧
      (prev_cortex.recovery_value ≤
          next_neuron.value + neighbor_influence prev_cortex prev_exc_mask syn_strength →
        neighbor_influence_step prev_cortex neighbor prev_ac_mask prev_exc_mask syn_strength
          next_neuron =
            { next_neuron with
              value := wrap16 (next_neuron.value +
                neighbor_influence prev_cortex prev_exc_mask syn_strength) }) ∧
      (prev_cortex.recovery_value ≤
          next_neuron.value + neighbor_influence prev_cortex prev_exc_mask syn_strength →
        -32768 ≤ prev_cortex.recovery_value →
        next_neuron.value + neighbor_influence prev_cortex prev_exc_mask syn_strength ≤ 32767 →
        (neighbor_influence_step prev_cortex neighbor prev_ac_mask prev_exc_mask syn_strength
          next_neuron).value =
            next_neuron.value + neighbor_influence prev_cortex prev_exc_mask syn_strength) := by
  unfold neighbor_influence
  unfold neighbor_influence_step
  dsimp only
  rw [if_pos hac, if_pos hfire]
  refine ⟨fun h => ?_, fun h => ?_, fun h hr hfit => ?_⟩
  · rw [if_pos h]
  · rw [if_neg (by omega)]
  · rw [if_neg (by omega)]
    exact wrap16_of_range _ (by omega) (by omega)

/-- In `excited_prev` the firing neighbor has an excitatory synapse of influence 32 to the
neuron: at the value -100 the sum -68 is below `recovery_value = -42` and the value becomes
-42; at the value 0 the neuron receives the influence and its value becomes 32. -/
theorem recovery_clamp_floor_witness :
    (neighbor_influence_step excited_prev firing_neuron 1 1 0 excited_neuron =
        { excited_neuron with value := excited_prev.recovery_value }) ∧
      ((neighbor_influence_step excited_prev firing_neuron 1 1 0 quiet_neuron).value =
        quiet_neuron.value + neighbor_influence excited_prev 1 0) :=
  ⟨(recovery_clamp_floor excited_prev firing_neuron 1 1 0 excited_neuron (by decide)
      (by decide)).1 (by decide),
    (recovery_clamp_floor excited_prev firing_neuron 1 1 0 quiet_neuron (by decide)
      (by decide)).2.2 (by decide) (by decide) (by decide)⟩

/-- The influence is added in the 16 bit value type: a neuron at the value 32760 that receives
the influence 32 is left at `32792 - 65536 = -32744`. -/
theorem influence_sum_wraps :
    neighbor_influence excited_prev 1 0 = 32 ∧
      (neighbor_influence_step excited_prev firing_neuron 1 1 0
        { quiet_neuron with value := 32760 }).value = -32744 := by
  decide

/-- A neuron below `recovery_value` receives a non-negative influence that brings the sum to
`recovery_value` or above: at the value -50 the influence 32 gives -18. -/
theorem influence_from_below_floor :
    excited_prev.recovery_value = -42 ∧
      (neighbor_influence_step excited_prev firing_neuron 1 1 0
        { quiet_neuron with value := -50 }).value = -18 := by
  decide

/-! ## C28: the decay step in the tick -/

/-- For a neuron that has not fired, the value after `cell_finish` is the value that the decay
step produces. -/
theorem cell_finish_value_decay (prev_cortex : cortex2d_t) (prev_neuron : neuron_t)
    (evolve : Bool) (n : neuron_t) (hq : ¬ prev_neuron.value > prev_cortex.fire_threshold) :
    (cell_finish prev_cortex prev_neuron evolve n).value = (decay_step prev_neuron n).value := by
  rw [cell_finish_value_quiet _ _ _ _ hq]
  unfold decay_step
  split_ifs <;> rfl

/-- The value that the tick computes for a cell whose neuron has not fired is the decay step
applied to the neuron that the neighbor loops leave. -/
theorem tick_cell_value_decay (xorshf32 : Nat → Nat) (prev_cortex : cortex2d_t) (ir : Nat)
    (x y : Int) (ev calls : Nat)
    (hq : ¬ (neuron_at prev_cortex.neurons (IDX2D x y prev_cortex.width)).value >
      prev_cortex.fire_threshold) :
    (tick_cell xorshf32 prev_cortex ir x y ev calls).next_neuron.value =
      (decay_step (neuron_at prev_cortex.neurons (IDX2D x y prev_cortex.width))
        (loop_neuron xorshf32 prev_cortex ir x y ev calls)).value := by
  unfold tick_cell loop_neuron
  dsimp only
  exact cell_finish_value_decay _ _ _ _ hq

/-- The decay step moves the value toward zero and not across it when the value left by the
neighbor loops has the sign of the previous value, which the step tests. -/
theorem decay_step_toward_zero (prev_neuron next_neuron : neuron_t)
    (hlo : -32768 ≤ next_neuron.value) (hhi : next_neuron.value < 32768)
    (hpos : 0 < prev_neuron.value → 0 < next_neuron.value)
    (hneg : prev_neuron.value < 0 → next_neuron.value < 0) :
    (0 ≤ next_neuron.value →
        0 ≤ (decay_step prev_neuron next_neuron).value ∧
          (decay_step prev_neuron next_neuron).value ≤ next_neuron.value) ∧
      (next_neuron.value ≤ 0 →
        next_neuron.value ≤ (decay_step prev_neuron next_neuron).value ∧
          (decay_step prev_neuron next_neuron).value ≤ 0) := by
  unfold decay_step DEFAULT_DECAY_RATE
  split_ifs with h1 h2
  · have := hpos h1
    show (0 ≤ _ → 0 ≤ wrap16 _ ∧ wrap16 _ ≤ _) ∧ (_ → _ ≤ wrap16 _ ∧ wrap16 _ ≤ 0)
    unfold wrap16
    constructor <;> intro _ <;> constructor <;> omega
  · have := hneg h2
    show (0 ≤ _ → 0 ≤ wrap16 _ ∧ wrap16 _ ≤ _) ∧ (_ → _ ≤ wrap16 _ ∧ wrap16 _ ≤ 0)
    unfold wrap16
    constructor <;> intro _ <;> constructor <;> omega
  · constructor <;> intro h <;> exact ⟨by omega, by omega⟩

/-! ## C25: the divisors that cannot be zero -/

theorem syn_strength_of_le (a b c : Nat) : syn_strength_of a b c ≤ 7 := by
  unfold syn_strength_of
  have ha : a &&& 0x01 < 2 ^ 3 := lt_of_le_of_lt Nat.and_le_right (by norm_num)
  have hb : (b &&& 0x01) <<< 0x01 < 2 ^ 3 := by
    have : b &&& 0x01 ≤ 1 := Nat.and_le_right
    rw [Nat.shiftLeft_eq]
    omega
  have hc : (c &&& 0x01) <<< 0x02 < 2 ^ 3 := by
    have : c &&& 0x01 ≤ 1 := Nat.and_le_right
    rw [Nat.shiftLeft_eq]
    omega
  have h := Nat.or_lt_two_pow (Nat.or_lt_two_pow ha hb) hc
  omega

theorem structural_divisors_nonzero (prev_cortex : cortex2d_t) (ir : Nat)
    (prev_neuron neighbor : neuron_t) (ac random : Nat) (n : neuron_t) (hir : ir ≠ 0)
    (h0 : 0 ≤ neighbor.tick_pulse) (h1 : neighbor.tick_pulse ≤ 127) :
    ∀ d ∈ structural_divisors prev_cortex ir prev_neuron neighbor ac random n, d ≠ 0 := by
  unfold structural_divisors
  split_ifs
  · intro d hd
    rw [List.mem_singleton] at hd
    subst hd
    unfold toU32
    omega
  · intro d hd
    rw [List.mem_singleton] at hd
    subst hd
    exact hir
  · intro d hd
    cases hd

theorem functional_divisors_nonzero (prev_cortex : cortex2d_t) (prev_neuron neighbor : neuron_t)
    (ac ss random : Nat) (n : neuron_t) (hss : ss ≤ 7)
    (h0 : 0 ≤ neighbor.evol_pulse) (h1 : neighbor.evol_pulse ≤ 127)
    (h2 : 0 ≤ n.evol_pulse) (h3 : n.evol_pulse ≤ 127) :
    ∀ d ∈ functional_divisors prev_cortex prev_neuron neighbor ac ss random n, d ≠ 0 := by
  unfold functional_divisors
  split_ifs
  · intro d hd
    cases hd
  · intro d hd
    rw [List.mem_singleton] at hd
    subst hd
    unfold toU32
    omega
  · intro d hd
    cases hd
  · intro d hd
    cases hd

/-- The pulse counts of a cell read from a cortex whose pulse counts lie in a window of at most
127: the counts of a neuron of the array, or those of the all-zero neuron. -/
theorem neuron_at_pulses (c : cortex2d_t) (hwin : c.pulse_window ≤ 127)
    (hp : pulses_in_window c) (idx : Int) :
    0 ≤ (neuron_at c.neurons idx).tick_pulse ∧ (neuron_at c.neurons idx).tick_pulse ≤ 127 ∧
      0 ≤ (neuron_at c.neurons idx).evol_pulse ∧ (neuron_at c.neurons idx).evol_pulse ≤ 127 := by
  rcases neuron_at_mem_or_zero c.neurons idx with h | h
  · have := hp _ h
    omega
  · rw [h]
    decide

theorem tick_slot_divisors_nonzero (xorshf32 : Nat → Nat) (prev_cortex : cortex2d_t) (ir : Nat)
    (prev_neuron : neuron_t) (x y d : Int) (evolve : Bool) (j i : Int) (s : slot_state)
    (hir : ir ≠ 0) (hwin : prev_cortex.pulse_window ≤ 127) (hp : pulses_in_window prev_cortex)
    (h2 : 0 ≤ s.next_neuron.evol_pulse) (h3 : s.next_neuron.evol_pulse ≤ 127) :
    ∀ v ∈ tick_slot_divisors xorshf32 prev_cortex ir prev_neuron x y d evolve j i s, v ≠ 0 := by
  unfold tick_slot_divisors
  dsimp only
  split_ifs with hcond
  · have hn := neuron_at_pulses prev_cortex hwin hp
      (IDX2D (WRAP (x + (i - prev_cortex.nh_radius)) prev_cortex.width)
        (WRAP (y + (j - prev_cortex.nh_radius)) prev_cortex.height) prev_cortex.width)
    intro v hv
    rcases List.mem_append.mp hv with h | h
    · exact structural_divisors_nonzero _ _ _ _ _ _ _ hir hn.1 hn.2.1 v h
    · refine functional_divisors_nonzero _ _ _ _ _ _ _ (syn_strength_of_le _ _ _) hn.2.2.1
        hn.2.2.2 ?_ ?_ v h
      · rw [(structural_step_pulses _ _ _ _ _ _ _ _ _).2.2.2,
          (neighbor_influence_step_pulses _ _ _ _ _ _).2.2.2]
        exact h2
      · rw [(structural_step_pulses _ _ _ _ _ _ _ _ _).2.2.2,
          (neighbor_influence_step_pulses _ _ _ _ _ _).2.2.2]
        exact h3
  · intro v hv
    cases hv

theorem neighbor_loops_divisors_nonzero (xorshf32 : Nat → Nat) (prev_cortex : cortex2d_t)
    (ir : Nat) (prev_neuron : neuron_t) (x y d : Int) (evolve : Bool) (s : slot_state)
    (hir : ir ≠ 0) (hwin : prev_cortex.pulse_window ≤ 127) (hp : pulses_in_window prev_cortex)
    (h2 : 0 ≤ s.next_neuron.evol_pulse) (h3 : s.next_neuron.evol_pulse ≤ 127) :
    ∀ v ∈ (neighbor_loops_divisors xorshf32 prev_cortex ir prev_neuron x y d evolve s).2,
      v ≠ 0 := by
  unfold neighbor_loops_divisors
  refine (nested_loop_preserves
    (fun (p : slot_state × List Nat) j i =>
      (tick_slot xorshf32 prev_cortex ir prev_neuron x y d evolve j i p.1,
        p.2 ++ tick_slot_divisors xorshf32 prev_cortex ir prev_neuron x y d evolve j i p.1))
    (fun p => p.1.next_neuron.evol_pulse = s.next_neuron.evol_pulse ∧ ∀ v ∈ p.2, v ≠ 0)
    d d (s, []) ⟨rfl, fun v hv => by cases hv⟩ ?_).2
  intro j i p ⟨he, hd⟩
  refine ⟨(tick_slot_pulses xorshf32 prev_cortex ir prev_neuron x y d evolve j i p.1).2.2.2.trans
    he, ?_⟩
  intro v hv
  rcases List.mem_append.mp hv with h | h
  · exact hd v h
  · exact tick_slot_divisors_nonzero xorshf32 prev_cortex ir prev_neuron x y d evolve j i p.1 hir
      hwin hp (by rw [he]; exact h2) (by rw [he]; exact h3) v h

theorem tick_cell_divisors_nonzero (xorshf32 : Nat → Nat) (prev_cortex : cortex2d_t) (ir : Nat)
    (x y : Int) (ev calls : Nat) (hir : ir ≠ 0) (hstep : prev_cortex.evol_step < 65536)
    (hwin : prev_cortex.pulse_window ≤ 127) (hp : pulses_in_window prev_cortex) :
    ∀ v ∈ tick_cell_divisors xorshf32 prev_cortex ir x y ev calls, v ≠ 0 := by
  unfold tick_cell_divisors
  dsimp only
  have hn := neuron_at_pulses prev_cortex hwin hp (IDX2D x y prev_cortex.width)
  intro v hv
  rcases List.mem_cons.mp hv with h | h
  · rw [h]
    norm_num
    omega
  · exact neighbor_loops_divisors_nonzero xorshf32 prev_cortex ir _ x y _ _ _ hir hwin hp
      hn.2.2.1 hn.2.2.2 v h

/-- Where the divisions of the tick are defined: when the pulse counts of the previous cortex
lie in a pulse window of at most 127 (`evol_step` being a 16 bit field) and `inhexc_range` of
the next cortex is not 0, no divisor that `c2d_tick` evaluates is 0, for every random source. -/
theorem c2d_tick_divisors_nonzero (xorshf32 : Nat → Nat) (prev_cortex next_cortex : cortex2d_t)
    (hstep : prev_cortex.evol_step < 65536) (hwin : prev_cortex.pulse_window ≤ 127)
    (hp : pulses_in_window prev_cortex) (hir : next_cortex.inhexc_range ≠ 0) :
    ∀ v ∈ c2d_tick_divisors xorshf32 prev_cortex next_cortex, v ≠ 0 := by
  unfold c2d_tick_divisors cell_loops_divisors
  refine (nested_loop_preserves
    (fun (p : tick_state × List Nat) y x =>
      (tick_cell_step xorshf32 prev_cortex y x p.1,
        p.2 ++ tick_cell_divisors xorshf32 prev_cortex p.1.next_cortex.inhexc_range x y
          p.1.next_cortex.evols_count p.1.calls))
    (fun p => p.1.next_cortex.inhexc_range = next_cortex.inhexc_range ∧ ∀ v ∈ p.2, v ≠ 0)
    prev_cortex.height prev_cortex.width ({ next_cortex := next_cortex, calls := 0 }, [])
    ⟨rfl, fun v hv => by cases hv⟩ ?_).2
  intro j i p ⟨he, hd⟩
  refine ⟨?_, ?_⟩
  · unfold tick_cell_step
    exact he
  · intro v hv
    rcases List.mem_append.mp hv with h | h
    · exact hd v h
    · exact tick_cell_divisors_nonzero xorshf32 prev_cortex _ i j _ _ (by rw [he]; exact hir)
        hstep hwin hp v h

/-! ## C30: what the evolution counter counts -/

/-- A counter that every iteration of a loop advances by the weight of its element, modulo `M`,
is advanced by the sum of the weights. -/
theorem foldl_counter {σ α : Type} (f : σ → α → σ) (c : σ → Nat) (w : α → Nat) (M : Nat)
    (l : List α) (s : σ) (h : ∀ a s, c (f s a) % M = (c s + w a) % M) :
    c (l.foldl f s) % M = (c s + (l.map w).sum) % M := by
  induction l generalizing s with
  | nil => simp
  | cons a l ih =>
    rw [List.foldl_cons, ih, List.map_cons, List.sum_cons, Nat.add_mod, h, ← Nat.add_mod]
    congr 1
    omega

theorem tick_slot_evols_count (xorshf32 : Nat → Nat) (prev_cortex : cortex2d_t) (ir : Nat)
    (prev_neuron : neuron_t) (x y d : Int) (j i : Int) (s : slot_state) :
    (tick_slot xorshf32 prev_cortex ir prev_neuron x y d true j i s).evols_count % 2 ^ 16 =
      (s.evols_count + (if slot_visited prev_cortex x y j i then 1 else 0)) % 2 ^ 16 := by
  unfold tick_slot slot_visited
  dsimp only
  by_cases hcond : (j ≠ prev_cortex.nh_radius ∨ i ≠ prev_cortex.nh_radius) ∧
      (x + (i - prev_cortex.nh_radius) ≥ 0 ∧ y + (j - prev_cortex.nh_radius) ≥ 0 ∧
        x + (i - prev_cortex.nh_radius) < prev_cortex.width ∧
        y + (j - prev_cortex.nh_radius) < prev_cortex.height)
  · rw [if_pos hcond]
    unfold slot_body
    simp only [if_true, decide_eq_true hcond]
    exact Nat.mod_mod _ _
  · rw [if_neg hcond]
    simp only [decide_eq_false hcond, Bool.false_eq_true, if_false, Nat.add_zero]

/-- On an evolving tick the cell `(x, y)` advances `evols_count` by the number of neighbors that
its neuron has inside the grid. -/
theorem tick_cell_evols_count (xorshf32 : Nat → Nat) (prev_cortex : cortex2d_t) (ir : Nat)
    (x y : Int) (ev calls : Nat) (hgate : evolve_gate prev_cortex = true) :
    (tick_cell xorshf32 prev_cortex ir x y ev calls).evols_count % 2 ^ 16 =
      (ev + cell_slots prev_cortex x y) % 2 ^ 16 := by
  unfold tick_cell neighbor_loops cell_slots
  dsimp only
  rw [hgate]
  exact foldl_counter _ (fun (s : slot_state) => s.evols_count) _ (2 ^ 16) _ _
    (fun j s => foldl_counter _ (fun (s : slot_state) => s.evols_count) _ (2 ^ 16) _ _
      (fun i s => tick_slot_evols_count xorshf32 prev_cortex ir _ x y _ j i s))

/-- What the evolution counter counts. On a tick for which the evolution gate is true,
`c2d_tick` advances `evols_count` of the next cortex by `grid_slots`, the number of in-grid
neighbors summed over the neurons of the grid, modulo `2^16`. -/
theorem c2d_tick_evols_count (xorshf32 : Nat → Nat) (prev_cortex next_cortex : cortex2d_t)
    (hgate : evolve_gate prev_cortex = true) :
    (c2d_tick xorshf32 prev_cortex next_cortex).evols_count % 2 ^ 16 =
      (next_cortex.evols_count + grid_slots prev_cortex) % 2 ^ 16 := by
  unfold c2d_tick cell_loops grid_slots
  dsimp only
  exact foldl_counter _ (fun (t : tick_state) => t.next_cortex.evols_count) _ (2 ^ 16) _ _
    (fun y t => foldl_counter _ (fun (t : tick_state) => t.next_cortex.evols_count) _ (2 ^ 16) _ _
      (fun x t => by
        unfold tick_cell_step
        exact tick_cell_evols_count xorshf32 prev_cortex _ x y _ _ hgate))

/-- The 2 x 2 grid of radius 1 has 12 in-grid neighbor slots, the 3 x 3 grid of radius 1 has
40, the 1 x 1 grid none. -/
theorem grid_slots_examples :
    grid_slots fresh_a = 12 ∧ grid_slots single_a = 0 ∧
      grid_slots (c2d_init sample_defaults blank_cortex 3 3 1).2 = 40 := by
  decide

/-! ## C31, C32 on concrete cortices -/

set_option maxRecDepth 1000000 in
/-- C31 on concrete inputs. In `stale_prev` the middle neuron has slot 3 inactive, with the
strength bit of a former synapse left in `synstr_mask_a`, and slot 5 active with strength 1.
In the tick, every draw being 0, slot 3 is generated and its strength bits are cleared; then
slot 5 is strengthened and the three masks are rebuilt from those of the previous neuron,
which brings the old bit back: slot 3 is inactive before the tick, active after it, and its
strength is 1. The same happens from `c2d_init` alone: after three ping-pong ticks of the
stimulated grid `row_a0` slot 3 of the middle neuron is inactive with the bit left by a
synapse deleted and strengthened in the same tick, and the fourth tick generates it at
strength 1. -/
theorem generated_synapse_keeps_old_strength :
    data_invariants stale_prev ∧
      (neuron_at stale_prev.neurons 1).synac_mask.testBit 3 = false ∧
      (neuron_at (c2d_tick (fun _ => 0) stale_prev
        (c2d_copy blank_cortex stale_prev).2).neurons 1).synac_mask.testBit 3 = true ∧
      strength_at (neuron_at (c2d_tick (fun _ => 0) stale_prev
        (c2d_copy blank_cortex stale_prev).2).neurons 1) 3 = 1 ∧
      (neuron_at (written_grid stale_draws row_a0 row_b0 3).neurons 1).synac_mask.testBit 3 =
        false ∧
      (neuron_at (written_grid stale_draws row_a0 row_b0 4).neurons 1).synac_mask.testBit 3 =
        true ∧
      strength_at (neuron_at (written_grid stale_draws row_a0 row_b0 4).neurons 1) 3 = 1 := by
  decide

set_option maxRecDepth 1000000 in
/-- C32 on a concrete input. In `deep_prev`, a grid of radius 3, the neuron of cell 0 has an
active synapse of strength 3 at slot 32. In the tick, every draw being 0, the synapse is
strengthened (`tot_syn_strength` goes from 3 to 4) and the bits of the new strength 4 are
written with `(syn_strength & 0x01U) << 32` and its two siblings, 32 bit values that cannot
hold bit 32: the slot is left with the strength 0, three below the strength it had. -/
theorem deep_slot_strength_lost :
    data_invariants deep_prev ∧ deep_prev.nh_radius = 3 ∧
      (IDX2D 4 4 (NH_DIAM_2D deep_prev.nh_radius)).toNat = 32 ∧
      (neuron_at deep_prev.neurons 0).synac_mask.testBit 32 = true ∧
      strength_at (neuron_at deep_prev.neurons 0) 32 = 3 ∧
      (neuron_at (c2d_tick (fun _ => 0) deep_prev
        (c2d_copy blank_cortex deep_prev).2).neurons 0).tot_syn_strength = 4 ∧
      (neuron_at (c2d_tick (fun _ => 0) deep_prev
        (c2d_copy blank_cortex deep_prev).2).neurons 0).synac_mask.testBit 32 = true ∧
      strength_at (neuron_at (c2d_tick (fun _ => 0) deep_prev
        (c2d_copy blank_cortex deep_prev).2).neurons 0) 32 = 0 := by
  decide

/-! ## C34: the pulse counts and the histories -/

theorem count_bits_succ_shift (m W : Nat) :
    count_bits m (W + 1) = (if m.testBit 0 then 1 else 0) + count_bits (m >>> 1) W := by
  induction W with
  | zero => simp [count_bits]
  | succ W ih =>
    have h : (m >>> 1).testBit W = m.testBit (W + 1) := by
      rw [Nat.testBit_shiftRight, Nat.add_comm]
    rw [count_bits, ih, count_bits, h]
    omega

theorem shiftRight_and_one (x m : Nat) :
    (x >>> m) &&& 0x01 = if x.testBit m then 1 else 0 := by
  have h := shiftRight_and_one_ne_zero_iff x m
  have hle : (x >>> m) &&& 0x01 ≤ 1 := Nat.and_le_right
  by_cases hb : x.testBit m = true
  · rw [if_pos hb]
    have := h.mpr hb
    omega
  · rw [if_neg hb]
    by_contra hne
    exact hb (h.mp hne)

/-- The strength that the tick reads from the three shifted masks at the slot `m` is the
strength that the masks of the previous neuron encode at `m`. -/
theorem syn_strength_of_shift (n : neuron_t) (m : Nat) :
    syn_strength_of (n.synstr_mask_a >>> m) (n.synstr_mask_b >>> m) (n.synstr_mask_c >>> m) =
      strength_at n m := by
  unfold syn_strength_of strength_at
  rw [shiftRight_and_one, shiftRight_and_one, shiftRight_and_one]
  split_ifs <;> rfl

theorem testBit_shl32_self (x m : Nat) (hm : m < 32) : (shl32 x m).testBit m = x.testBit 0 := by
  unfold shl32
  rw [Nat.testBit_mod_two_pow, Nat.testBit_shiftLeft]
  simp [hm]

theorem testBit_shl32_other (x m p : Nat) (hx : x ≤ 1) (hne : p ≠ m) :
    (shl32 x m).testBit p = false := by
  unfold shl32
  rw [Nat.testBit_mod_two_pow, Nat.testBit_shiftLeft]
  by_cases hge : p ≥ m
  · have hlt : x < 2 ^ (p - m) := by
      have : 2 ^ 1 ≤ 2 ^ (p - m) := Nat.pow_le_pow_right (by norm_num) (by omega)
      omega
    rw [Nat.testBit_lt_two_pow hlt]
    simp
  · simp [hge]

theorem strength_of_bits (v : Nat) (hv : v ≤ 7) :
    (if (v &&& 0x01).testBit 0 then 1 else 0) +
      (if ((v >>> 0x01) &&& 0x01).testBit 0 then 2 else 0) +
      (if ((v >>> 0x02) &&& 0x01).testBit 0 then 4 else 0) = v := by
  interval_cases v <;> decide

/-- The strength written at a slot below 32 is the strength read back at that slot. -/
theorem strength_at_store_self (prev_neuron : neuron_t) (v m : Nat) (n : neuron_t)
    (hm : m < 32) (hv : v ≤ 7) : strength_at (store_strength prev_neuron v m n) m = v := by
  unfold strength_at store_strength
  dsimp only
  simp only [Nat.testBit_or, testBit_clear_slot _ _ _ (by omega : m < 64),
    testBit_shl32_self _ _ hm]
  simp only [decide_True, Bool.not_true, Bool.and_false, Bool.false_or]
  exact strength_of_bits v hv

/-- Writing a strength at the slot `m` leaves, at every other slot below 64, the strength bits
of the previous neuron. -/
theorem slot_bits_store_other (prev_neuron : neuron_t) (v m p : Nat) (n : neuron_t)
    (hm : m < 64) (hp : p < 64) (hne : p ≠ m) :
    slot_bits_same (store_strength prev_neuron v m n) prev_neuron p := by
  unfold slot_bits_same store_strength
  dsimp only
  simp only [Nat.testBit_or, testBit_clear_slot _ _ _ hm,
    testBit_shl32_other _ _ _ Nat.and_le_right hne]
  simp [hp, Ne.symm hne]

theorem strength_at_of_bits_same {a b : neuron_t} {p : Nat} (h : slot_bits_same a b p) :
    strength_at a p = strength_at b p := by
  unfold strength_at
  rw [h.1, h.2.1, h.2.2]

/-- Whether the strength bits of a slot are tracked depends on the bits of the slot only. -/
theorem strength_tracked_congr {prev n n' : neuron_t} {p : Nat} (h : slot_bits_same n' n p)
    (ht : strength_tracked prev n p) : strength_tracked prev n' p := by
  have hs := strength_at_of_bits_same h
  unfold strength_tracked at ht ⊢
  rcases ht with h1 | h2 | h3 | h4
  · exact Or.inl ⟨h.1.trans h1.1, h.2.1.trans h1.2.1, h.2.2.trans h1.2.2⟩
  · exact Or.inr (Or.inl ⟨h2.1, h2.2.1, hs.trans h2.2.2⟩)
  · exact Or.inr (Or.inr (Or.inl ⟨h3.1, h3.2.1, by rw [hs]; exact h3.2.2⟩))
  · exact Or.inr (Or.inr (Or.inr ⟨h4.1, hs.trans h4.2⟩))

/-- Structural plasticity at the slot `m` keeps the strength bits of every slot tracked: a
deletion leaves the three masks, a generation clears the bits of the slot `m`, which was
inactive. -/
theorem structural_step_tracked (prev_cortex : cortex2d_t) (ir : Nat)
    (prev_neuron neighbor : neuron_t) (ac ss random m p : Nat) (n : neuron_t)
    (hm : m < 64) (hp : p < 64)
    (hbit : ac &&& 0x01 ≠ 0 ↔ prev_neuron.synac_mask.testBit m = true)
    (ht : strength_tracked prev_neuron n p) :
    strength_tracked prev_neuron
      (structural_step prev_cortex ir prev_neuron neighbor ac ss random m n) p := by
  unfold structural_step
  split_ifs with hdel hgen
  · exact strength_tracked_congr ⟨rfl, rfl, rfl⟩ ht
  · by_cases hpm : p = m
    · subst hpm
      have hin : prev_neuron.synac_mask.testBit p = false := by
        by_contra hcon
        exact hgen.1 (hbit.mpr (by simpa using hcon))
      refine Or.inr (Or.inr (Or.inr ⟨hin, ?_⟩))
      unfold strength_at
      dsimp only
      simp [testBit_clear_slot _ _ _ hm]
    · refine strength_tracked_congr ?_ ht
      unfold slot_bits_same
      dsimp only
      simp only [testBit_clear_slot _ _ _ hm]
      simp [hp, Ne.symm hpm]
  · exact ht

/-- Functional plasticity at a slot `m` below 32 keeps the strength bits of every slot tracked:
the slot `m` gets the strength it had in the previous neuron plus one, from below 7, or minus
one, from above 0, and every other slot gets the bits it had in the previous neuron. -/
theorem functional_step_tracked (prev_cortex : cortex2d_t) (prev_neuron neighbor : neuron_t)
    (ac ss random m p : Nat) (n : neuron_t) (hm : m < 32) (hp : p < 64)
    (hbit : ac &&& 0x01 ≠ 0 ↔ prev_neuron.synac_mask.testBit m = true)
    (hss : ss = strength_at prev_neuron m)
    (ht : strength_tracked prev_neuron n p) :
    strength_tracked prev_neuron
      (functional_step prev_cortex prev_neuron neighbor ac ss random m n) p := by
  unfold functional_step
  split_ifs with hac hup hdown
  · by_cases hpm : p = m
    · subst hpm
      have hlt : ss < 7 := hup.1
      refine Or.inr (Or.inl ⟨hbit.mp hac, by omega, ?_⟩)
      have h := strength_at_store_self prev_neuron (ss + 1) p n hm (by omega)
      rw [← hss]
      exact h
    · exact Or.inl (slot_bits_store_other prev_neuron (ss + 1) m p n (by omega) hp hpm)
  · by_cases hpm : p = m
    · subst hpm
      have hgt : ss > 0 := hdown.1
      have hle : ss ≤ 7 := by
        rw [hss]
        unfold strength_at
        split_ifs <;> omega
      refine Or.inr (Or.inr (Or.inl ⟨hbit.mp hac, by omega, ?_⟩))
      have h := strength_at_store_self prev_neuron (ss - 1) p n hm (by omega)
      rw [← hss]
      show strength_at (store_strength prev_neuron (ss - 1) p n) p + 1 = ss
      omega
    · exact Or.inl (slot_bits_store_other prev_neuron (ss - 1) m p n (by omega) hp hpm)
  · exact ht
  · exact ht

theorem strength_tracked_refl (n : neuron_t) (p : Nat) : strength_tracked n n p :=
  Or.inl ⟨rfl, rfl, rfl⟩

/-- One iteration of the neighbor loops, at a slot `m` below 32, carries the four shifted masks
from slot `m` to slot `m + 1` and keeps the strength bits of the slot `p` tracked. -/
theorem tick_slot_tracked (xorshf32 : Nat → Nat) (prev_cortex : cortex2d_t) (ir : Nat)
    (prev_neuron : neuron_t) (x y d : Int) (evolve : Bool) (j i : Int) (m p : Nat)
    (s : slot_state) (hm : (IDX2D i j d).toNat = m) (hlt : m < 32) (hp : p < 64)
    (hac : s.prev_ac_mask = prev_neuron.synac_mask >>> m)
    (hsa : s.prev_str_mask_a = prev_neuron.synstr_mask_a >>> m)
    (hsb : s.prev_str_mask_b = prev_neuron.synstr_mask_b >>> m)
    (hsc : s.prev_str_mask_c = prev_neuron.synstr_mask_c >>> m)
    (ht : strength_tracked prev_neuron s.next_neuron p) :
    (tick_slot xorshf32 prev_cortex ir prev_neuron x y d evolve j i s).prev_ac_mask =
        prev_neuron.synac_mask >>> (m + 1) ∧
      (tick_slot xorshf32 prev_cortex ir prev_neuron x y d evolve j i s).prev_str_mask_a =
        prev_neuron.synstr_mask_a >>> (m + 1) ∧
      (tick_slot xorshf32 prev_cortex ir prev_neuron x y d evolve j i s).prev_str_mask_b =
        prev_neuron.synstr_mask_b >>> (m + 1) ∧
      (tick_slot xorshf32 prev_cortex ir prev_neuron x y d evolve j i s).prev_str_mask_c =
        prev_neuron.synstr_mask_c >>> (m + 1) ∧
      strength_tracked prev_neuron
        (tick_slot xorshf32 prev_cortex ir prev_neuron x y d evolve j i s).next_neuron p := by
  have hshift : ∀ v : Nat, (v >>> m) >>> 0x01 = v >>> (m + 1) := by
    intro v
    rw [← Nat.shiftRight_add]
  have hbit : s.prev_ac_mask &&& 0x01 ≠ 0 ↔ prev_neuron.synac_mask.testBit m = true := by
    rw [hac, shiftRight_and_one_ne_zero_iff]
  have hss : syn_strength_of s.prev_str_mask_a s.prev_str_mask_b s.prev_str_mask_c =
      strength_at prev_neuron m := by
    rw [hsa, hsb, hsc, syn_strength_of_shift]
  unfold tick_slot
  dsimp only
  split_ifs with hcond
  · unfold slot_body
    dsimp only
    rw [hm]
    generalize hnb : neuron_at prev_cortex.neurons
      (IDX2D (WRAP (x + (i - prev_cortex.nh_radius)) prev_cortex.width)
        (WRAP (y + (j - prev_cortex.nh_radius)) prev_cortex.height) prev_cortex.width) = neighbor
    generalize hssg : syn_strength_of s.prev_str_mask_a s.prev_str_mask_b s.prev_str_mask_c = ss
      at hss
    generalize hrnd : xorshf32 s.calls % 2 ^ 32 % 0xFFFF = random
    obtain ⟨v, hv⟩ := neighbor_influence_step_keeps prev_cortex neighbor s.prev_ac_mask
      s.prev_exc_mask ss s.next_neuron
    have h1 : strength_tracked prev_neuron
        (neighbor_influence_step prev_cortex neighbor s.prev_ac_mask s.prev_exc_mask ss
          s.next_neuron) p := by
      rw [hv]
      exact strength_tracked_congr ⟨rfl, rfl, rfl⟩ ht
    cases evolve with
    | false =>
      simp only [Bool.false_eq_true, if_false]
      exact ⟨by rw [hac, hshift], by rw [hsa, hshift], by rw [hsb, hshift],
        by rw [hsc, hshift], h1⟩
    | true =>
      simp only [if_true]
      have h2 := structural_step_tracked prev_cortex ir prev_neuron neighbor s.prev_ac_mask ss
        random m p _ (by omega) hp hbit h1
      have h3 := functional_step_tracked prev_cortex prev_neuron neighbor s.prev_ac_mask ss
        random m p _ hlt hp hbit hss h2
      exact ⟨by rw [hac, hshift], by rw [hsa, hshift], by rw [hsb, hshift],
        by rw [hsc, hshift], h3⟩
  · exact ⟨by rw [hac, hshift], by rw [hsa, hshift], by rw [hsb, hshift], by rw [hsc, hshift],
      ht⟩

theorem diameter_le_five (r : Int) (hr : NH_COUNT_2D (NH_DIAM_2D r) < 32) :
    (NH_DIAM_2D r).toNat ≤ 5 := by
  unfold NH_COUNT_2D NH_DIAM_2D at hr
  unfold NH_DIAM_2D
  have h1 : r ≤ 2 := by nlinarith
  omega

/-- For a neighborhood of fewer than 32 slots, the neighbor loops keep the strength bits of
every slot below 64 tracked. -/
theorem neighbor_loops_tracked (xorshf32 : Nat → Nat) (prev_cortex : cortex2d_t) (ir : Nat)
    (prev_neuron : neuron_t) (x y : Int) (evolve : Bool) (ev calls p : Nat)
    (hr : NH_COUNT_2D (NH_DIAM_2D prev_cortex.nh_radius) < 32) (hp : p < 64) :
    strength_tracked prev_neuron
      (neighbor_loops xorshf32 prev_cortex ir prev_neuron x y (NH_DIAM_2D prev_cortex.nh_radius)
        evolve (cell_start prev_neuron ev calls)).next_neuron p := by
  have hd := diameter_le_five prev_cortex.nh_radius hr
  unfold neighbor_loops
  have := nested_loop_inv
    (fun s j i => tick_slot xorshf32 prev_cortex ir prev_neuron x y
      (NH_DIAM_2D prev_cortex.nh_radius) evolve j i s)
    (fun m s => s.prev_ac_mask = prev_neuron.synac_mask >>> m ∧
      s.prev_str_mask_a = prev_neuron.synstr_mask_a >>> m ∧
      s.prev_str_mask_b = prev_neuron.synstr_mask_b >>> m ∧
      s.prev_str_mask_c = prev_neuron.synstr_mask_c >>> m ∧
      strength_tracked prev_neuron s.next_neuron p)
    (NH_DIAM_2D prev_cortex.nh_radius) (NH_DIAM_2D prev_cortex.nh_radius)
    (cell_start prev_neuron ev calls)
    ⟨rfl, rfl, rfl, rfl, strength_tracked_refl _ _⟩
    (by
      intro j i s' hj hi ⟨h1, h2, h3, h4, h5⟩
      have hd0 : 0 ≤ NH_DIAM_2D prev_cortex.nh_radius := by omega
      have hidx := IDX2D_toNat (NH_DIAM_2D prev_cortex.nh_radius) j i hd0
      have hlt := cell_index_lt _ _ j i hj hi
      have hsq : (NH_DIAM_2D prev_cortex.nh_radius).toNat * (NH_DIAM_2D prev_cortex.nh_radius).toNat
          ≤ 5 * 5 := Nat.mul_le_mul hd hd
      exact tick_slot_tracked xorshf32 prev_cortex ir prev_neuron x y _ evolve j i _ p s' hidx
        (by omega) hp h1 h2 h3 h4 h5)
  exact this.2.2.2.2

theorem cell_finish_strength_masks (prev_cortex : cortex2d_t) (prev_neuron : neuron_t)
    (evolve : Bool) (n : neuron_t) (p : Nat) :
    slot_bits_same (cell_finish prev_cortex prev_neuron evolve n) n p := by
  unfold cell_finish slot_bits_same
  cases evolve with
  | false =>
    simp only [Bool.false_eq_true, if_false]
    split_ifs <;> exact ⟨rfl, rfl, rfl⟩
  | true =>
    simp only [eq_self_iff_true, if_true]
    split_ifs <;> exact ⟨rfl, rfl, rfl⟩

/-- For a neighborhood of fewer than 32 slots, the neuron that the tick computes for a cell
has the strength bits of every slot below 64 tracked from the previous neuron. -/
theorem tick_cell_tracked (xorshf32 : Nat → Nat) (prev_cortex : cortex2d_t) (ir : Nat)
    (x y : Int) (ev calls p : Nat)
    (hr : NH_COUNT_2D (NH_DIAM_2D prev_cortex.nh_radius) < 32) (hp : p < 64) :
    strength_tracked (neuron_at prev_cortex.neurons (IDX2D x y prev_cortex.width))
      (tick_cell xorshf32 prev_cortex ir x y ev calls).next_neuron p := by
  unfold tick_cell
  dsimp only
  exact strength_tracked_congr (cell_finish_strength_masks _ _ _ _ p)
    (neighbor_loops_tracked xorshf32 prev_cortex ir _ x y _ ev calls p hr hp)

/-- What a tick does to the strength of a slot, for a neighborhood of fewer than 32 slots
(radius up to 2), every random source and every cell. The strength of a slot that is active in
the previous cortex is left, raised by one from below 7 or lowered by one from above 0: it
saturates and does not wrap. A slot that is inactive in the previous cortex and whose strength
bits are clear there has the strength 0 after the tick, whether a synapse was generated or
not. -/
theorem c2d_tick_strength (xorshf32 : Nat → Nat) (prev_cortex next_cortex : cortex2d_t)
    (hw : 0 ≤ prev_cortex.width) (hh : 0 ≤ prev_cortex.height)
    (hlen : next_cortex.neurons.length = (prev_cortex.width * prev_cortex.height).toNat)
    (hr : NH_COUNT_2D (NH_DIAM_2D prev_cortex.nh_radius) < 32)
    (idx : Int) (h0 : 0 ≤ idx) (h1 : idx < prev_cortex.width * prev_cortex.height)
    (p : Nat) (hp : p < 64) :
    ((neuron_at prev_cortex.neurons idx).synac_mask.testBit p = true →
        strength_at (neuron_at (c2d_tick xorshf32 prev_cortex next_cortex).neurons idx) p =
            strength_at (neuron_at prev_cortex.neurons idx) p ∨
          (strength_at (neuron_at prev_cortex.neurons idx) p < 7 ∧
            strength_at (neuron_at (c2d_tick xorshf32 prev_cortex next_cortex).neurons idx) p =
              strength_at (neuron_at prev_cortex.neurons idx) p + 1) ∨
          (0 < strength_at (neuron_at prev_cortex.neurons idx) p ∧
            strength_at (neuron_at (c2d_tick xorshf32 prev_cortex next_cortex).neurons idx) p + 1 =
              strength_at (neuron_at prev_cortex.neurons idx) p)) ∧
      ((neuron_at prev_cortex.neurons idx).synac_mask.testBit p = false →
        strength_at (neuron_at prev_cortex.neurons idx) p = 0 →
        strength_at (neuron_at (c2d_tick xorshf32 prev_cortex next_cortex).neurons idx) p = 0) := by
  obtain ⟨x, y, ir, ev, calls, hidx, hcell⟩ :=
    c2d_tick_cell_at xorshf32 prev_cortex next_cortex hw hh hlen idx h0 h1
  have ht := tick_cell_tracked xorshf32 prev_cortex ir x y ev calls p hr hp
  rw [hidx, ← hcell] at ht
  unfold strength_tracked at ht
  constructor
  · intro hact
    rcases ht with h | h | h | h
    · exact Or.inl (strength_at_of_bits_same h)
    · exact Or.inr (Or.inl ⟨h.2.1, h.2.2⟩)
    · exact Or.inr (Or.inr ⟨h.2.1, h.2.2⟩)
    · rw [hact] at h
      exact absurd h.1 (by simp)
  · intro hin hzero
    rcases ht with h | h | h | h
    · rw [strength_at_of_bits_same h]
      exact hzero
    · rw [hin] at h
      exact absurd h.1 (by simp)
    · rw [hin] at h
      exact absurd h.1 (by simp)
    · exact h.2

/-! ## C33: bit 0 of the tick pulse history -/

/-- The tick pulse history that the tick computes for a cell has bit 0 clear: the history is
shifted left after the spike has been stored. -/
theorem tick_cell_history_bit_zero (xorshf32 : Nat → Nat) (prev_cortex : cortex2d_t) (ir : Nat)
    (x y : Int) (ev calls : Nat) :
    (tick_cell xorshf32 prev_cortex ir x y ev calls).next_neuron.tick_pulse_mask.testBit 0 =
      false := by
  unfold tick_cell
  dsimp only
  rw [(cell_finish_tick_pulse _ _ _ _).1, testBit_shl64_one]
  simp

/-- In every cortex reachable from `c2d_init`, whatever the pulse window asked for, bit 0 of the
tick pulse history of every neuron is clear. -/
theorem reachable_history_bit_zero (D : defaults_t) (width height nh_radius window : Int)
    (c : cortex2d_t) (hc : reachable D width height nh_radius window c) :
    ∀ n ∈ c.neurons, n.tick_pulse_mask.testBit 0 = false := by
  have hzero : zero_neuron.tick_pulse_mask.testBit 0 = false := by decide
  have hat : ∀ (ns : List neuron_t) (idx : Int),
      (∀ n ∈ ns, n.tick_pulse_mask.testBit 0 = false) →
      (neuron_at ns idx).tick_pulse_mask.testBit 0 = false := by
    intro ns idx h
    rcases neuron_at_mem_or_zero ns idx with hm | hz
    · exact h _ hm
    · rw [hz]; exact hzero
  induction hc with
  | init cortex hok =>
    intro n hn
    have hn' : n ∈ (c2d_init D cortex width height nh_radius).2.neurons := by
      unfold c2d_set_pulse_window at hn
      split_ifs at hn
      · exact hn
      · exact hn
    unfold c2d_init at hok hn'
    split_ifs at hok hn' with hbig
    dsimp only at hn'
    rcases init_neurons_mem _ _ _ _ n hn' with hmem | ⟨n0, rfl⟩
    · rw [mem_malloc_neurons _ _ hmem]; exact hzero
    · show (0x00 : Nat).testBit 0 = false
      decide
  | copy dst hreach ih =>
    intro n hn
    have hn' : n ∈ copy_neurons _ (malloc_neurons _) := hn
    rcases copy_neurons_mem _ _ n hn' with hmem | ⟨idx, rfl⟩
    · rw [mem_malloc_neurons _ _ hmem]; exact hzero
    · exact hat _ idx ih
  | stimulus stim hreach ih =>
    intro n hn
    unfold stimulate stimulate_neurons at hn
    dsimp only at hn
    obtain ⟨k, _, rfl⟩ := List.mem_map.mp hn
    exact hat _ (k : Int) ih
  | tick xorshf32 hprev hnext ihp ihn =>
    intro n hn
    rcases c2d_tick_mem xorshf32 _ _ n hn with hmem | ⟨x, y, ir, ev', calls, rfl⟩
    · exact ihn n hmem
    · exact tick_cell_history_bit_zero xorshf32 _ ir x y ev' calls

/-- When bit 0 of the tick pulse history is clear in both neurons, neither timing condition
holds and functional plasticity goes through the random component only. -/
theorem functional_step_without_timing (prev_cortex : cortex2d_t) (prev_neuron neighbor : neuron_t)
    (ac ss random slot : Nat) (n : neuron_t)
    (h1 : prev_neuron.tick_pulse_mask.testBit 0 = false)
    (h2 : neighbor.tick_pulse_mask.testBit 0 = false) :
    ¬ fired_right_before prev_neuron neighbor ∧ ¬ fired_right_after prev_neuron neighbor ∧
      functional_step prev_cortex prev_neuron neighbor ac ss random slot n =
        functional_step_random prev_cortex prev_neuron neighbor ac ss random slot n := by
  have hp : ¬ prev_neuron.tick_pulse_mask &&& 0x01 ≠ 0 := by
    rw [and_one_ne_zero_iff, h1]
    simp
  have hn : ¬ neighbor.tick_pulse_mask &&& 0x01 ≠ 0 := by
    rw [and_one_ne_zero_iff, h2]
    simp
  refine ⟨fun h => hp h.1, fun h => hn h.2, ?_⟩
  unfold functional_step functional_step_random
  have e1 : (prev_neuron.tick_pulse_mask &&& 0x01 ≠ 0 ∧
      (neighbor.tick_pulse_mask >>> 0x01) &&& 0x01 ≠ 0) ↔ False :=
    ⟨fun h => hp h.1, False.elim⟩
  have e2 : ((prev_neuron.tick_pulse_mask >>> 0x01) &&& 0x01 ≠ 0 ∧
      neighbor.tick_pulse_mask &&& 0x01 ≠ 0) ↔ False :=
    ⟨fun h => hn h.2, False.elim⟩
  simp only [e1, e2, false_or]

theorem quiescent_zero_neuron : quiescent zero_neuron := ⟨rfl, rfl, rfl, rfl, rfl⟩

theorem quiescent_init_cell (m : Nat) (n : neuron_t) : quiescent (init_cell m n) :=
  ⟨rfl, rfl, rfl, rfl, rfl⟩

theorem quiescent_neuron_at (ns : List neuron_t) (idx : Int) (h : ∀ n ∈ ns, quiescent n) :
    quiescent (neuron_at ns idx) := by
  rcases neuron_at_mem_or_zero ns idx with hm | hz
  · exact h _ hm
  · rw [hz]; exact quiescent_zero_neuron

/-- Storing into a cell the neuron that it holds leaves the array. -/
theorem neuron_store_self (ns : List neuron_t) (idx : Int) :
    neuron_store ns idx (neuron_at ns idx) = ns := by
  unfold neuron_store neuron_at
  split_ifs with h
  · apply List.ext_getElem?
    intro k
    rw [List.getElem?_set]
    split_ifs with h1 h2
    · rw [← h1, List.getD_eq_getElem?_getD, List.getElem?_eq_getElem h2]
      rfl
    · rw [← h1]
      exact (List.getElem?_eq_none (by omega)).symm
    · rfl
  · rfl

/-- Structural plasticity does nothing to an inactive slot whose neighbor has no tick pulse. -/
theorem structural_step_quiescent (prev_cortex : cortex2d_t) (ir : Nat)
    (prev_neuron neighbor : neuron_t) (ss random slot : Nat) (n : neuron_t)
    (htp : neighbor.tick_pulse = 0) :
    structural_step prev_cortex ir prev_neuron neighbor 0 ss random slot n = n := by
  unfold structural_step
  rw [htp]
  have h0 : toU32 0 = 0 := by decide
  rw [h0]
  simp

theorem functional_step_inactive (prev_cortex : cortex2d_t) (prev_neuron neighbor : neuron_t)
    (ss random slot : Nat) (n : neuron_t) :
    functional_step prev_cortex prev_neuron neighbor 0 ss random slot n = n := by
  unfold functional_step
  simp

/-- On a cortex whose neurons are at rest, one iteration of the neighbor loops that starts with
an empty activity mask leaves the neuron being written and the mask. -/
theorem tick_slot_quiescent (xorshf32 : Nat → Nat) (prev_cortex : cortex2d_t) (ir : Nat)
    (prev_neuron : neuron_t) (x y d : Int) (evolve : Bool) (j i : Int) (s : slot_state)
    (hq : ∀ n ∈ prev_cortex.neurons, quiescent n) (hac : s.prev_ac_mask = 0) :
    (tick_slot xorshf32 prev_cortex ir prev_neuron x y d evolve j i s).prev_ac_mask = 0 ∧
      (tick_slot xorshf32 prev_cortex ir prev_neuron x y d evolve j i s).next_neuron =
        s.next_neuron := by
  unfold tick_slot
  dsimp only
  split_ifs with hcond
  · unfold slot_body
    dsimp only
    rw [hac, neighbor_influence_step_idle]
    have htp := (quiescent_neuron_at prev_cortex.neurons
      (IDX2D (WRAP (x + (i - prev_cortex.nh_radius)) prev_cortex.width)
        (WRAP (y + (j - prev_cortex.nh_radius)) prev_cortex.height) prev_cortex.width) hq).2.2.2.1
    cases evolve with
    | false =>
      simp only [Bool.false_eq_true, if_false]
      exact ⟨rfl, trivial⟩
    | true =>
      simp only [if_true]
      rw [structural_step_quiescent _ _ _ _ _ _ _ _ htp, functional_step_inactive]
      exact ⟨rfl, rfl⟩
  · rw [hac]
    exact ⟨rfl, rfl⟩

theorem neighbor_loops_quiescent (xorshf32 : Nat → Nat) (prev_cortex : cortex2d_t) (ir : Nat)
    (prev_neuron : neuron_t) (x y d : Int) (evolve : Bool) (s : slot_state)
    (hq : ∀ n ∈ prev_cortex.neurons, quiescent n) (hac : s.prev_ac_mask = 0) :
    (neighbor_loops xorshf32 prev_cortex ir prev_neuron x y d evolve s).next_neuron =
      s.next_neuron := by
  unfold neighbor_loops
  refine (nested_loop_preserves
    (fun s j i => tick_slot xorshf32 prev_cortex ir prev_neuron x y d evolve j i s)
    (fun s' => s'.prev_ac_mask = 0 ∧ s'.next_neuron = s.next_neuron)
    d d s ⟨hac, rfl⟩ ?_).2
  intro j i s' ⟨h1, h2⟩
  have h := tick_slot_quiescent xorshf32 prev_cortex ir prev_neuron x y d evolve j i s' hq h1
  exact ⟨h.1, h.2.trans h2⟩

/-- A neuron at rest is left by the decay, firing and history steps, for a threshold and a
pulse window that are not negative. -/
theorem cell_finish_quiescent (prev_cortex : cortex2d_t) (n : neuron_t) (evolve : Bool)
    (hq : quiescent n) (hth : 0 ≤ prev_cortex.fire_threshold)
    (hwin : 0 ≤ prev_cortex.pulse_window) :
    cell_finish prev_cortex n evolve n = n := by
  obtain ⟨h1, h2, h3, h4, h5⟩ := hq
  have hs : shl64 0 0x01 = 0 := by decide
  have hp : pulse_above_tenth 0 prev_cortex.pulse_window = false := by
    unfold pulse_above_tenth
    exact decide_eq_false (by omega)
  cases n with
  | mk sa se a b c tpm tp epm ep v mx sc ts ir =>
    simp only at h1 h2 h3 h4 h5
    subst h1 h2 h3 h4 h5
    unfold cell_finish
    cases evolve with
    | false =>
      simp only [Bool.false_eq_true, if_false]
      have hnf : ¬ (0 : Int) > prev_cortex.fire_threshold := by omega
      simp [hnf, hs]
    | true =>
      simp only [eq_self_iff_true, if_true]
      have hnf : ¬ (0 : Int) > prev_cortex.fire_threshold := by omega
      simp [hnf, hs, hp]

/-- On a cortex at rest the tick computes for every cell the neuron that the cell holds. -/
theorem tick_cell_quiescent (xorshf32 : Nat → Nat) (prev_cortex : cortex2d_t) (ir : Nat)
    (x y : Int) (ev calls : Nat) (hq : ∀ n ∈ prev_cortex.neurons, quiescent n)
    (hth : 0 ≤ prev_cortex.fire_threshold) (hwin : 0 ≤ prev_cortex.pulse_window) :
    (tick_cell xorshf32 prev_cortex ir x y ev calls).next_neuron =
      neuron_at prev_cortex.neurons (IDX2D x y prev_cortex.width) := by
  have hn := quiescent_neuron_at prev_cortex.neurons (IDX2D x y prev_cortex.width) hq
  unfold tick_cell
  dsimp only
  rw [neighbor_loops_quiescent xorshf32 prev_cortex ir _ x y _ _ _ hq hn.1]
  exact cell_finish_quiescent prev_cortex _ _ hn hth hwin

/-- A tick that reads a cortex at rest into a cortex with the same neuron array changes the
two counters only. -/
theorem c2d_tick_quiescent (xorshf32 : Nat → Nat) (prev_cortex next_cortex : cortex2d_t)
    (hq : ∀ n ∈ prev_cortex.neurons, quiescent n)
    (hth : 0 ≤ prev_cortex.fire_threshold) (hwin : 0 ≤ prev_cortex.pulse_window)
    (hsame : next_cortex.neurons = prev_cortex.neurons) :
    ∃ tc ev : Nat, c2d_tick xorshf32 prev_cortex next_cortex =
      { next_cortex with ticks_count := tc, evols_count := ev } := by
  have hns : (c2d_tick xorshf32 prev_cortex next_cortex).neurons = next_cortex.neurons := by
    rw [c2d_tick_neurons]
    unfold cell_loops
    refine nested_loop_preserves
      (fun t y x => tick_cell_step xorshf32 prev_cortex y x t)
      (fun t => t.next_cortex.neurons = next_cortex.neurons)
      prev_cortex.height prev_cortex.width _ rfl ?_
    intro j i t ht
    unfold tick_cell_step
    dsimp only
    rw [tick_cell_quiescent xorshf32 prev_cortex _ i j _ _ hq hth hwin, ht, hsame]
    exact neuron_store_self _ _
  obtain ⟨tc, ev, ns, h⟩ := c2d_tick_frame xorshf32 prev_cortex next_cortex
  refine ⟨tc, ev, ?_⟩
  rw [h] at hns ⊢
  simp only at hns
  rw [hns]

/-- Two nested loops of which one has no iteration leave the state. -/
theorem nested_loop_empty {σ : Type} (f : σ → Int → Int → σ) (h w : Int) (s : σ)
    (he : h ≤ 0 ∨ w ≤ 0) :
    (loop_range 0 h).foldl (fun s j => (loop_range 0 w).foldl (fun s i => f s j i) s) s = s := by
  have := nested_loop_inv f (fun _ s' => s' = s) h w s rfl
    (fun j i s' hj hi _ => by
      exfalso
      rcases he with he | he <;> omega)
  exact this

theorem length_init_neurons (width height : Int) (m : Nat) (ns : List neuron_t) :
    (init_neurons width height m ns).length = ns.length := by
  unfold init_neurons
  refine nested_loop_preserves
    (fun ns y x =>
      neuron_store ns (IDX2D x y width) (init_cell m (neuron_at ns (IDX2D x y width))))
    (fun s => s.length = ns.length) height width ns rfl ?_
  intro j i s hs
  rw [length_neuron_store]
  exact hs

/-- The state that `c2d_init` leaves has its neurons at rest, a threshold and a pulse window
that are not negative, and `c2d_copy` makes an equal record of it, for every width and
height. -/
theorem c2d_init_at_rest (D : defaults_t) (cortex dst : cortex2d_t) (width height nh_radius : Int)
    (hok : (c2d_init D cortex width height nh_radius).1 = error_code_t.NO_ERROR) :
    (∀ n ∈ (c2d_init D cortex width height nh_radius).2.neurons, quiescent n) ∧
      0 ≤ (c2d_init D cortex width height nh_radius).2.fire_threshold ∧
      0 ≤ (c2d_init D cortex width height nh_radius).2.pulse_window ∧
      (c2d_copy dst (c2d_init D cortex width height nh_radius).2).2 =
        (c2d_init D cortex width height nh_radius).2 := by
  unfold c2d_init at hok ⊢
  split_ifs at hok ⊢ with hbig
  dsimp only
  refine ⟨?_, by decide, by decide, ?_⟩
  · intro n hn
    rcases init_neurons_mem _ _ _ _ n hn with hmem | ⟨n0, rfl⟩
    · rw [mem_malloc_neurons _ _ hmem]; exact quiescent_zero_neuron
    · exact quiescent_init_cell _ n0
  · by_cases hdim : 0 ≤ width ∧ 0 ≤ height
    · refine (c2d_copy_fidelity dst _ hdim.1 hdim.2).2.2.2 ?_
      show (init_neurons _ _ _ _).length = _
      rw [length_init_neurons, length_malloc_neurons]
    · have he : height ≤ 0 ∨ width ≤ 0 := by omega
      unfold c2d_copy copy_neurons init_neurons
      dsimp only
      rw [nested_loop_empty _ height width _ he, nested_loop_empty _ height width _ he]

theorem length_malloc_block (fresh : Nat → neuron_t) (n : Int) :
    (malloc_block fresh n).length = n.toNat := by
  simp [malloc_block]

/-- On two distinct addresses the copy loops on a memory leave every record but the one at
`to`, whose neuron array they fill as the copy loops of `c2d_copy` do. -/
theorem copy_loops_at_distinct (memory : Nat → cortex2d_t) (dst src : Nat) (hne : dst ≠ src) :
    (∀ a, a ≠ dst → copy_loops_at dst src memory a = memory a) ∧
      copy_loops_at dst src memory dst =
        { memory dst with neurons := copy_neurons (memory src) (memory dst).neurons } := by
  unfold copy_loops_at copy_neurons
  have h := nested_loop_rel
    (fun (m : Nat → cortex2d_t) y x => copy_cell_at dst src y x m)
    (fun (ns : List neuron_t) y x =>
      neuron_store ns (IDX2D x y (memory src).width)
        (neuron_at (memory src).neurons (IDX2D x y (memory src).width)))
    (fun (m : Nat → cortex2d_t) (ns : List neuron_t) =>
      (∀ a, a ≠ dst → m a = memory a) ∧ m dst = { memory dst with neurons := ns })
    (memory src).height (memory src).width memory (memory dst).neurons
    ⟨fun _ _ => rfl, rfl⟩
    (by
      intro j i m ns ⟨h1, h2⟩
      have hsrc : m src = memory src := h1 _ (Ne.symm hne)
      beta_reduce
      unfold copy_cell_at
      refine ⟨?_, ?_⟩
      · intro a ha
        unfold memory_write
        rw [if_neg ha]
        exact h1 a ha
      · unfold memory_write
        rw [if_pos rfl, hsrc, h2])
  exact h

/-- When both arguments of `c2d_copy` are the same cortex the loops copy every cell onto
itself: they leave the memory as it is. -/
theorem copy_loops_at_self (memory : Nat → cortex2d_t) (a : Nat) :
    copy_loops_at a a memory = memory := by
  unfold copy_loops_at
  have h := nested_loop_inv
    (fun (m : Nat → cortex2d_t) y x => copy_cell_at a a y x m)
    (fun _ m => m = memory) (memory a).height (memory a).width memory rfl
    (by
      intro j i m _ _ hm
      subst hm
      beta_reduce
      unfold copy_cell_at
      rw [neuron_store_self]
      funext b
      unfold memory_write
      split_ifs with hb
      · rw [hb]
      · rfl)
  exact h

/-- The copy loops overwrite every cell of an array of `width * height` cells: their result
does not depend on what the array held. -/
theorem copy_neurons_block (src : cortex2d_t) (ns ns' : List neuron_t)
    (hw : 0 ≤ src.width) (hlen : ns.length = src.width.toNat * src.height.toNat)
    (hlen' : ns'.length = src.width.toNat * src.height.toNat) :
    copy_neurons src ns = copy_neurons src ns' := by
  have h := copy_neurons_cells src ns hw hlen
  have h' := copy_neurons_cells src ns' hw hlen'
  apply List.ext_getElem?
  intro k
  by_cases hk : k < src.width.toNat * src.height.toNat
  · rw [h.2 k hk, h'.2 k hk]
  · rw [List.getElem?_eq_none (by omega), List.getElem?_eq_none (by omega)]

/-- `c2d_copy` on two distinct addresses of a memory: every record but the one at `dst` is
left as it was, and the record at `dst` receives the scalar fields of the source and a fresh
block filled by the copy loops. -/
theorem c2d_copy_at_distinct (fresh : Nat → neuron_t) (memory : Nat → cortex2d_t)
    (dst src : Nat) (hne : dst ≠ src) :
    (∀ a, a ≠ dst → (c2d_copy_at fresh memory dst src).2 a = memory a) ∧
      (c2d_copy_at fresh memory dst src).2 dst =
        { (c2d_copy (memory dst) (memory src)).2 with
          neurons := copy_neurons (memory src)
            (malloc_block fresh ((memory src).width * (memory src).height)) } := by
  unfold c2d_copy_at
  dsimp only
  have h := copy_loops_at_distinct
    (copy_allocate_at fresh (copy_parameters_at memory dst src) dst) dst src hne
  have hsrc : copy_allocate_at fresh (copy_parameters_at memory dst src) dst src = memory src := by
    unfold copy_allocate_at copy_parameters_at memory_write
    rw [if_neg (Ne.symm hne), if_neg (Ne.symm hne)]
  refine ⟨?_, ?_⟩
  · intro a ha
    rw [h.1 a ha]
    unfold copy_allocate_at copy_parameters_at memory_write
    rw [if_neg ha, if_neg ha]
  · rw [h.2, hsrc]
    unfold copy_allocate_at copy_parameters_at memory_write c2d_copy
    simp only [if_pos]

/-- `c2d_copy` with both arguments the same cortex: the scalar fields are assigned to
themselves, the neuron array is replaced by the fresh block, and the loops copy the block onto
itself. The neurons that the cortex held are lost, whatever the block holds. -/
theorem c2d_copy_at_same (fresh : Nat → neuron_t) (memory : Nat → cortex2d_t) (a : Nat) :
    (c2d_copy_at fresh memory a a).2 a =
      { memory a with
        neurons := malloc_block fresh ((memory a).width * (memory a).height) } := by
  unfold c2d_copy_at
  dsimp only
  rw [copy_loops_at_self]
  unfold copy_allocate_at copy_parameters_at memory_write
  simp only [if_pos]

/-- C9, as amended. For every memory, every content of the free storage and every two distinct
addresses, after `c2d_copy(to, from)` the call reports `NO_ERROR`; the record at `from` is the
record that was there before, and so is every record but the one at `to`; every scalar
parameter of `to` equals the corresponding parameter of `from`; every cell `(x, y)` of the grid
of `to` equals the same cell of `from` field by field, and so does every cell with index in
`[0, width * height)` when the width and the height are not both negative. For non-negative
dimensions the record at `to` is the result of the functional model `c2d_copy`. -/
theorem c2d_copy_at_fidelity (fresh : Nat → neuron_t) (memory : Nat → cortex2d_t)
    (dst src : Nat) (hne : dst ≠ src) :
    (c2d_copy_at fresh memory dst src).1 = error_code_t.NO_ERROR ∧
      (c2d_copy_at fresh memory dst src).2 src = memory src ∧
      (∀ a, a ≠ dst → (c2d_copy_at fresh memory dst src).2 a = memory a) ∧
      same_parameters ((c2d_copy_at fresh memory dst src).2 dst) (memory src) ∧
      (∀ x y : Int, 0 ≤ x → x < (memory src).width → 0 ≤ y → y < (memory src).height →
        neuron_at ((c2d_copy_at fresh memory dst src).2 dst).neurons
            (IDX2D x y (memory src).width) =
          neuron_at (memory src).neurons (IDX2D x y (memory src).width)) ∧
      (0 ≤ (memory src).width ∨ 0 ≤ (memory src).height →
        same_cells ((c2d_copy_at fresh memory dst src).2 dst) (memory src)) ∧
      (0 ≤ (memory src).width → 0 ≤ (memory src).height →
        (c2d_copy_at fresh memory dst src).2 dst =
          (c2d_copy (memory dst) (memory src)).2) := by
  obtain ⟨hframe, hdst⟩ := c2d_copy_at_distinct fresh memory dst src hne
  have hfun : 0 ≤ (memory src).width → 0 ≤ (memory src).height →
      (c2d_copy_at fresh memory dst src).2 dst = (c2d_copy (memory dst) (memory src)).2 := by
    intro hw hh
    have hL := toNat_mul_of_nonneg (memory src).width (memory src).height hw hh
    rw [hdst, copy_neurons_block (memory src)
      (malloc_block fresh ((memory src).width * (memory src).height))
      (malloc_neurons ((memory src).width * (memory src).height)) hw
      (by rw [length_malloc_block, hL]) (by rw [length_malloc_neurons, hL])]
    rfl
  have hcells : 0 ≤ (memory src).width ∨ 0 ≤ (memory src).height →
      same_cells ((c2d_copy_at fresh memory dst src).2 dst) (memory src) := by
    intro hor idx h0 h1
    by_cases hw : 0 ≤ (memory src).width
    · by_cases hh : 0 ≤ (memory src).height
      · have hL := toNat_mul_of_nonneg (memory src).width (memory src).height hw hh
        have hc := copy_neurons_cells (memory src)
          (malloc_block fresh ((memory src).width * (memory src).height)) hw
          (by rw [length_malloc_block, hL])
        have hk : idx.toNat < (memory src).width.toNat * (memory src).height.toNat := by
          rw [← hL]; omega
        have := neuron_at_of_getElem? _ _ _ (hc.2 idx.toNat hk)
        rw [Int.toNat_of_nonneg h0] at this
        rw [hdst]
        exact this
      · exfalso
        have : (memory src).width * (memory src).height ≤ 0 :=
          mul_nonpos_of_nonneg_of_nonpos hw (by omega)
        omega
    · exfalso
      have hh : 0 ≤ (memory src).height := by
        rcases hor with h | h
        · exact absurd h hw
        · exact h
      have : (memory src).width * (memory src).height ≤ 0 :=
        mul_nonpos_of_nonpos_of_nonneg (by omega) hh
      omega
  refine ⟨rfl, hframe src (Ne.symm hne), hframe, ?_, ?_, hcells, hfun⟩
  · rw [hdst]
    exact ⟨rfl, rfl, rfl, rfl, rfl, rfl, rfl, rfl, rfl, rfl, rfl, rfl, rfl, rfl, rfl, rfl, rfl,
      rfl, rfl, rfl, rfl⟩
  · intro x y hx0 hx1 hy0 hy1
    have hin := IDX2D_in_grid (memory src).width (memory src).height x y hx0 hx1 hy0 hy1
    exact hcells (Or.inl (by omega)) _ hin.1 hin.2

/-- The copy of the stimulated 2 x 2 grid `grid_a0`, at address 0, into the record at address
1, the fresh block holding used neurons. -/
theorem c2d_copy_at_fidelity_witness :
    (1 : Nat) ≠ 0 ∧
      (c2d_copy_at used_storage copy_memory 1 0).1 = error_code_t.NO_ERROR ∧
      (c2d_copy_at used_storage copy_memory 1 0).2 0 = copy_memory 0 ∧
      (∀ a, a ≠ 1 → (c2d_copy_at used_storage copy_memory 1 0).2 a = copy_memory a) ∧
      same_parameters ((c2d_copy_at used_storage copy_memory 1 0).2 1) (copy_memory 0) ∧
      (∀ x y : Int, 0 ≤ x → x < (copy_memory 0).width → 0 ≤ y → y < (copy_memory 0).height →
        neuron_at ((c2d_copy_at used_storage copy_memory 1 0).2 1).neurons
            (IDX2D x y (copy_memory 0).width) =
          neuron_at (copy_memory 0).neurons (IDX2D x y (copy_memory 0).width)) ∧
      (0 ≤ (copy_memory 0).width ∨ 0 ≤ (copy_memory 0).height →
        same_cells ((c2d_copy_at used_storage copy_memory 1 0).2 1) (copy_memory 0)) ∧
      (0 ≤ (copy_memory 0).width → 0 ≤ (copy_memory 0).height →
        (c2d_copy_at used_storage copy_memory 1 0).2 1 =
          (c2d_copy (copy_memory 1) (copy_memory 0)).2) :=
  ⟨by decide, c2d_copy_at_fidelity used_storage copy_memory 1 0 (by decide)⟩

set_option maxRecDepth 1000000 in
/-- C9, as stated, fails when `to` and `from` are the same cortex. The cortex at address 0 is
the stimulated 2 x 2 grid `grid_a0`, every neuron at the value 200 with `max_syn_count = 2`.
After `c2d_copy` with both arguments at address 0 the call reports `NO_ERROR` and the scalar
parameters are as before, but the neuron array is the fresh block of line 82, which the loops
copied onto itself: with a cleared block every neuron is at the value 0 with
`max_syn_count = 0`, with a block of used cells every neuron has three active synapses. The
cortex `from` has changed. -/
theorem c2d_copy_at_self_clobbers :
    (copy_memory 0).width * (copy_memory 0).height = 4 ∧
      (neuron_at (copy_memory 0).neurons 0).value = 200 ∧
      (neuron_at (copy_memory 0).neurons 0).max_syn_count = 2 ∧
      (neuron_at (copy_memory 0).neurons 0).synac_mask = 0 ∧
      (c2d_copy_at cleared_storage copy_memory 0 0).1 = error_code_t.NO_ERROR ∧
      same_parameters ((c2d_copy_at cleared_storage copy_memory 0 0).2 0) (copy_memory 0) ∧
      (neuron_at ((c2d_copy_at cleared_storage copy_memory 0 0).2 0).neurons 0).value = 0 ∧
      (neuron_at ((c2d_copy_at cleared_storage copy_memory 0 0).2 0).neurons 0).max_syn_count
        = 0 ∧
      (neuron_at ((c2d_copy_at used_storage copy_memory 0 0).2 0).neurons 0).synac_mask
        = 416 ∧
      (c2d_copy_at cleared_storage copy_memory 0 0).2 0 ≠ copy_memory 0 ∧
      (c2d_copy_at used_storage copy_memory 0 0).2 0 ≠ copy_memory 0 := by
  have h : (neuron_at (copy_memory 0).neurons 0).value = 200 ∧
      (neuron_at (copy_memory 0).neurons 0).synac_mask = 0 ∧
      (neuron_at ((c2d_copy_at cleared_storage copy_memory 0 0).2 0).neurons 0).value = 0 ∧
      (neuron_at ((c2d_copy_at used_storage copy_memory 0 0).2 0).neurons 0).synac_mask
        = 416 := by
    decide
  refine ⟨by decide, h.1, by decide, h.2.1, rfl, by decide, h.2.2.1, by decide, h.2.2.2,
    fun heq => ?_, fun heq => ?_⟩
  · have h1 := h.2.2.1
    rw [heq, h.1] at h1
    exact absurd h1 (by decide)
  · have h1 := h.2.2.2
    rw [heq, h.2.1] at h1
    exact absurd h1 (by decide)

set_option maxRecDepth 1000000 in
/-- When the width and the height of the source are both negative the block of
`width * height` cells is allocated and no cell is copied (the loops have no iteration): cell 0
of the copy of `inverted_src` holds what the block held, not the neuron of the source. -/
theorem c2d_copy_at_inverted :
    inverted_src.width = -1 ∧ inverted_src.height = -1 ∧
      (0 : Int) < inverted_src.width * inverted_src.height ∧
      (neuron_at inverted_src.neurons 0).value = 200 ∧
      (neuron_at ((c2d_copy_at cleared_storage inverted_memory 1 0).2 1).neurons 0).value = 0 ∧
      ¬ same_cells ((c2d_copy_at cleared_storage inverted_memory 1 0).2 1)
        (inverted_memory 0) := by
  have h : (neuron_at (inverted_memory 0).neurons 0).value = 200 ∧
      (neuron_at ((c2d_copy_at cleared_storage inverted_memory 1 0).2 1).neurons 0).value
        = 0 := by
    decide
  refine ⟨by decide, by decide, by decide, h.1, h.2, fun hs => ?_⟩
  have h1 := hs 0 (by decide) (by decide)
  have h2 := h.2
  rw [h1, h.1] at h2
  exact absurd h2 (by decide)

/-! ## The 32 bit operand of the strength masks -/

/-- Whatever 32 bit value an operand `(syn_strength & 0x01U) << neighbor_nh_index` yields for a
shift count of 32 or more, which C leaves undefined, the mask word of lines 365-367 and
376-378 has the bit of the slot clear: no 32 bit value reaches the slots 32 to 63. -/
theorem strength_bit_out_of_reach (mask r neighbor_nh_index : Nat) (hr : r < 2 ^ 32)
    (hlo : 32 ≤ neighbor_nh_index) (hhi : neighbor_nh_index < 64) :
    ((mask &&& not64 (shl64 0x01 neighbor_nh_index)) ||| r).testBit neighbor_nh_index =
      false := by
  have hr' : r < 2 ^ neighbor_nh_index :=
    lt_of_lt_of_le hr (Nat.pow_le_pow_right (by norm_num) hlo)
  rw [Nat.testBit_or, Nat.testBit_lt_two_pow hr', Bool.or_false]
  have h := testBit_clear_slot mask neighbor_nh_index neighbor_nh_index hhi
  simpa using h

end Liath
